import Mathlib

/-!
# ccnet-cxx: a shallow embedding of the CCNET bill-validator driver

Sources embedded: `src/src/utility.cpp`, `src/src/cash_type.cpp`,
`src/src/bill_validator.cpp` and the declarations of
`src/include/ccnet-cxx/*.h`.

Conventions of the embedding

* A byte (`std::uint8_t`) is a `Nat` below 256, a `std::uint16_t` a `Nat`
  below `2 ^ 16`, a `std::uint64_t` / `std::size_t` a `Nat` below `2 ^ 64`;
  every truncation the C++ performs is written as an explicit `%`.
* `std::vector<std::uint8_t>` and `std::string` are `List Nat`.
* A C++ exception is a value of `error`; a function that can throw returns
  `Except error _`, paired with the state it leaves behind when it has one.
* `assert` has its standard meaning (the build does not define `NDEBUG`):
  a false assertion aborts, which is the outcome `error.assertion_failed`.
* Loops with a counter become structural recursion on that counter.
-/

namespace ccnet

/-! ## Exceptions -/

/-- The exceptions of the driver, one constructor for each message thrown in
`bill_validator.cpp` and `utility.cpp`, and one for each library exception
the code can provoke. -/
inductive error where
  /-- "synchronisation error" -/
  | synchronisation_error
  /-- "crc error" -/
  | crc_error
  /-- "unable to receive data from bill validator" -/
  | unable_to_receive_data
  /-- "illegal command" -/
  | illegal_command
  /-- "command was not correctly received by bill validator" -/
  | command_not_received
  /-- "invalid payload" -/
  | invalid_payload
  /-- "serial port read-write error" (a caught `boost::system::system_error`) -/
  | serial_port_read_write_error
  /-- "invalid data received" -/
  | invalid_data_received
  /-- "invalid cash type" -/
  | invalid_cash_type
  /-- "specified cash type is not supported" -/
  | cash_type_not_supported
  /-- "command processing error" (stored in a promise by a handler) -/
  | command_processing_error
  /-- "invalid arguments" (thrown by `power`) -/
  | invalid_arguments
  /-- `std::out_of_range`, thrown by `std::map::at` and `std::string::erase` -/
  | out_of_range
  /-- `std::length_error`, thrown by `std::vector::resize` -/
  | length_error
  /-- A false `assert` (the process aborts) -/
  | assertion_failed
  /-- An integer division by zero (undefined behaviour) -/
  | division_by_zero
  /-- An access to a vector element outside the vector (undefined behaviour) -/
  | out_of_bounds
  deriving DecidableEq, Repr

/-! ## utility.cpp -/

/-- `set_bit`: `byte = byte | (1 << bit_number)`, stored back into a
`std::uint8_t` (the bits above bit 7 are dropped by the store). -/
def set_bit (byte bit_number : Nat) : Nat :=
  (byte ||| (1 <<< bit_number)) % 256

/-- `is_bit_set`: `(byte & (1 << bit_number)) != 0`. -/
def is_bit_set (byte bit_number : Nat) : Bool :=
  (byte &&& (1 <<< bit_number)) != 0

/-- The loop of `power`: `result *= base`, once for each `i` in
`1 ..= exponent`, in 64-bit unsigned arithmetic. -/
def power_loop (base : Nat) : Nat → Nat → Nat
  | 0, result => result
  | n + 1, result => power_loop base n ((result * base) % 2 ^ 64)

/-- `power(base, exponent)` on `std::uint64_t`. -/
def power (base exponent : Nat) : Except error Nat :=
  if base = 0 ∧ exponent = 0 then .error .invalid_arguments
  else .ok (power_loop base exponent 1)

/-- `get_abs_exponent`: `byte & 0x7F`. -/
def get_abs_exponent (byte : Nat) : Nat :=
  byte &&& 0x7F

/-- The characters `" \n\r\t"` that `trim` passes to the searches. -/
def trim_characters : List Nat := [32, 10, 13, 9]

/-- `std::string::find_first_not_of(" \n\r\t")`; `none` is `npos`. -/
def find_first_not_of : List Nat → Option Nat
  | [] => none
  | c :: cs =>
    if c ∈ trim_characters then (find_first_not_of cs).map (· + 1) else some 0

/-- `std::string::find_last_not_of(" \n\r\t")`; `none` is `npos`. -/
def find_last_not_of : List Nat → Option Nat
  | [] => none
  | c :: cs =>
    match find_last_not_of cs with
    | some k => some (k + 1)
    | none => if c ∈ trim_characters then none else some 0

/-- `trim`: the copy `result` first loses its leading characters
(`erase(0, npos)` empties it), then `result.erase(pos)` is called with a
position computed on the ORIGINAL string (`npos + 1` wraps to `0`);
`erase(pos)` throws `std::out_of_range` when `pos > result.size()`. -/
def trim (string : List Nat) : Except error (List Nat) :=
  let result :=
    match find_first_not_of string with
    | none => []
    | some k => string.drop k
  let pos :=
    match find_last_not_of string with
    | none => 0
    | some k => k + 1
  if pos > result.length then .error .out_of_range else .ok (result.take pos)

/-! ## cash_type.h, cash_type.cpp, ccnet.h -/

/-- `ccnet::cash_type`. -/
structure cash_type where
  currency_code : List Nat
  denomination : Nat
  deriving DecidableEq, Repr

/-- `operator<` of `std::string`: lexicographic on the character values. -/
def string_lt : List Nat → List Nat → Bool
  | [], [] => false
  | [], _ :: _ => true
  | _ :: _, [] => false
  | a :: as, b :: bs => if a < b then true else if b < a then false else string_lt as bs

/-- `ccnet::operator==` on `cash_type`. -/
def cash_type.eq (lhs rhs : cash_type) : Bool :=
  (lhs.currency_code == rhs.currency_code) && (lhs.denomination == rhs.denomination)

/-- `ccnet::operator!=` on `cash_type`. -/
def cash_type.ne (lhs rhs : cash_type) : Bool :=
  !(cash_type.eq lhs rhs)

/-- `ccnet::operator<` on `cash_type`. -/
def cash_type.lt (lhs rhs : cash_type) : Bool :=
  if lhs.currency_code != rhs.currency_code then
    string_lt lhs.currency_code rhs.currency_code
  else
    decide (lhs.denomination < rhs.denomination)

/-- `ccnet::operator>` on `cash_type`. -/
def cash_type.gt (lhs rhs : cash_type) : Bool :=
  if lhs.currency_code != rhs.currency_code then
    string_lt rhs.currency_code lhs.currency_code
  else
    decide (lhs.denomination > rhs.denomination)

/-- `ccnet::device_info`. -/
structure device_info where
  part_number : List Nat
  serial_number : List Nat
  asset_number : Nat
  deriving DecidableEq, Repr

/-- `ccnet::bill_security_level`. -/
inductive bill_security_level where
  | normal
  | high
  deriving DecidableEq, Repr

/-- `ccnet::cash_action`. -/
inductive cash_action where
  | hold_cash
  | accept_cash
  | return_cash
  deriving DecidableEq, Repr

/-! ## Constants of bill_validator.cpp and bill_validator.h -/

def POLYNOMIAL : Nat := 0x08408
def byte_size : Nat := 8
def ack : Nat := 0x00
def nak : Nat := 0xff
def ill_cmd : Nat := 0x30
def sync : Nat := 0x02
def bill_validator_addr : Nat := 0x03
def header_size : Nat := 3
def sync_offset : Nat := 0
def adr_offset : Nat := 1
def lng_offset : Nat := 2
def currency_base : Nat := 10
def exponent_sign_bit_number : Nat := 7
/-- `sizeof(crc16)`. -/
def sizeof_crc16 : Nat := 2
def bill_types_count_max : Nat := 24
def bill_type_record_size : Nat := 5
def set_security_command_data_size : Nat := 3
def enable_bill_types_command_data_size : Nat := 6
def poll_min_result_data_size : Nat := 1
def poll_max_result_data_size : Nat := 2
def get_bill_table_result_data_size : Nat := bill_types_count_max * bill_type_record_size
def identification_result_data_size : Nat := 34
def get_status_result_data_size : Nat := 6

/-- `bill_validator::device_state_code`, a `std::uint8_t`: `poll` casts any
received byte to it, so a code is a byte and the enumerators are names of
some of them. -/
abbrev device_state_code := Nat

namespace device_state_code
def unknown : Nat := 0x00
def power_up : Nat := 0x10
def power_up_with_bill_in_val : Nat := 0x11
def power_up_with_bill_in_stack : Nat := 0x12
/-- The enumerator `initialize` of the source. -/
def initialise : Nat := 0x13
def idling : Nat := 0x14
def accepting : Nat := 0x15
def stacking : Nat := 0x17
def returning : Nat := 0x18
def unit_disabled : Nat := 0x19
def holding : Nat := 0x1a
def device_busy : Nat := 0x1b
def rejecting : Nat := 0x1c
def drop_cassette_full : Nat := 0x41
def drop_cassette_out_of_pos : Nat := 0x42
def validator_jammed : Nat := 0x43
def drop_cassette_jammed : Nat := 0x44
def cheated : Nat := 0x45
def pause : Nat := 0x46
def failure : Nat := 0x47
def escrow_pos : Nat := 0x80
def bill_stacked : Nat := 0x81
def bill_returned : Nat := 0x82
end device_state_code

/-- `bill_validator::device_state`; the default is `(unknown, 0)`. -/
structure device_state where
  code : device_state_code := device_state_code.unknown
  info : Nat := 0
  deriving DecidableEq, Repr

/-- `bill_validator::device_command_code`, a `std::uint8_t`. -/
abbrev device_command_code := Nat

namespace device_command_code
def reset : Nat := 0x30
def get_status : Nat := 0x31
def set_security : Nat := 0x32
def poll : Nat := 0x33
def enable_bill_types : Nat := 0x34
def stack_bill : Nat := 0x35
def return_bill : Nat := 0x36
def identification : Nat := 0x37
def hold_bill : Nat := 0x38
def set_barcode_parameters : Nat := 0x39
def extract_barcode_data : Nat := 0x3a
def get_bill_table : Nat := 0x41
def download : Nat := 0x50
def get_crc32 : Nat := 0x51
def request_statistics : Nat := 0x60
end device_command_code

/-- `bill_validator::device_command`. -/
structure device_command where
  code : device_command_code
  data : List Nat
  deriving DecidableEq, Repr

/-! ## The frame codec -/

/-- One pass of the inner loop of `get_crc` (one bit). -/
def get_crc_bit (crc : Nat) : Nat :=
  if crc &&& 0x0001 ≠ 0 then ((crc >>> 1) ^^^ POLYNOMIAL) % 2 ^ 16 else crc >>> 1

/-- One pass of the outer loop of `get_crc`: `crc ^= frame[i]`, then the
eight passes of the inner loop. -/
def get_crc_byte (crc byte : Nat) : Nat :=
  Nat.iterate get_crc_bit 8 ((crc ^^^ byte) % 2 ^ 16)

/-- `bill_validator::get_crc`. -/
def get_crc (frame : List Nat) : Nat :=
  frame.foldl get_crc_byte 0

/-- `bill_validator::read_uint16`: `((std::uint16_t)(frame[1] << 8)) | frame[0]`. -/
def read_uint16 (frame : List Nat) : Nat :=
  ((((frame.getD 1 0) <<< 8) % 2 ^ 16) ||| frame.getD 0 0) % 2 ^ 16

/-- `bill_validator::write_uint16`: two `push_back`s, low byte first. -/
def write_uint16 (frame : List Nat) (value : Nat) : List Nat :=
  frame ++ [(value &&& 0xFF) % 256, (value >>> 8) % 256]

/-- `bill_validator::build_command_frame`. The length is stored into a
`std::uint8_t`, hence the `% 256`. -/
def build_command_frame (command : device_command) : List Nat :=
  let command_frame := [sync, bill_validator_addr, 0, command.code] ++ command.data
  let command_frame := command_frame.set 2 ((command_frame.length + sizeof_crc16) % 256)
  write_uint16 command_frame (get_crc command_frame)

/-- The frame `send_ack` builds before it writes it. -/
def ack_frame (device_address : Nat) : List Nat :=
  let ack_frame := [sync, device_address, 0, ack]
  let ack_frame := ack_frame.set 2 ((ack_frame.length + sizeof_crc16) % 256)
  write_uint16 ack_frame (get_crc ack_frame)

/-- The frame `send_nak` builds before it writes it. -/
def nak_frame (device_address : Nat) : List Nat :=
  let nak_frame := [sync, device_address, 0, nak]
  let nak_frame := nak_frame.set 2 ((nak_frame.length + sizeof_crc16) % 256)
  write_uint16 nak_frame (get_crc nak_frame)

/-! ## The serial port -/

/-- The serial line as the driver sees it: the bytes the device will still
deliver, in order, and the buffers written so far, oldest first (one entry
for each call of `write`). -/
structure serial_port where
  input : List Nat
  output : List (List Nat)
  deriving DecidableEq, Repr

/-- `write(this->serial_port, buffer(frame))`. -/
def serial_port.write (port : serial_port) (frame : List Nat) : serial_port :=
  { port with output := port.output ++ [frame] }

/-- `read(this->serial_port, buffer(target, size))`: exactly `size` bytes.
When the line delivers fewer, the read ends with a
`boost::system::system_error` (`none`). -/
def serial_port.read (port : serial_port) (size : Nat) : Option (List Nat × serial_port) :=
  if port.input.length < size then none
  else some (port.input.take size, { port with input := port.input.drop size })

/-- `bill_validator::send_ack`. -/
def send_ack (device_address : Nat) (port : serial_port) : serial_port :=
  port.write (ack_frame device_address)

/-- `bill_validator::send_nak`. -/
def send_nak (device_address : Nat) (port : serial_port) : serial_port :=
  port.write (nak_frame device_address)

/-- `std::vector<std::uint8_t>::max_size()` on a 64-bit target. -/
def vector_max_size : Nat := 2 ^ 63 - 1

/-- The frame parser: the body of the inner `for` loop of
`get_command_result` (lines 572-592), repeated verbatim in `send_command`
(lines 648-668), up to and including the CRC check. It yields the header
and the payload read. `payload_size` is a `std::size_t`, so the
subtraction wraps modulo `2 ^ 64`; `payload.resize` throws
`std::length_error` above `max_size()`. -/
def receive_frame (port : serial_port) : Except error (List Nat × List Nat) × serial_port :=
  match port.read header_size with
  | none => (.error .serial_port_read_write_error, port)
  | some (header, port1) =>
    if header.getD sync_offset 0 ≠ sync then (.error .synchronisation_error, port1)
    else
      let payload_size := (header.getD lng_offset 0 + 2 ^ 64 - header_size - sizeof_crc16) % 2 ^ 64
      if payload_size > vector_max_size then (.error .length_error, port1)
      else
        match port1.read payload_size with
        | none => (.error .serial_port_read_write_error, port1)
        | some (payload, port2) =>
          match port2.read sizeof_crc16 with
          | none => (.error .serial_port_read_write_error, port2)
          | some (crc, port3) =>
            let response := header ++ payload
            if get_crc response ≠ read_uint16 crc then
              (.error .crc_error, send_nak (header.getD adr_offset 0) port3)
            else (.ok (header, payload), port3)

/-- The inner `for` loop of both exchanges, `try_count` passes left: frames
are read until one carries the address of the command frame. `none` is
`frame_received == false` at the end of the loop. -/
def receive_loop (command_frame : List Nat) :
    Nat → serial_port → Except error (Option (List Nat × List Nat)) × serial_port
  | 0, port => (.ok none, port)
  | try_count + 1, port =>
    match receive_frame port with
    | (.error e, port1) => (.error e, port1)
    | (.ok (header, payload), port1) =>
      if header.getD adr_offset 0 = command_frame.getD adr_offset 0 then
        (.ok (some (header, payload)), port1)
      else receive_loop command_frame try_count port1

/-- The outer `for` loop of `get_command_result`, `try_count` passes left.
`none` is `response_received == false` at the end of the loop. -/
def get_command_result_loop (command_frame : List Nat) :
    Nat → serial_port → Except error (Option (List Nat)) × serial_port
  | 0, port => (.ok none, port)
  | try_count + 1, port =>
    match receive_loop command_frame 5 (port.write command_frame) with
    | (.error e, port1) => (.error e, port1)
    | (.ok none, port1) => (.error .unable_to_receive_data, port1)
    | (.ok (some (header, payload)), port1) =>
      if ¬ (payload.length > 0) then (.error .assertion_failed, port1)
      else if payload.length = 1 ∧ payload.getD 0 0 = ill_cmd then
        (.error .illegal_command, port1)
      else if payload.length = 1 ∧ payload.getD 0 0 = nak then
        get_command_result_loop command_frame try_count port1
      else (.ok (some payload), send_ack (header.getD adr_offset 0) port1)

/-- `bill_validator::get_command_result`. -/
def get_command_result (command : device_command) (port : serial_port) :
    Except error (List Nat) × serial_port :=
  match get_command_result_loop (build_command_frame command) 3 port with
  | (.error e, port1) => (.error e, port1)
  | (.ok none, port1) => (.error .command_not_received, port1)
  | (.ok (some payload), port1) => (.ok payload, port1)

/-- The outer `for` loop of `send_command`, `try_count` passes left; the
result is `response_received` at the end of the loop. -/
def send_command_loop (command_frame : List Nat) :
    Nat → serial_port → Except error Bool × serial_port
  | 0, port => (.ok false, port)
  | try_count + 1, port =>
    match receive_loop command_frame 5 (port.write command_frame) with
    | (.error e, port1) => (.error e, port1)
    | (.ok none, port1) => (.error .unable_to_receive_data, port1)
    | (.ok (some (_, payload)), port1) =>
      if ¬ (payload.length = 1) then (.error .assertion_failed, port1)
      else if payload.getD 0 0 = ill_cmd then (.error .illegal_command, port1)
      else if payload.getD 0 0 = ack then (.ok true, port1)
      else if payload.getD 0 0 ≠ nak then (.error .invalid_payload, port1)
      else send_command_loop command_frame try_count port1

/-- `bill_validator::send_command`. -/
def send_command (command : device_command) (port : serial_port) :
    Except error Unit × serial_port :=
  match send_command_loop (build_command_frame command) 3 port with
  | (.error e, port1) => (.error e, port1)
  | (.ok false, port1) => (.error .command_not_received, port1)
  | (.ok true, port1) => (.ok (), port1)

/-! ## The controller: state, environment, observable events -/

/-- `std::map<std::uint8_t, cash_type>` and the other maps keyed by a byte:
the entries in increasing key order. -/
abbrev byte_map (α : Type) := List (Nat × α)

/-- `std::map::at`: throws `std::out_of_range` for a missing key. -/
def map_at {α : Type} (m : byte_map α) (key : Nat) : Except error α :=
  match m.lookup key with
  | some v => .ok v
  | none => .error .out_of_range

/-- `m[key] = value` on a `std::map` keyed by a byte. -/
def map_assign {α : Type} : byte_map α → Nat → α → byte_map α
  | [], key, value => [(key, value)]
  | (k, v) :: rest, key, value =>
    if key < k then (key, value) :: (k, v) :: rest
    else if key = k then (key, value) :: rest
    else (k, v) :: map_assign rest key value

/-- `std::set<cash_type>::insert`: the elements in increasing order of
`operator<`, an element equivalent to a present one is not inserted. -/
def set_insert : List cash_type → cash_type → List cash_type
  | [], x => [x]
  | y :: ys, x =>
    if cash_type.lt x y then x :: y :: ys
    else if cash_type.lt y x then y :: set_insert ys x
    else y :: ys

/-- `m[key] = level` on a `std::map<cash_type, bill_security_level>`. -/
def levels_assign : List (cash_type × bill_security_level) → cash_type → bill_security_level →
    List (cash_type × bill_security_level)
  | [], key, level => [(key, level)]
  | (k, v) :: rest, key, level =>
    if cash_type.lt key k then (key, level) :: (k, v) :: rest
    else if cash_type.lt k key then (k, v) :: levels_assign rest key level
    else (k, level) :: rest

/-- `bill_validator::handler_command_code`. -/
inductive handler_command_code where
  | get_bill_types
  | get_bill_types_security_levels
  | get_device_info
  | get_enabled_bill_types
  | set_bill_types_security_levels
  | set_enabled_bill_types
  deriving DecidableEq, Repr

/-- `bill_validator::handler_command`; `result`, the untyped pointer to the
promise of the request, is the number that identifies that promise. -/
structure handler_command where
  code : handler_command_code
  data : List Nat
  result : Nat
  deriving DecidableEq, Repr

/-- The future `request_cash_action` returns, as `operate` observes it:
whether `wait_for(10 s)` reports `timeout`, and the value `get()` returns
once the operator has produced it. -/
structure cash_decision where
  timed_out : Bool
  action : cash_action
  deriving DecidableEq, Repr

/-- A call of `bill_validator_operator`. -/
inductive operator_call where
  | drop_cassette_full
  | drop_cassette_installed
  | drop_cassette_removed
  | request_cash_action (cash : cash_type)
  | cash_accepted (cash : cash_type)
  | cash_returned (cash : cash_type)
  deriving DecidableEq, Repr

/-- What a promise is completed with: `set_value` of one of the result
types, or `set_exception`. -/
inductive promise_value where
  | device_info (value : device_info)
  | cash_types (value : List cash_type)
  | security_levels (value : List (cash_type × bill_security_level))
  | void
  | exception (e : error)
  deriving DecidableEq, Repr

/-- The observable actions of the operate thread, in the order it performs
them: an exchange with the device started for a command, a call of the
operator, the completion of the promise of a request. -/
inductive event where
  | device (command : device_command)
  | operator_call (call : operator_call)
  | promise (result : Nat) (value : promise_value)
  deriving DecidableEq, Repr

/-- What the operate thread talks to, over a state `σ` of the outside world:
the two exchanges with the device (`serial` below gives them their code
from `bill_validator.cpp`) and the operator's answer to
`request_cash_action`. -/
structure environment (σ : Type) where
  get_command_result : device_command → σ → Except error (List Nat) × σ
  send_command : device_command → σ → Except error Unit × σ
  request_cash_action : cash_type → σ → cash_decision × σ

/-- The members of `bill_validator` the operate thread works on, with the
locals of `operate` that live across its loops, the state of the outside
world and the events so far. -/
structure bill_validator (σ : Type) where
  world : σ
  trace : List event
  cmd_queue : List handler_command
  connected_device_info : device_info
  bill_types_by_numbers : byte_map cash_type
  previous_device_state : device_state
  current_device_state : device_state
  initialization_required : Bool
  deriving DecidableEq

/-- `this->get_command_result(command)` from the operate thread. -/
def call_get_command_result {σ : Type} (env : environment σ) (command : device_command)
    (self : bill_validator σ) : Except error (List Nat) × bill_validator σ :=
  ((env.get_command_result command self.world).1,
   { self with
     world := (env.get_command_result command self.world).2
     trace := self.trace ++ [event.device command] })

/-- `this->send_command(command)` from the operate thread. -/
def call_send_command {σ : Type} (env : environment σ) (command : device_command)
    (self : bill_validator σ) : Except error Unit × bill_validator σ :=
  ((env.send_command command self.world).1,
   { self with
     world := (env.send_command command self.world).2
     trace := self.trace ++ [event.device command] })

/-- A call of the operator whose returned future is dropped. -/
def notify {σ : Type} (call : operator_call) (self : bill_validator σ) : bill_validator σ :=
  { self with trace := self.trace ++ [event.operator_call call] }

/-- `result->set_value(..)` or `result->set_exception(..)`. -/
def complete {σ : Type} (result : Nat) (value : promise_value) (self : bill_validator σ) :
    bill_validator σ :=
  { self with trace := self.trace ++ [event.promise result value] }

/-! ## Protocol operations -/

/-- `bill_validator::reset`. -/
def reset {σ : Type} (env : environment σ) (self : bill_validator σ) :
    Except error Unit × bill_validator σ :=
  call_send_command env ⟨device_command_code.reset, []⟩ self

/-- The decoding part of `bill_validator::poll`: a response of one byte is
the state code, with the info 0; a response of two bytes is the code and
the info. -/
def decode_poll (response : List Nat) : Except error device_state :=
  if response.length = poll_min_result_data_size then .ok ⟨response.getD 0 0, 0⟩
  else if response.length = poll_max_result_data_size then
    .ok ⟨response.getD 0 0, response.getD 1 0⟩
  else .error .invalid_data_received

/-- `bill_validator::poll`. -/
def poll {σ : Type} (env : environment σ) (self : bill_validator σ) :
    Except error device_state × bill_validator σ :=
  match call_get_command_result env ⟨device_command_code.poll, []⟩ self with
  | (.error e, self1) => (.error e, self1)
  | (.ok response, self1) => (decode_poll response, self1)

/-- `bill_validator::stack_bill`. -/
def stack_bill {σ : Type} (env : environment σ) (self : bill_validator σ) :
    Except error Unit × bill_validator σ :=
  call_send_command env ⟨device_command_code.stack_bill, []⟩ self

/-- `bill_validator::return_bill`. -/
def return_bill {σ : Type} (env : environment σ) (self : bill_validator σ) :
    Except error Unit × bill_validator σ :=
  call_send_command env ⟨device_command_code.return_bill, []⟩ self

/-- `bill_validator::hold_bill`. -/
def hold_bill {σ : Type} (env : environment σ) (self : bill_validator σ) :
    Except error Unit × bill_validator σ :=
  call_send_command env ⟨device_command_code.hold_bill, []⟩ self

/-- `bill_validator::read_uint64`: the last eight bytes of the frame, the
last one first, read as the bytes of a `std::uint64_t` on a little-endian
host. -/
def read_uint64 (frame : List Nat) : Except error Nat :=
  if ¬ (frame.length ≥ 8) then .error .assertion_failed
  else .ok ((frame.reverse.take 8).foldr (fun byte value => byte + 256 * value) 0)

/-- The decoding part of `bill_validator::request_device_info`. -/
def decode_device_info (response : List Nat) : Except error device_info :=
  if response.length ≠ identification_result_data_size then .error .invalid_data_received
  else
    match trim (response.take 15) with
    | .error e => .error e
    | .ok part_number =>
      match trim ((response.drop 15).take 12) with
      | .error e => .error e
      | .ok serial_number =>
        let asset_number_bytes := [0] ++ response.drop (15 + 12)
        match read_uint64 asset_number_bytes with
        | .error e => .error e
        | .ok asset_number => .ok ⟨part_number, serial_number, asset_number⟩

/-- `bill_validator::request_device_info`. -/
def request_device_info {σ : Type} (env : environment σ) (self : bill_validator σ) :
    Except error device_info × bill_validator σ :=
  match call_get_command_result env ⟨device_command_code.identification, []⟩ self with
  | (.error e, self1) => (.error e, self1)
  | (.ok response, self1) => (decode_device_info response, self1)

/-- One pass of the `for` loop of `request_bill_table`, for the record of
`bill_type_number`. The arithmetic is that of `std::uint64_t`; a division
by `power(..) == 0` is undefined behaviour. -/
def decode_bill_type (response : List Nat) (bill_type_number : Nat)
    (bill_types_by_numbers : byte_map cash_type) : Except error (byte_map cash_type) :=
  let offset := bill_type_number * bill_type_record_size
  if response.getD offset 0 = 0 then .ok bill_types_by_numbers
  else
    let country_code := [response.getD (offset + 1) 0, response.getD (offset + 2) 0,
      response.getD (offset + 3) 0]
    let currency_code := country_code
    let minor_currency_units_per_major := 100
    if is_bit_set (response.getD (offset + 4) 0) exponent_sign_bit_number then
      let denomination := (response.getD offset 0 * minor_currency_units_per_major) % 2 ^ 64
      match power currency_base (get_abs_exponent (response.getD (offset + 4) 0)) with
      | .error e => .error e
      | .ok p =>
        if p = 0 then .error .division_by_zero
        else if denomination % p ≠ 0 then .error .invalid_cash_type
        else
          .ok (map_assign bill_types_by_numbers bill_type_number ⟨currency_code, denomination / p⟩)
    else
      let denomination := (response.getD offset 0 * minor_currency_units_per_major) % 2 ^ 64
      match power currency_base (get_abs_exponent (response.getD (offset + 4) 0)) with
      | .error e => .error e
      | .ok p =>
        .ok (map_assign bill_types_by_numbers bill_type_number
          ⟨currency_code, (denomination * p) % 2 ^ 64⟩)

/-- The `for` loop of `request_bill_table`, `count` records left. -/
def decode_bill_table_loop (response : List Nat) :
    Nat → Nat → byte_map cash_type → Except error (byte_map cash_type)
  | 0, _, bill_types_by_numbers => .ok bill_types_by_numbers
  | count + 1, bill_type_number, bill_types_by_numbers =>
    match decode_bill_type response bill_type_number bill_types_by_numbers with
    | .error e => .error e
    | .ok table => decode_bill_table_loop response count (bill_type_number + 1) table

/-- The decoding part of `bill_validator::request_bill_table`. -/
def decode_bill_table (response : List Nat) : Except error (byte_map cash_type) :=
  if response.length ≠ get_bill_table_result_data_size then .error .invalid_data_received
  else decode_bill_table_loop response bill_types_count_max 0 []

/-- `bill_validator::request_bill_table`. -/
def request_bill_table {σ : Type} (env : environment σ) (self : bill_validator σ) :
    Except error (byte_map cash_type) × bill_validator σ :=
  match call_get_command_result env ⟨device_command_code.get_bill_table, []⟩ self with
  | (.error e, self1) => (.error e, self1)
  | (.ok response, self1) => (decode_bill_table response, self1)

/-! ## Request handlers -/

/-- The `catch (std::exception)` block of a handler:
`result->set_exception(..)`, then `throw;`. A failed assertion and an
undefined operation are no exceptions and pass it by. -/
def handler_catch {σ : Type} (result : Nat) (e : error) (self : bill_validator σ) :
    bill_validator σ :=
  if e = .assertion_failed ∨ e = .division_by_zero then self
  else complete result (.exception .command_processing_error) self

/-- `bill_validator::get_bill_types_handler`. -/
def get_bill_types_handler {σ : Type} (result : Nat) (self : bill_validator σ) :
    Except error Unit × bill_validator σ :=
  let bill_types := self.bill_types_by_numbers.foldl (fun set p => set_insert set p.2) []
  (.ok (), complete result (.cash_types bill_types) self)

/-- `bill_validator::get_device_info_handler`. -/
def get_device_info_handler {σ : Type} (result : Nat) (self : bill_validator σ) :
    Except error Unit × bill_validator σ :=
  (.ok (), complete result (.device_info self.connected_device_info) self)

/-- The two nested loops of `get_enabled_bill_types_handler`: the bytes
from `response.crbegin() + 3` to `response.crend()`, eight bits each, with
`bill_type_number` counting the bits visited. -/
def decode_enabled_bill_types (bill_types_by_numbers : byte_map cash_type)
    (response : List Nat) : List cash_type :=
  ((response.reverse.drop 3).foldl
    (fun (state : Nat × List cash_type) byte =>
      (List.range byte_size).foldl
        (fun (state : Nat × List cash_type) _ =>
          let bill_type_number := state.1
          let enabled_bill_types :=
            if is_bit_set byte (bill_type_number % byte_size) then
              match bill_types_by_numbers.lookup bill_type_number with
              | some cash => set_insert state.2 cash
              | none => state.2
            else state.2
          ((bill_type_number + 1) % 256, enabled_bill_types))
        state)
    (0, [])).2

/-- `bill_validator::get_enabled_bill_types_handler`. -/
def get_enabled_bill_types_handler {σ : Type} (env : environment σ) (data : List Nat)
    (result : Nat) (self : bill_validator σ) : Except error Unit × bill_validator σ :=
  match call_get_command_result env ⟨device_command_code.get_status, data⟩ self with
  | (.error e, self1) => (.error e, handler_catch result e self1)
  | (.ok response, self1) =>
    if response.length ≠ get_status_result_data_size then
      (.error .invalid_data_received, handler_catch result .invalid_data_received self1)
    else
      (.ok (), complete result
        (.cash_types (decode_enabled_bill_types self1.bill_types_by_numbers response)) self1)

/-- `bill_validator::set_enabled_bill_types_handler`. -/
def set_enabled_bill_types_handler {σ : Type} (env : environment σ) (data : List Nat)
    (result : Nat) (self : bill_validator σ) : Except error Unit × bill_validator σ :=
  match call_send_command env ⟨device_command_code.enable_bill_types, data⟩ self with
  | (.error e, self1) => (.error e, handler_catch result e self1)
  | (.ok (), self1) => (.ok (), complete result .void self1)

/-- The two nested loops of `get_bill_types_security_levels_handler`: the
bytes from `response.crbegin()` to `response.crbegin() + 3`, eight bits
each; `bill_types_by_numbers.at` throws for a number without a bill type. -/
def decode_security_levels (bill_types_by_numbers : byte_map cash_type)
    (response : List Nat) : Except error (List (cash_type × bill_security_level)) :=
  ((response.reverse.take 3).foldl
    (fun (state : Except error (Nat × List (cash_type × bill_security_level))) byte =>
      (List.range byte_size).foldl
        (fun (state : Except error (Nat × List (cash_type × bill_security_level))) _ =>
          match state with
          | .error e => .error e
          | .ok (bill_type_number, levels) =>
            match map_at bill_types_by_numbers bill_type_number with
            | .error e => .error e
            | .ok cash =>
              if is_bit_set byte (bill_type_number % byte_size) then
                .ok ((bill_type_number + 1) % 256, levels_assign levels cash .high)
              else
                .ok ((bill_type_number + 1) % 256, levels_assign levels cash .normal))
        state)
    (.ok (0, []))).map (·.2)

/-- `bill_validator::get_bill_types_security_levels_handler`. -/
def get_bill_types_security_levels_handler {σ : Type} (env : environment σ) (data : List Nat)
    (result : Nat) (self : bill_validator σ) : Except error Unit × bill_validator σ :=
  match call_get_command_result env ⟨device_command_code.get_status, data⟩ self with
  | (.error e, self1) => (.error e, handler_catch result e self1)
  | (.ok response, self1) =>
    if response.length ≠ get_status_result_data_size then
      (.error .invalid_data_received, handler_catch result .invalid_data_received self1)
    else
      match decode_security_levels self1.bill_types_by_numbers response with
      | .error e => (.error e, handler_catch result e self1)
      | .ok levels => (.ok (), complete result (.security_levels levels) self1)

/-- `bill_validator::set_bill_types_security_levels_handler`. -/
def set_bill_types_security_levels_handler {σ : Type} (env : environment σ) (data : List Nat)
    (result : Nat) (self : bill_validator σ) : Except error Unit × bill_validator σ :=
  match call_send_command env ⟨device_command_code.set_security, data⟩ self with
  | (.error e, self1) => (.error e, handler_catch result e self1)
  | (.ok (), self1) => (.ok (), complete result .void self1)

/-! ## The public interface -/

/-- `std::find_if` over the bill table with the predicate
`p.second == cash`: the number of the first entry, in key order, that holds
the cash type. -/
def find_bill_type (bill_types_by_numbers : byte_map cash_type) (cash : cash_type) :
    Option Nat :=
  (bill_types_by_numbers.find? (fun p => cash_type.eq p.2 cash)).map (fun p => p.1)

/-- `set_bit(command_data[index], bit_number)` where `index` is an `int`
expression: `std::vector::operator[]` checks no bound, so an index outside
the vector (a negative `int` converts to a `std::size_t` far beyond it) is
undefined behaviour. -/
def set_bit_at (command_data : List Nat) (index : Int) (bit_number : Nat) :
    Except error (List Nat) :=
  if 0 ≤ index ∧ index < command_data.length then
    .ok (command_data.set index.toNat (set_bit (command_data.getD index.toNat 0) bit_number))
  else .error .out_of_bounds

/-- The loop of `bill_validator::set_enabled_cash_types` over the elements
of the `std::set`, in its order. -/
def set_enabled_cash_types_loop (bill_types_by_numbers : byte_map cash_type) :
    List cash_type → List Nat → Except error (List Nat)
  | [], command_data => .ok command_data
  | cash :: rest, command_data =>
    match find_bill_type bill_types_by_numbers cash with
    | none => .error .cash_type_not_supported
    | some number =>
      let bill_type_number := number % 256
      match set_bit_at command_data (3 - ((bill_type_number / byte_size : Nat) : Int))
          (bill_type_number % byte_size) with
      | .error e => .error e
      | .ok command_data =>
        match set_bit_at command_data (3 - ((bill_type_number / byte_size : Nat) : Int) + 3)
            (bill_type_number % byte_size) with
        | .error e => .error e
        | .ok command_data =>
          set_enabled_cash_types_loop bill_types_by_numbers rest command_data

/-- `bill_validator::set_enabled_cash_types`; `enabled_bill_types` lists the
elements of the `std::set` in its order, `promised_result` identifies the
promise the call allocates, and the value returned stands for its future. -/
def set_enabled_cash_types {σ : Type} (enabled_bill_types : List cash_type)
    (promised_result : Nat) (self : bill_validator σ) : Except error Nat × bill_validator σ :=
  match set_enabled_cash_types_loop self.bill_types_by_numbers enabled_bill_types
      (List.replicate enable_bill_types_command_data_size 0) with
  | .error e => (.error e, self)
  | .ok command_data =>
    (.ok promised_result,
     { self with
       cmd_queue :=
         self.cmd_queue ++ [⟨.set_enabled_bill_types, command_data, promised_result⟩] })

/-- `bill_validator::get_enabled_cash_types`. -/
def get_enabled_cash_types {σ : Type} (promised_result : Nat) (self : bill_validator σ) :
    Nat × bill_validator σ :=
  (promised_result,
   { self with cmd_queue := self.cmd_queue ++ [⟨.get_enabled_bill_types, [], promised_result⟩] })

/-- `bill_validator::get_cash_types_security_levels`. -/
def get_cash_types_security_levels {σ : Type} (promised_result : Nat)
    (self : bill_validator σ) : Nat × bill_validator σ :=
  (promised_result,
   { self with
     cmd_queue := self.cmd_queue ++ [⟨.get_bill_types_security_levels, [], promised_result⟩] })

/-- The loop of `bill_validator::set_cash_types_security_levels` over the
entries of the `std::map`, in key order: only an entry mapped to `high` is
looked up in the bill table, and its bit is set with the bill type number
itself as the bit number. -/
def set_cash_types_security_levels_loop (bill_types_by_numbers : byte_map cash_type) :
    List (cash_type × bill_security_level) → List Nat → Except error (List Nat)
  | [], command_data => .ok command_data
  | entry :: rest, command_data =>
    if entry.2 = .high then
      match find_bill_type bill_types_by_numbers entry.1 with
      | none => .error .cash_type_not_supported
      | some number =>
        let bill_type_number := number % 256
        match set_bit_at command_data ((bill_type_number / byte_size : Nat) : Int)
            bill_type_number with
        | .error e => .error e
        | .ok command_data =>
          set_cash_types_security_levels_loop bill_types_by_numbers rest command_data
    else set_cash_types_security_levels_loop bill_types_by_numbers rest command_data

/-- `bill_validator::set_cash_types_security_levels`; `security_levels`
lists the entries of the `std::map` in key order. -/
def set_cash_types_security_levels {σ : Type}
    (security_levels : List (cash_type × bill_security_level)) (promised_result : Nat)
    (self : bill_validator σ) : Except error Nat × bill_validator σ :=
  match set_cash_types_security_levels_loop self.bill_types_by_numbers security_levels
      (List.replicate set_security_command_data_size 0) with
  | .error e => (.error e, self)
  | .ok command_data =>
    (.ok promised_result,
     { self with
       cmd_queue :=
         self.cmd_queue ++ [⟨.set_bill_types_security_levels, command_data, promised_result⟩] })

/-- `bill_validator::get_device_info`. -/
def get_device_info {σ : Type} (promised_result : Nat) (self : bill_validator σ) :
    Nat × bill_validator σ :=
  (promised_result,
   { self with cmd_queue := self.cmd_queue ++ [⟨.get_device_info, [], promised_result⟩] })

/-- `bill_validator::get_cash_types`. -/
def get_cash_types {σ : Type} (promised_result : Nat) (self : bill_validator σ) :
    Nat × bill_validator σ :=
  (promised_result,
   { self with cmd_queue := self.cmd_queue ++ [⟨.get_bill_types, [], promised_result⟩] })

/-! ## The operate thread -/

/-- The block of `case device_state_code::escrow_pos` in `operate`
(lines 218-243). -/
def escrow_pos_case {σ : Type} (env : environment σ) (self : bill_validator σ) :
    Except error Unit × bill_validator σ :=
  match map_at self.bill_types_by_numbers self.current_device_state.info with
  | .error e => (.error e, self)
  | .ok cash =>
    let future_result := (env.request_cash_action cash self.world).1
    let self1 := notify (.request_cash_action cash)
      { self with world := (env.request_cash_action cash self.world).2 }
    match (if future_result.timed_out then return_bill env self1 else (.ok (), self1)) with
    | (.error e, self2) => (.error e, self2)
    | (.ok (), self2) =>
      match future_result.action with
      | .accept_cash => stack_bill env self2
      | .hold_cash =>
        hold_bill env
          { self2 with current_device_state := ⟨device_state_code.idling, 0⟩ }
      | .return_cash => return_bill env self2

/-- The `switch (current_device_state.code)` of `operate` (lines 202-252).
The cases `validator_jammed`, `drop_cassette_jammed` and `failure` hold no
statement and no `break`: control falls through to `escrow_pos`. -/
def current_state_switch {σ : Type} (env : environment σ) (self : bill_validator σ) :
    Except error Unit × bill_validator σ :=
  if self.current_device_state.code = device_state_code.drop_cassette_full then
    (.ok (), notify .drop_cassette_full self)
  else if self.current_device_state.code = device_state_code.drop_cassette_out_of_pos then
    (.ok (), notify .drop_cassette_removed self)
  else if self.current_device_state.code = device_state_code.validator_jammed
      ∨ self.current_device_state.code = device_state_code.drop_cassette_jammed
      ∨ self.current_device_state.code = device_state_code.failure
      ∨ self.current_device_state.code = device_state_code.escrow_pos then
    escrow_pos_case env self
  else if self.current_device_state.code = device_state_code.bill_stacked then
    match map_at self.bill_types_by_numbers self.current_device_state.info with
    | .error e => (.error e, self)
    | .ok cash => (.ok (), notify (.cash_accepted cash) self)
  else if self.current_device_state.code = device_state_code.bill_returned then
    match map_at self.bill_types_by_numbers self.current_device_state.info with
    | .error e => (.error e, self)
    | .ok cash => (.ok (), notify (.cash_returned cash) self)
  else (.ok (), self)

/-- The request part of a pass of the inner cycle (lines 255-289): the
front request, when there is one, is taken off the queue and handled. -/
def serve_request {σ : Type} (env : environment σ) (self : bill_validator σ) :
    Except error Unit × bill_validator σ :=
  match self.cmd_queue with
  | [] => (.ok (), self)
  | current_command :: rest =>
    let self1 := { self with cmd_queue := rest }
    match current_command.code with
    | .get_bill_types => get_bill_types_handler current_command.result self1
    | .get_bill_types_security_levels =>
      get_bill_types_security_levels_handler env current_command.data current_command.result self1
    | .get_device_info => get_device_info_handler current_command.result self1
    | .get_enabled_bill_types =>
      get_enabled_bill_types_handler env current_command.data current_command.result self1
    | .set_bill_types_security_levels =>
      set_bill_types_security_levels_handler env current_command.data current_command.result self1
    | .set_enabled_bill_types =>
      set_enabled_bill_types_handler env current_command.data current_command.result self1

/-- One pass of the inner cycle of `operate` (lines 190-291). An exception
leaves the pass at once; `continue` after `drop_cassette_installed` skips
the rest of the pass. -/
def operate_pass {σ : Type} (env : environment σ) (self : bill_validator σ) :
    Except error Unit × bill_validator σ :=
  match poll env { self with previous_device_state := self.current_device_state } with
  | (.error e, self1) => (.error e, self1)
  | (.ok state, self1) =>
    let self2 := { self1 with current_device_state := state }
    if self2.previous_device_state.code ≠ self2.current_device_state.code then
      if self2.previous_device_state.code = device_state_code.drop_cassette_out_of_pos then
        (.ok (), { notify .drop_cassette_installed self2 with initialization_required := true })
      else
        match current_state_switch env self2 with
        | (.error e, self3) => (.error e, self3)
        | (.ok (), self3) => serve_request env self3
    else serve_request env self2

/-- The body of the outer cycle before the inner cycle (lines 182-187). -/
def initialization {σ : Type} (env : environment σ) (self : bill_validator σ) :
    Except error Unit × bill_validator σ :=
  match reset env self with
  | (.error e, self1) => (.error e, self1)
  | (.ok (), self1) =>
    match request_device_info env self1 with
    | (.error e, self2) => (.error e, self2)
    | (.ok info, self2) =>
      match request_bill_table env { self2 with connected_device_info := info } with
      | (.error e, self3) => (.error e, self3)
      | (.ok table, self3) =>
        (.ok (), { self3 with bill_types_by_numbers := table, initialization_required := false })

/-- Where `operate` stands when it next evaluates a loop condition. -/
inductive loop_condition where
  | outer
  | inner
  deriving DecidableEq, Repr

/-- The two nested cycles of `operate`, from the evaluation of a loop
condition on. The first argument is the number of evaluations of
`this->thread_is_working` that still find the flag set (the destructor
clears it from another thread, and nothing sets it again). `operate` has
no `try`: the first exception ends it (`.error`), with the state reached. -/
def operate_loop {σ : Type} (env : environment σ) :
    Nat → loop_condition → bill_validator σ → Except error Unit × bill_validator σ
  | 0, _, self => (.ok (), self)
  | working + 1, .outer, self =>
    match initialization env self with
    | (.error e, self1) => (.error e, self1)
    | (.ok (), self1) => operate_loop env working .inner self1
  | working + 1, .inner, self =>
    if self.initialization_required then operate_loop env working .outer self
    else
      match operate_pass env self with
      | (.error e, self1) => (.error e, self1)
      | (.ok (), self1) => operate_loop env working .inner self1

/-- `bill_validator::operate`, run while `thread_is_working` is found set
`working` times. -/
def operate {σ : Type} (env : environment σ) (working : Nat) (self : bill_validator σ) :
    Except error Unit × bill_validator σ :=
  operate_loop env working .outer
    { self with
      previous_device_state := {}
      current_device_state := {}
      initialization_required := true }

/-! ## Environments -/

deriving instance DecidableEq for Except

/-- The outside world of the driver as built: the serial port, and the
answers of the operator to the successive calls of `request_cash_action`
(an operator that is asked more often answers `return_cash` in time). -/
structure serial_world where
  port : serial_port
  decisions : List cash_decision
  deriving DecidableEq, Repr

/-- The environment of the driver as built: the exchanges are those of
`bill_validator.cpp` on the serial port. -/
def serial : environment serial_world where
  get_command_result command world :=
    ((get_command_result command world.port).1,
     { world with port := (get_command_result command world.port).2 })
  send_command command world :=
    ((send_command command world.port).1,
     { world with port := (send_command command world.port).2 })
  request_cash_action _ world :=
    (world.decisions.headD ⟨false, .return_cash⟩, { world with decisions := world.decisions.tail })

/-- A device described by the outcomes of its successive exchanges, with
the answers of the operator as in `serial_world`. -/
structure script where
  exchanges : List (Except error (List Nat))
  decisions : List cash_decision
  deriving DecidableEq

/-- The environment that plays a `script`: each exchange takes the next
outcome (a device that is asked more often no longer answers). -/
def scripted : environment script where
  get_command_result _ world :=
    match world.exchanges with
    | [] => (.error .serial_port_read_write_error, world)
    | outcome :: rest => (outcome, { world with exchanges := rest })
  send_command _ world :=
    match world.exchanges with
    | [] => (.error .serial_port_read_write_error, world)
    | outcome :: rest => (outcome.map (fun _ => ()), { world with exchanges := rest })
  request_cash_action _ world :=
    (world.decisions.headD ⟨false, .return_cash⟩, { world with decisions := world.decisions.tail })

/-- A controller before `operate` starts: nothing cached, nothing queued
but `cmd_queue`, no event yet. -/
def bill_validator.start {σ : Type} (world : σ) (cmd_queue : List handler_command) :
    bill_validator σ :=
  { world := world
    trace := []
    cmd_queue := cmd_queue
    connected_device_info := ⟨[], [], 0⟩
    bill_types_by_numbers := []
    previous_device_state := {}
    current_device_state := {}
    initialization_required := true }

/-! ## Reference definitions and device frames -/

/-- The reference algorithm, as section 4.1 of the specification words it
(not the code): one of the 8 iterations on the accumulator: shift right by
one, and XOR with the polynomial when the bit shifted out was 1. -/
def crc16_reference_bit (crc : Nat) : Nat :=
  if crc % 2 = 1 then (crc / 2) ^^^ 0x8408 else crc / 2

/-- The reference algorithm, as section 4.1 of the specification words it
(not the code): the CRC-16 of a byte sequence: initial value 0; each byte
is XORed into the low byte of the accumulator, which then goes through the
8 iterations. -/
def crc16_reference (bytes : List Nat) : Nat :=
  bytes.foldl
    (fun crc byte => Nat.iterate crc16_reference_bit 8 (256 * (crc / 256) + ((crc % 256) ^^^ byte)))
    0

/-- A frame as the device sends it (the layout of `send_ack`, with any data
in the place of the control byte): SYNC, address, total length, the data,
and the CRC of all that, low byte first. -/
def device_frame (device_address : Nat) (data : List Nat) : List Nat :=
  let frame := [sync, device_address, (header_size + data.length + sizeof_crc16) % 256] ++ data
  write_uint16 frame (get_crc frame)

/-! ## Observations on a run -/

/-- The calls of the operator among the events, in order. -/
def operator_calls (trace : List event) : List operator_call :=
  trace.filterMap fun e =>
    match e with
    | .operator_call call => some call
    | _ => none

/-- The commands sent to the device among the events, in order. -/
def device_commands (trace : List event) : List device_command :=
  trace.filterMap fun e =>
    match e with
    | .device command => some command
    | _ => none

/-- The controller right after a pass of the inner cycle has polled: the
exchange of the Poll command has left the world `world`, the state reported
is `state`, the state observed before is now the previous one. -/
def bill_validator.observed {σ : Type} (self : bill_validator σ) (world : σ)
    (state : device_state) : bill_validator σ :=
  { self with
    world := world
    trace := self.trace ++ [event.device ⟨device_command_code.poll, []⟩]
    previous_device_state := self.current_device_state
    current_device_state := state }

/-- A controller inside the inner cycle: initialized, with the given bill
table, queue and last observed state, and no event yet. -/
def bill_validator.polling {σ : Type} (world : σ) (table : byte_map cash_type)
    (cmd_queue : List handler_command) (observed : device_state) : bill_validator σ :=
  { world := world
    trace := []
    cmd_queue := cmd_queue
    connected_device_info := ⟨[], [], 0⟩
    bill_types_by_numbers := table
    previous_device_state := {}
    current_device_state := observed
    initialization_required := false }

/-- The bill table with the single entry `0 ↦ (RUB, 500)`. -/
def table_rub_500 : byte_map cash_type := [(0, ⟨[82, 85, 66], 500⟩)]

/-- A device that answers every Poll with the state `code` and no info
byte, and answers no other command; its operator returns every bill at
once. -/
def steady_device (code : Nat) : environment Unit where
  get_command_result command world :=
    if command.code = device_command_code.poll then (.ok [code], world)
    else (.error .unable_to_receive_data, world)
  send_command _ world := (.error .unable_to_receive_data, world)
  request_cash_action _ world := (⟨false, .return_cash⟩, world)

/-- A bill table that fills the 24 slots: slot `n` holds
`(RUB, (n + 1) * 100)`. -/
def full_bill_table : byte_map cash_type :=
  (List.range 24).map fun n => (n, ⟨[82, 85, 66], (n + 1) * 100⟩)

/-- An Identification response: 34 bytes, all `A`. -/
def sample_identification : List Nat := List.replicate 34 65

/-- A Get Bill Table response: the record `05 'R' 'U' 'B' 00` in slot 0,
the other 23 slots unused. It decodes to `table_rub_500`. -/
def sample_bill_table : List Nat := [5, 82, 85, 66, 0] ++ List.replicate 115 0

/-- The outcomes of the exchanges in the cassette scenario: the poll replies
`14`, `42`, `14`, then the ACK of Reset and the responses to Identification
and Get Bill Table. -/
def cassette_exchanges : List (Except error (List Nat)) :=
  [.ok [0x14], .ok [0x42], .ok [0x14], .ok [0x00], .ok sample_identification,
   .ok sample_bill_table]

/-- The controller at the start of the cassette scenario: inside the inner
cycle, before any event, facing a device that plays `cassette_exchanges`,
with one request, `get_device_info` with the promise 7, in the queue. -/
def cassette_start : bill_validator script :=
  bill_validator.polling (script.mk cassette_exchanges []) []
    [⟨.get_device_info, [], 7⟩] {}

/-- The controller of the cassette scenario after its first pass: the poll
has reported Idling and the request has been served. -/
def cassette_served1 : bill_validator script :=
  complete 7 (.device_info ⟨[], [], 0⟩)
    { cassette_start.observed (script.mk (cassette_exchanges.drop 1) [])
        ⟨device_state_code.idling, 0⟩ with cmd_queue := [] }

/-- The controller of the cassette scenario after its second pass: the poll
has reported DropCassetteOutOfPos and the operator has been told. -/
def cassette_served2 : bill_validator script :=
  notify .drop_cassette_removed
    (cassette_served1.observed (script.mk (cassette_exchanges.drop 2) [])
      ⟨device_state_code.drop_cassette_out_of_pos, 0⟩)

/-- The line when the device sends the frames of the listed addresses and
data one after the other. -/
def frames_line : List (Nat × List Nat) → List Nat
  | [] => []
  | frame :: rest => device_frame frame.1 frame.2 ++ frames_line rest

/-- `count` copies of a frame, one after the other on the line. -/
def repeat_frame (frame : List Nat) : Nat → List Nat
  | 0 => []
  | count + 1 => frame ++ repeat_frame frame count

/-! ## The two threads on the request queue -/

/-- The promises completed among the events, in order. -/
def fulfilled (trace : List event) : List Nat :=
  trace.filterMap fun e =>
    match e with
    | .promise result _ => some result
    | _ => none

/-- A call of the public interface by the client thread, with its
arguments and the promise it allocates. -/
inductive client_call where
  | get_device_info (promised_result : Nat)
  | get_enabled_cash_types (promised_result : Nat)
  | set_enabled_cash_types (enabled_bill_types : List cash_type) (promised_result : Nat)
  | get_cash_types_security_levels (promised_result : Nat)
  | set_cash_types_security_levels
      (security_levels : List (cash_type × bill_security_level)) (promised_result : Nat)
  | get_cash_types (promised_result : Nat)

/-- The promise a call allocates. -/
def client_call.promised_result : client_call → Nat
  | .get_device_info promised_result => promised_result
  | .get_enabled_cash_types promised_result => promised_result
  | .set_enabled_cash_types _ promised_result => promised_result
  | .get_cash_types_security_levels promised_result => promised_result
  | .set_cash_types_security_levels _ promised_result => promised_result
  | .get_cash_types promised_result => promised_result

/-- The controller after a call of the public interface (the future, or
the exception of a call that throws, goes to the client). -/
def client_call.perform {σ : Type} : client_call → bill_validator σ → bill_validator σ
  | .get_device_info promised_result, self => (ccnet.get_device_info promised_result self).2
  | .get_enabled_cash_types promised_result, self =>
    (ccnet.get_enabled_cash_types promised_result self).2
  | .set_enabled_cash_types enabled_bill_types promised_result, self =>
    (ccnet.set_enabled_cash_types enabled_bill_types promised_result self).2
  | .get_cash_types_security_levels promised_result, self =>
    (ccnet.get_cash_types_security_levels promised_result self).2
  | .set_cash_types_security_levels security_levels promised_result, self =>
    (ccnet.set_cash_types_security_levels security_levels promised_result self).2
  | .get_cash_types promised_result, self => (ccnet.get_cash_types promised_result self).2

/-- What happens next to the controller: a call of the client thread, or,
in the operate thread, the initialization of the outer cycle or a pass of
the inner cycle. The queue is only touched under `cmd_queue_mutex`, so a
call takes effect before or after the queue access of a pass. -/
inductive thread_step where
  | call (request : client_call)
  | initialization
  | pass

/-- The controller after the steps, in order; the first exception in the
operate thread ends the run. -/
def interleaving {σ : Type} (env : environment σ) :
    List thread_step → bill_validator σ → bill_validator σ
  | [], self => self
  | .call request :: rest, self => interleaving env rest (request.perform self)
  | .initialization :: rest, self =>
    match initialization env self with
    | (.error _, self1) => self1
    | (.ok (), self1) => interleaving env rest self1
  | .pass :: rest, self =>
    match operate_pass env self with
    | (.error _, self1) => self1
    | (.ok (), self1) => interleaving env rest self1

/-- The promises the calls among the steps allocate, in order. -/
def requested : List thread_step → List Nat
  | [] => []
  | .call request :: rest => request.promised_result :: requested rest
  | _ :: rest => requested rest

/-! # Theorems -/

/-! ## The CRC and the two-byte codec -/

theorem get_crc_bit_lt (crc : Nat) (h : crc < 2 ^ 16) : get_crc_bit crc < 2 ^ 16 := by
  unfold get_crc_bit
  split
  · exact Nat.mod_lt _ (by norm_num)
  · rw [Nat.shiftRight_eq_div_pow]
    exact lt_of_le_of_lt (Nat.div_le_self _ _) h

theorem get_crc_bit_eq_reference (crc : Nat) (h : crc < 2 ^ 16) :
    get_crc_bit crc = crc16_reference_bit crc := by
  unfold get_crc_bit crc16_reference_bit POLYNOMIAL
  have h2 : crc >>> 1 = crc / 2 := by rw [Nat.shiftRight_eq_div_pow]
  have h3 : crc / 2 ^^^ 0x8408 < 2 ^ 16 := Nat.xor_lt_two_pow (by omega) (by norm_num)
  rw [Nat.and_one_is_mod, h2]
  by_cases hb : crc % 2 = 1
  · rw [if_pos hb, if_pos (by omega), Nat.mod_eq_of_lt h3]
  · rw [if_neg hb, if_neg (by omega)]

theorem iterate_get_crc_bit_lt (n crc : Nat) (h : crc < 2 ^ 16) :
    Nat.iterate get_crc_bit n crc < 2 ^ 16 := by
  induction n generalizing crc with
  | zero => simpa using h
  | succ n ih => exact ih _ (get_crc_bit_lt crc h)

theorem iterate_get_crc_bit_eq_reference (n crc : Nat) (h : crc < 2 ^ 16) :
    Nat.iterate get_crc_bit n crc = Nat.iterate crc16_reference_bit n crc := by
  induction n generalizing crc with
  | zero => rfl
  | succ n ih =>
    rw [Function.iterate_succ_apply, Function.iterate_succ_apply,
      ← get_crc_bit_eq_reference crc h]
    exact ih _ (get_crc_bit_lt crc h)

theorem get_crc_byte_lt (crc byte : Nat) : get_crc_byte crc byte < 2 ^ 16 :=
  iterate_get_crc_bit_lt 8 _ (Nat.mod_lt _ (by norm_num))

theorem xor_low_byte (crc byte : Nat) (hb : byte < 256) :
    crc ^^^ byte = 256 * (crc / 256) + ((crc % 256) ^^^ byte) := by
  have hlt : (crc % 256) ^^^ byte < 2 ^ 8 :=
    Nat.xor_lt_two_pow (Nat.mod_lt _ (by norm_num)) hb
  apply Nat.eq_of_testBit_eq
  intro j
  have hr := Nat.testBit_mul_pow_two_add (crc / 256) hlt j
  norm_num at hr
  rw [hr, Nat.testBit_xor]
  by_cases hj : j < 8
  · rw [if_pos hj]
    have : (crc % 256).testBit j = crc.testBit j := by
      have := Nat.testBit_mod_two_pow crc 8 j
      norm_num at this
      rw [this]; simp [hj]
    rw [this]
  · rw [if_neg hj]
    have h1 : byte.testBit j = false :=
      Nat.testBit_lt_two_pow (lt_of_lt_of_le hb (by
        have : 2 ^ 8 ≤ 2 ^ j := Nat.pow_le_pow_right (by norm_num) (by omega)
        simpa using this))
    have h2 : (crc / 256).testBit (j - 8) = crc.testBit j := by
      have := Nat.testBit_shiftRight (i := 8) (j := j - 8) crc
      rw [Nat.shiftRight_eq_div_pow] at this
      norm_num at this
      rw [this]; congr 1; omega
    rw [h1, h2]; simp

theorem get_crc_byte_eq_reference (crc byte : Nat) (hc : crc < 2 ^ 16) (hb : byte < 256) :
    get_crc_byte crc byte =
      Nat.iterate crc16_reference_bit 8 (256 * (crc / 256) + ((crc % 256) ^^^ byte)) := by
  have hx : crc ^^^ byte < 2 ^ 16 := Nat.xor_lt_two_pow hc (by omega)
  unfold get_crc_byte
  rw [Nat.mod_eq_of_lt hx, iterate_get_crc_bit_eq_reference 8 _ hx, xor_low_byte crc byte hb]

theorem foldl_get_crc_byte_lt (frame : List Nat) (crc : Nat) (hc : crc < 2 ^ 16) :
    frame.foldl get_crc_byte crc < 2 ^ 16 := by
  induction frame generalizing crc with
  | nil => simpa using hc
  | cons b bs ih => exact ih _ (get_crc_byte_lt crc b)

theorem get_crc_lt (frame : List Nat) : get_crc frame < 2 ^ 16 :=
  foldl_get_crc_byte_lt frame 0 (by norm_num)

theorem foldl_get_crc_byte_eq_reference (frame : List Nat) (crc : Nat) (hc : crc < 2 ^ 16)
    (hf : ∀ b ∈ frame, b < 256) :
    frame.foldl get_crc_byte crc = frame.foldl
      (fun crc byte =>
        Nat.iterate crc16_reference_bit 8 (256 * (crc / 256) + ((crc % 256) ^^^ byte))) crc := by
  induction frame generalizing crc with
  | nil => rfl
  | cons b bs ih =>
    have hb : b < 256 := hf b (List.mem_cons_self _ _)
    rw [List.foldl_cons, List.foldl_cons, ← get_crc_byte_eq_reference crc b hc hb]
    exact ih _ (get_crc_byte_lt crc b) (fun x hx => hf x (List.mem_cons_of_mem _ hx))

theorem get_crc_eq_reference (frame : List Nat) (hf : ∀ b ∈ frame, b < 256) :
    get_crc frame = crc16_reference frame :=
  foldl_get_crc_byte_eq_reference frame 0 (by norm_num) hf

theorem read_uint16_write_uint16 (value : Nat) (h : value < 2 ^ 16) :
    read_uint16 [(value &&& 0xFF) % 256, (value >>> 8) % 256] = value := by
  have h1 : value &&& 0xFF = value % 256 := Nat.and_pow_two_sub_one_eq_mod value 8
  have h2 : value >>> 8 = value / 256 := by rw [Nat.shiftRight_eq_div_pow]
  have h3 : (value / 256) <<< 8 = 2 ^ 8 * (value / 256) := by rw [Nat.shiftLeft_eq, Nat.mul_comm]
  have h4 : value % 256 < 2 ^ 8 := Nat.mod_lt _ (by norm_num)
  unfold read_uint16
  simp only [List.getD_cons_zero, List.getD_cons_succ]
  rw [h1, h2, Nat.mod_mod, Nat.mod_eq_of_lt (show value / 256 < 256 by omega), h3,
    Nat.mod_eq_of_lt (show 2 ^ 8 * (value / 256) < 2 ^ 16 by omega),
    ← Nat.mul_add_lt_is_or h4]
  omega

/-! ## The frame parser on a well-formed frame -/

theorem device_frame_eq (device_address : Nat) (data : List Nat) :
    device_frame device_address data =
      [sync, device_address, (header_size + data.length + sizeof_crc16) % 256] ++ data ++
        [(get_crc ([sync, device_address, (header_size + data.length + sizeof_crc16) % 256]
            ++ data) &&& 0xFF) % 256,
         (get_crc ([sync, device_address, (header_size + data.length + sizeof_crc16) % 256]
            ++ data) >>> 8) % 256] := by
  simp [device_frame, write_uint16]

theorem build_command_frame_eq_device_frame (command : device_command) :
    build_command_frame command =
      device_frame bill_validator_addr (command.code :: command.data) := by
  have h : command.data.length + 1 + 1 + 1 + 1 + sizeof_crc16
      = header_size + (command.data.length + 1) + sizeof_crc16 := by
    simp only [header_size]; omega
  simp [build_command_frame, device_frame, h]

theorem read_append (front rest : List Nat) (output : List (List Nat)) (size : Nat)
    (h : front.length = size) :
    serial_port.read ⟨front ++ rest, output⟩ size = some (front, ⟨rest, output⟩) := by
  subst h
  simp [serial_port.read]

theorem receive_frame_of_reads (port port1 port2 port3 : serial_port)
    (header payload crc : List Nat) (size : Nat)
    (h1 : port.read header_size = some (header, port1))
    (h2 : header.getD sync_offset 0 = sync)
    (h3 : (header.getD lng_offset 0 + 2 ^ 64 - header_size - sizeof_crc16) % 2 ^ 64 = size)
    (h4 : ¬ size > vector_max_size)
    (h5 : port1.read size = some (payload, port2))
    (h6 : port2.read sizeof_crc16 = some (crc, port3))
    (h7 : get_crc (header ++ payload) = read_uint16 crc) :
    receive_frame port = (.ok (header, payload), port3) := by
  unfold receive_frame
  simp only [h1, h2, h3, h4, h5, h6, h7, ne_eq, not_true_eq_false, if_false]

theorem receive_frame_device_frame (device_address : Nat) (data rest : List Nat)
    (output : List (List Nat)) (hlen : data.length ≤ 250) :
    receive_frame ⟨device_frame device_address data ++ rest, output⟩ =
      (.ok ([sync, device_address, data.length + 5], data), ⟨rest, output⟩) := by
  have hL : (header_size + data.length + sizeof_crc16) % 256 = data.length + 5 := by
    simp only [header_size, sizeof_crc16]; omega
  have hsize : (data.length + 5 + 2 ^ 64 - header_size - sizeof_crc16) % 2 ^ 64 = data.length := by
    simp only [header_size, sizeof_crc16]; omega
  have hmax : ¬ (data.length > vector_max_size) := by
    simp only [vector_max_size]; omega
  rewrite [device_frame_eq, hL, List.append_assoc, List.append_assoc]
  exact receive_frame_of_reads _ _ _ _ _ _ _ data.length
    (read_append [sync, device_address, data.length + 5] _ output header_size rfl)
    rfl hsize hmax
    (read_append data _ output data.length rfl)
    (read_append _ rest output sizeof_crc16 rfl)
    (read_uint16_write_uint16 _ (get_crc_lt _)).symm

/-! ## C7, C8: the codec -/

set_option maxRecDepth 100000 in
/-- C7 (as stated, refuted): the frame built for the Reset command with a
payload of 250 bytes carries the length byte `256 mod 256 = 0`; the frame
parser computes a payload size of `2 ^ 64 - 5` from it and ends with
`std::length_error` instead of yielding the body. -/
theorem codec_round_trip_fails_at_250 :
    (receive_frame ⟨build_command_frame ⟨0x30, List.replicate 250 0⟩, []⟩).1
      = .error .length_error := by
  decide

/-- C7 (amended): for every command byte `c` and every payload `p` of at
most 249 bytes, the frame parser of the exchanges, fed the bytes of
`build_command_frame(c, p)` (followed by anything), passes the SYNC check
and the CRC check, yields the header `02 03 LENGTH`, so ADDRESS 0x03, and
the body `c` followed by `p`, and consumes exactly the frame. -/
theorem codec_round_trip (c : Nat) (p rest : List Nat) (output : List (List Nat))
    (hlen : p.length ≤ 249) :
    receive_frame ⟨build_command_frame ⟨c, p⟩ ++ rest, output⟩ =
      (.ok ([0x02, 0x03, p.length + 6], c :: p), ⟨rest, output⟩) := by
  rewrite [build_command_frame_eq_device_frame]
  exact receive_frame_device_frame bill_validator_addr (c :: p) rest output
    (by simp only [List.length_cons]; omega)

/-- C7, at a concrete input: the Poll command with an empty payload. -/
theorem codec_round_trip_witness :
    ([] : List Nat).length ≤ 249 ∧
    receive_frame ⟨build_command_frame ⟨0x33, []⟩ ++ [7], []⟩ =
      (.ok ([0x02, 0x03, 6], [0x33]), ⟨[7], []⟩) :=
  ⟨by decide, codec_round_trip 0x33 [] [7] [] (by decide)⟩

set_option maxRecDepth 20000 in
/-- C8: for every command byte `c` and every payload `p` of at most 249
bytes, `build_command_frame` returns `02 03 (|p|+6) c`, then `p`, then the
CRC-16 of those bytes, low byte first, where the CRC is the one of the
reference algorithm of the specification; for Reset (0x30) with an empty
payload the frame is `02 03 06 30 41 B3`. -/
theorem build_command_frame_layout (c : Nat) (p : List Nat) (hc : c < 256)
    (hp : ∀ b ∈ p, b < 256) (hlen : p.length ≤ 249) :
    build_command_frame ⟨c, p⟩ =
        [0x02, 0x03, p.length + 6, c] ++ p ++
          [crc16_reference ([0x02, 0x03, p.length + 6, c] ++ p) % 256,
           crc16_reference ([0x02, 0x03, p.length + 6, c] ++ p) / 256]
      ∧ build_command_frame ⟨0x30, []⟩ = [0x02, 0x03, 0x06, 0x30, 0x41, 0xB3] := by
  refine ⟨?_, by decide⟩
  have hbytes : ∀ b ∈ [0x02, 0x03, p.length + 6, c] ++ p, b < 256 := by
    intro b hb
    simp only [List.cons_append, List.nil_append, List.mem_cons] at hb
    rcases hb with h | h | h | h | h
    · omega
    · omega
    · omega
    · omega
    · exact hp b h
  have hcrc := get_crc_eq_reference _ hbytes
  have hlt := get_crc_lt ([0x02, 0x03, p.length + 6, c] ++ p)
  have hL : (header_size + (c :: p).length + sizeof_crc16) % 256 = p.length + 6 := by
    simp only [header_size, sizeof_crc16, List.length_cons]; omega
  have hlow : ∀ v : Nat, (v &&& 0xFF) % 256 = v % 256 := by
    intro v
    have := Nat.and_pow_two_sub_one_eq_mod v 8
    norm_num at this
    rw [this, Nat.mod_mod]
  have hhigh : ∀ v : Nat, v < 2 ^ 16 → (v >>> 8) % 256 = v / 256 := by
    intro v hv
    rw [Nat.shiftRight_eq_div_pow]
    exact Nat.mod_eq_of_lt (by omega)
  rewrite [build_command_frame_eq_device_frame, device_frame_eq, hL]
  simp only [sync, bill_validator_addr, List.cons_append, List.nil_append] at hcrc hlt ⊢
  rw [hlow, hhigh _ hlt, hcrc]

/-- C8, at a concrete input: the Poll command with the payload `01`. -/
theorem build_command_frame_layout_witness :
    build_command_frame ⟨0x33, [1]⟩ =
        [0x02, 0x03, [1].length + 6, 0x33] ++ [1] ++
          [crc16_reference ([0x02, 0x03, [1].length + 6, 0x33] ++ [1]) % 256,
           crc16_reference ([0x02, 0x03, [1].length + 6, 0x33] ++ [1]) / 256]
      ∧ build_command_frame ⟨0x30, []⟩ = [0x02, 0x03, 0x06, 0x30, 0x41, 0xB3] :=
  build_command_frame_layout 0x33 [1] (by decide) (by decide) (by decide)

/-! ## The exchanges on well-formed replies

The lemmas speak of an arbitrary port whose pending input starts with a
well-formed frame. -/

theorem build_command_frame_address (command : device_command) :
    (build_command_frame command).getD adr_offset 0 = bill_validator_addr := by
  rw [build_command_frame_eq_device_frame, device_frame_eq]
  rfl

theorem ack_frame_eq_device_frame (device_address : Nat) :
    ack_frame device_address = device_frame device_address [ack] := by
  simp [ack_frame, device_frame, header_size]

theorem nak_frame_eq_device_frame (device_address : Nat) :
    nak_frame device_address = device_frame device_address [nak] := by
  simp [nak_frame, device_frame, header_size]

theorem receive_loop_accept (command_frame : List Nat) (try_count : Nat) (data rest : List Nat)
    (port : serial_port)
    (haddr : command_frame.getD adr_offset 0 = bill_validator_addr)
    (hlen : data.length ≤ 250)
    (hinput : port.input = device_frame bill_validator_addr data ++ rest) :
    receive_loop command_frame (try_count + 1) port =
      (.ok (some ([sync, bill_validator_addr, data.length + 5], data)), ⟨rest, port.output⟩) := by
  obtain ⟨input, output⟩ := port
  simp only at hinput
  subst hinput
  rewrite [receive_loop, receive_frame_device_frame _ _ _ _ hlen]
  simp only [haddr]
  simp only [adr_offset, List.getD_cons_zero, List.getD_cons_succ, if_true]

theorem send_command_loop_reply (command_frame : List Nat) (try_count : Nat)
    (data rest : List Nat) (port : serial_port)
    (haddr : command_frame.getD adr_offset 0 = bill_validator_addr)
    (hlen : data.length ≤ 250)
    (hinput : port.input = device_frame bill_validator_addr data ++ rest) :
    send_command_loop command_frame (try_count + 1) port =
      if ¬ (data.length = 1) then
        (.error .assertion_failed, ⟨rest, port.output ++ [command_frame]⟩)
      else if data.getD 0 0 = ill_cmd then
        (.error .illegal_command, ⟨rest, port.output ++ [command_frame]⟩)
      else if data.getD 0 0 = ack then (.ok true, ⟨rest, port.output ++ [command_frame]⟩)
      else if data.getD 0 0 ≠ nak then
        (.error .invalid_payload, ⟨rest, port.output ++ [command_frame]⟩)
      else send_command_loop command_frame try_count ⟨rest, port.output ++ [command_frame]⟩ := by
  rewrite [send_command_loop,
    receive_loop_accept command_frame 4 data rest (port.write command_frame) haddr hlen hinput]
  rfl

theorem get_command_result_loop_reply (command_frame : List Nat) (try_count : Nat)
    (data rest : List Nat) (port : serial_port)
    (haddr : command_frame.getD adr_offset 0 = bill_validator_addr)
    (hlen : data.length ≤ 250)
    (hinput : port.input = device_frame bill_validator_addr data ++ rest) :
    get_command_result_loop command_frame (try_count + 1) port =
      if ¬ (data.length > 0) then
        (.error .assertion_failed, ⟨rest, port.output ++ [command_frame]⟩)
      else if data.length = 1 ∧ data.getD 0 0 = ill_cmd then
        (.error .illegal_command, ⟨rest, port.output ++ [command_frame]⟩)
      else if data.length = 1 ∧ data.getD 0 0 = nak then
        get_command_result_loop command_frame try_count ⟨rest, port.output ++ [command_frame]⟩
      else
        (.ok (some data),
          ⟨rest, port.output ++ [command_frame] ++ [ack_frame bill_validator_addr]⟩) := by
  rewrite [get_command_result_loop,
    receive_loop_accept command_frame 4 data rest (port.write command_frame) haddr hlen hinput]
  rfl

theorem send_command_loop_naks (command_frame : List Nat)
    (haddr : command_frame.getD adr_offset 0 = bill_validator_addr)
    (try_count k : Nat) (rest : List Nat) (port : serial_port)
    (hinput : port.input = repeat_frame (nak_frame bill_validator_addr) k ++
      (ack_frame bill_validator_addr ++ rest)) :
    send_command_loop command_frame try_count port =
      if k < try_count then
        (.ok true, ⟨rest, port.output ++ List.replicate (k + 1) command_frame⟩)
      else
        (.ok false,
          ⟨repeat_frame (nak_frame bill_validator_addr) (k - try_count) ++
            (ack_frame bill_validator_addr ++ rest),
           port.output ++ List.replicate try_count command_frame⟩) := by
  induction try_count generalizing k port with
  | zero =>
    obtain ⟨input, output⟩ := port
    simp only at hinput
    simp [send_command_loop, hinput]
  | succ n ih =>
    cases k with
    | zero =>
      rewrite [repeat_frame, List.nil_append, ack_frame_eq_device_frame] at hinput
      rewrite [send_command_loop_reply _ _ _ _ _ haddr (by decide) hinput]
      simp [ack, ill_cmd]
    | succ k =>
      have hhead : port.input = device_frame bill_validator_addr [nak] ++
          (repeat_frame (nak_frame bill_validator_addr) k ++
            (ack_frame bill_validator_addr ++ rest)) := by
        rw [hinput, repeat_frame, List.append_assoc, ← nak_frame_eq_device_frame]
      rewrite [send_command_loop_reply _ _ _ _ _ haddr (by decide) hhead,
        ih k ⟨_, port.output ++ [command_frame]⟩ rfl]
      simp [ack, ill_cmd, nak, List.replicate_succ]
theorem send_command_naks (command : device_command) (k : Nat) (rest : List Nat)
    (port : serial_port)
    (hinput : port.input = repeat_frame (nak_frame bill_validator_addr) k ++
      (ack_frame bill_validator_addr ++ rest)) :
    send_command command port =
      if k < 3 then
        (.ok (), ⟨rest, port.output ++ List.replicate (k + 1) (build_command_frame command)⟩)
      else
        (.error .command_not_received,
          ⟨repeat_frame (nak_frame bill_validator_addr) (k - 3) ++
            (ack_frame bill_validator_addr ++ rest),
           port.output ++ List.replicate 3 (build_command_frame command)⟩) := by
  unfold send_command
  rewrite [send_command_loop_naks _ (build_command_frame_address command) 3 k rest port hinput]
  by_cases hk : k < 3
  · rw [if_pos hk, if_pos hk]
  · rw [if_neg hk, if_neg hk]

theorem send_command_loop_ok_iff (command_frame : List Nat) (try_count : Nat)
    (port port1 : serial_port) :
    send_command_loop command_frame (try_count + 1) port = (.ok true, port1) ↔
      (∃ header, receive_loop command_frame 5 (port.write command_frame)
          = (.ok (some (header, [ack])), port1))
        ∨ ∃ header port0, receive_loop command_frame 5 (port.write command_frame)
            = (.ok (some (header, [nak])), port0)
          ∧ send_command_loop command_frame try_count port0 = (.ok true, port1) := by
  rewrite [send_command_loop]
  generalize hr : receive_loop command_frame 5 (port.write command_frame) = r
  rcases r with ⟨(e | (_ | ⟨header, payload⟩)), p1⟩
  · simp
  · simp
  · simp only
    by_cases hlen : payload.length = 1
    · obtain ⟨b, hb⟩ : ∃ b, payload = [b] := by
        match payload, hlen with
        | [b], _ => exact ⟨b, rfl⟩
      subst hb
      rw [if_neg (not_not.mpr hlen)]
      simp only [List.getD_cons_zero]
      by_cases hill : b = ill_cmd
      · rw [if_pos hill]
        subst hill
        constructor
        · intro h
          simp at h
        · rintro (⟨_, heq⟩ | ⟨_, _, heq, _⟩) <;> simp [ill_cmd, ack, nak] at heq
      · rw [if_neg hill]
        by_cases hack : b = ack
        · rw [if_pos hack]
          subst hack
          constructor
          · intro h
            exact Or.inl ⟨header, by rw [(Prod.mk.inj h).2]⟩
          · rintro (⟨_, heq⟩ | ⟨_, _, heq, _⟩)
            · rw [(Prod.mk.inj heq).2]
            · simp [ack, nak] at heq
        · rw [if_neg hack]
          by_cases hnak : b = nak
          · rw [if_neg (not_not.mpr hnak)]
            subst hnak
            constructor
            · intro h
              exact Or.inr ⟨header, p1, rfl, h⟩
            · rintro (⟨_, heq⟩ | ⟨_, port0, heq, h⟩)
              · simp [ack, nak] at heq
              · rw [(Prod.mk.inj heq).2]
                exact h
          · rw [if_pos hnak]
            constructor
            · intro h
              simp at h
            · rintro (⟨_, heq⟩ | ⟨_, _, heq, _⟩)
              · simp only [Prod.mk.injEq, Except.ok.injEq, Option.some.injEq,
                  List.cons.injEq, and_true] at heq
                exact absurd heq.1.2 hack
              · simp only [Prod.mk.injEq, Except.ok.injEq, Option.some.injEq,
                  List.cons.injEq, and_true] at heq
                exact absurd heq.1.2 hnak
    · rw [if_pos hlen]
      have h1 : payload ≠ [ack] := fun h => hlen (by rw [h]; rfl)
      have h2 : payload ≠ [nak] := fun h => hlen (by rw [h]; rfl)
      constructor
      · intro h
        simp at h
      · rintro (⟨_, heq⟩ | ⟨_, _, heq, _⟩)
        · simp only [Prod.mk.injEq, Except.ok.injEq, Option.some.injEq] at heq
          exact absurd heq.1.2 h1
        · simp only [Prod.mk.injEq, Except.ok.injEq, Option.some.injEq] at heq
          exact absurd heq.1.2 h2

theorem send_command_ok_iff (command : device_command) (port port1 : serial_port) :
    send_command command port = (.ok (), port1) ↔
      send_command_loop (build_command_frame command) 3 port = (.ok true, port1) := by
  unfold send_command
  generalize send_command_loop (build_command_frame command) 3 port = r
  rcases r with ⟨(e | (_ | _)), p1⟩ <;> simp

theorem send_command_ok_unrolled (command : device_command) (port port1 : serial_port) :
    send_command command port = (.ok (), port1) ↔
      (∃ header,
          receive_loop (build_command_frame command) 5
              (port.write (build_command_frame command))
            = (.ok (some (header, [ack])), port1))
        ∨ ∃ header0 port0,
            receive_loop (build_command_frame command) 5
                (port.write (build_command_frame command))
              = (.ok (some (header0, [nak])), port0)
            ∧ ((∃ header,
                  receive_loop (build_command_frame command) 5
                      (port0.write (build_command_frame command))
                    = (.ok (some (header, [ack])), port1))
              ∨ ∃ header1 port2,
                  receive_loop (build_command_frame command) 5
                      (port0.write (build_command_frame command))
                    = (.ok (some (header1, [nak])), port2)
                  ∧ ∃ header,
                      receive_loop (build_command_frame command) 5
                          (port2.write (build_command_frame command))
                        = (.ok (some (header, [ack])), port1)) := by
  have h0 : ∀ p : serial_port,
      send_command_loop (build_command_frame command) 0 p = (.ok true, port1) ↔ False :=
    fun p => by simp [send_command_loop]
  have h1 := fun p => send_command_loop_ok_iff (build_command_frame command) 0 p port1
  have h2 := fun p => send_command_loop_ok_iff (build_command_frame command) 1 p port1
  rewrite [send_command_ok_iff, send_command_loop_ok_iff (build_command_frame command) 2]
  simp only [h2, h1, h0, and_false, exists_false, or_false]

theorem get_command_result_illegal (command : device_command) (rest : List Nat)
    (port : serial_port)
    (hinput : port.input = device_frame bill_validator_addr [ill_cmd] ++ rest) :
    get_command_result command port =
      (.error .illegal_command, ⟨rest, port.output ++ [build_command_frame command]⟩) := by
  unfold get_command_result
  rewrite [get_command_result_loop_reply _ 2 [ill_cmd] rest port
    (build_command_frame_address command) (by decide) hinput]
  rfl

theorem send_command_illegal (command : device_command) (rest : List Nat)
    (port : serial_port)
    (hinput : port.input = device_frame bill_validator_addr [ill_cmd] ++ rest) :
    send_command command port =
      (.error .illegal_command, ⟨rest, port.output ++ [build_command_frame command]⟩) := by
  unfold send_command
  rewrite [send_command_loop_reply _ 2 [ill_cmd] rest port
    (build_command_frame_address command) (by decide) hinput]
  rfl

theorem singleton_of_length_getD (data : List Nat) (b : Nat)
    (h : data.length = 1 ∧ data.getD 0 0 = b) : data = [b] := by
  match data, h with
  | [x], ⟨_, hx⟩ => simpa using hx

theorem get_command_result_reply (command : device_command) (data rest : List Nat)
    (port : serial_port)
    (hinput : port.input = device_frame bill_validator_addr data ++ rest)
    (hpos : 0 < data.length) (hlen : data.length ≤ 250)
    (hill : data ≠ [ill_cmd]) (hnak : data ≠ [nak]) :
    get_command_result command port =
      (.ok data,
        ⟨rest, port.output ++ [build_command_frame command]
          ++ [ack_frame bill_validator_addr]⟩) := by
  unfold get_command_result
  rewrite [get_command_result_loop_reply _ 2 data rest port
    (build_command_frame_address command) hlen hinput]
  rw [if_neg (not_not.mpr hpos),
    if_neg (fun h => hill (singleton_of_length_getD data ill_cmd h)),
    if_neg (fun h => hnak (singleton_of_length_getD data nak h))]

/-! ## C9, C10: the retry discipline of the exchanges -/

/-- C9: when the device answers `send_command` with `k` well-formed NAK
frames followed by a well-formed ACK frame, all addressed to 0x03, the
exchange succeeds if and only if `k ≤ 2`, the buffers it writes are exactly
`min (k + 1) 3` copies of the command frame, and with `k ≥ 3` it fails with
"command was not correctly received by bill validator"; one NAK followed by
an ACK gives success with exactly two writes of the command frame. -/
theorem send_command_nak_retry (command : device_command) (k : Nat) (rest : List Nat)
    (output : List (List Nat)) :
    ((send_command command
        ⟨repeat_frame (nak_frame bill_validator_addr) k ++
          (ack_frame bill_validator_addr ++ rest), output⟩).1 = .ok () ↔ k ≤ 2)
    ∧ (send_command command
        ⟨repeat_frame (nak_frame bill_validator_addr) k ++
          (ack_frame bill_validator_addr ++ rest), output⟩).2.output
        = output ++ List.replicate (min (k + 1) 3) (build_command_frame command)
    ∧ (3 ≤ k →
        (send_command command
          ⟨repeat_frame (nak_frame bill_validator_addr) k ++
            (ack_frame bill_validator_addr ++ rest), output⟩).1
          = .error .command_not_received)
    ∧ send_command command
        ⟨nak_frame bill_validator_addr ++ (ack_frame bill_validator_addr ++ rest), output⟩
        = (.ok (), ⟨rest, output ++ [build_command_frame command, build_command_frame command]⟩) := by
  have hk := send_command_naks command k rest
    ⟨repeat_frame (nak_frame bill_validator_addr) k ++
      (ack_frame bill_validator_addr ++ rest), output⟩ rfl
  have h1 := send_command_naks command 1 rest
    ⟨nak_frame bill_validator_addr ++ (ack_frame bill_validator_addr ++ rest), output⟩
    (by simp [repeat_frame])
  refine ⟨?_, ?_, ?_, ?_⟩
  · rw [hk]
    by_cases h : k < 3
    · rw [if_pos h]; simp; omega
    · rw [if_neg h]; simp; omega
  · rw [hk]
    by_cases h : k < 3
    · rw [if_pos h, Nat.min_eq_left (by omega)]
    · rw [if_neg h, Nat.min_eq_right (by omega)]
  · intro h
    rw [hk, if_neg (by omega)]
  · rw [h1]; rfl

/-- C10: terminal replies are not retried. In `get_command_result` and in
`send_command`, at any attempt, a well-formed reply addressed to 0x03 whose
payload is the single byte 0x30 ends the exchange with "illegal command"
after the one write of the command frame of that attempt. `send_command` on
a port returns success exactly when one of its at most three attempts, each
the write of the command frame on the port the previous attempt left
followed by a receive loop, accepts a reply with the payload `[0x00]`, every
earlier attempt having accepted the payload `[0xFF]`; the port it returns is
the one that last receive loop left. At any attempt a well-formed reply
`[0x00]` gives success, a single-byte reply other than 0x00, 0xFF and 0x30
ends `send_command` with "invalid payload" without another write, and a
well-formed reply whose payload is empty or longer than one byte fails the
assertion on the payload size, without another write. -/
theorem terminal_replies_not_retried (command : device_command) (try_count : Nat)
    (rest : List Nat) (output : List (List Nat)) :
    get_command_result_loop (build_command_frame command) (try_count + 1)
        ⟨device_frame bill_validator_addr [ill_cmd] ++ rest, output⟩
      = (.error .illegal_command, ⟨rest, output ++ [build_command_frame command]⟩)
    ∧ get_command_result command ⟨device_frame bill_validator_addr [ill_cmd] ++ rest, output⟩
      = (.error .illegal_command, ⟨rest, output ++ [build_command_frame command]⟩)
    ∧ send_command_loop (build_command_frame command) (try_count + 1)
        ⟨device_frame bill_validator_addr [ill_cmd] ++ rest, output⟩
      = (.error .illegal_command, ⟨rest, output ++ [build_command_frame command]⟩)
    ∧ send_command command ⟨device_frame bill_validator_addr [ill_cmd] ++ rest, output⟩
      = (.error .illegal_command, ⟨rest, output ++ [build_command_frame command]⟩)
    ∧ (∀ port port1 : serial_port, send_command command port = (.ok (), port1) ↔
        (∃ header,
            receive_loop (build_command_frame command) 5
                (port.write (build_command_frame command))
              = (.ok (some (header, [ack])), port1))
          ∨ ∃ header0 port0,
              receive_loop (build_command_frame command) 5
                  (port.write (build_command_frame command))
                = (.ok (some (header0, [nak])), port0)
              ∧ ((∃ header,
                    receive_loop (build_command_frame command) 5
                        (port0.write (build_command_frame command))
                      = (.ok (some (header, [ack])), port1))
                ∨ ∃ header1 port2,
                    receive_loop (build_command_frame command) 5
                        (port0.write (build_command_frame command))
                      = (.ok (some (header1, [nak])), port2)
                    ∧ ∃ header,
                        receive_loop (build_command_frame command) 5
                            (port2.write (build_command_frame command))
                          = (.ok (some (header, [ack])), port1)))
    ∧ (∀ b : Nat, b ≠ ack → b ≠ nak → b ≠ ill_cmd →
        send_command_loop (build_command_frame command) (try_count + 1)
            ⟨device_frame bill_validator_addr [b] ++ rest, output⟩
          = (.error .invalid_payload, ⟨rest, output ++ [build_command_frame command]⟩))
    ∧ send_command_loop (build_command_frame command) (try_count + 1)
        ⟨device_frame bill_validator_addr [ack] ++ rest, output⟩
      = (.ok true, ⟨rest, output ++ [build_command_frame command]⟩)
    ∧ (∀ data : List Nat, data.length ≤ 250 → data.length ≠ 1 →
        send_command_loop (build_command_frame command) (try_count + 1)
            ⟨device_frame bill_validator_addr data ++ rest, output⟩
          = (.error .assertion_failed, ⟨rest, output ++ [build_command_frame command]⟩))
    ∧ (∀ data : List Nat, data.length ≤ 250 → data ≠ [ack] →
        ∀ port1 : serial_port,
          send_command command ⟨device_frame bill_validator_addr data ++ rest, output⟩
              = (.ok (), port1) →
            data = [nak]) := by
  have haddr := build_command_frame_address command
  refine ⟨?_, ?_, ?_, ?_, ?_, ?_, ?_, ?_, ?_⟩
  · have h := get_command_result_loop_reply _ try_count [ill_cmd] rest
      ⟨device_frame bill_validator_addr [ill_cmd] ++ rest, output⟩ haddr (by decide) rfl
    rw [h]; rfl
  · exact get_command_result_illegal command rest _ rfl
  · have h := send_command_loop_reply _ try_count [ill_cmd] rest
      ⟨device_frame bill_validator_addr [ill_cmd] ++ rest, output⟩ haddr (by decide) rfl
    rw [h]; rfl
  · exact send_command_illegal command rest _ rfl
  · exact fun port port1 => send_command_ok_unrolled command port port1
  · intro b hack hnak hill
    have h := send_command_loop_reply _ try_count [b] rest
      ⟨device_frame bill_validator_addr [b] ++ rest, output⟩ haddr (by simp) rfl
    rw [h]
    simp [hack, hnak, hill]
  · have h := send_command_loop_reply _ try_count [ack] rest
      ⟨device_frame bill_validator_addr [ack] ++ rest, output⟩ haddr (by decide) rfl
    rw [h]; rfl
  · intro data hlen hne
    have h := send_command_loop_reply _ try_count data rest
      ⟨device_frame bill_validator_addr data ++ rest, output⟩ haddr hlen rfl
    rw [h, if_pos hne]
  · intro data hlen hne port1 h
    have hacc := receive_loop_accept (build_command_frame command) 4 data rest
      (serial_port.write ⟨device_frame bill_validator_addr data ++ rest, output⟩
        (build_command_frame command)) haddr hlen rfl
    rcases (send_command_ok_unrolled command _ port1).mp h with ⟨header, h1⟩ | ⟨header0, port0, h1, _⟩
    · rw [hacc] at h1
      simp only [Prod.mk.injEq, Except.ok.injEq, Option.some.injEq] at h1
      exact absurd h1.1.2 hne
    · rw [hacc] at h1
      simp only [Prod.mk.injEq, Except.ok.injEq, Option.some.injEq] at h1
      exact h1.1.2

/-! ## The passes of the inner cycle -/

theorem operate_pass_of_poll {σ : Type} (env : environment σ) (self : bill_validator σ)
    (response : List Nat) (world : σ) (state : device_state)
    (hpoll : env.get_command_result ⟨device_command_code.poll, []⟩ self.world
      = (.ok response, world))
    (hstate : decode_poll response = .ok state) :
    operate_pass env self =
      if self.current_device_state.code ≠ state.code then
        if self.current_device_state.code = device_state_code.drop_cassette_out_of_pos then
          (.ok (), { notify .drop_cassette_installed (self.observed world state) with
                     initialization_required := true })
        else
          match current_state_switch env (self.observed world state) with
          | (.error e, self3) => (.error e, self3)
          | (.ok (), self3) => serve_request env self3
      else serve_request env (self.observed world state) := by
  simp only [operate_pass, poll, call_get_command_result, hpoll, hstate,
    bill_validator.observed]

theorem operate_pass_of_poll_error {σ : Type} (env : environment σ) (self : bill_validator σ)
    (world : σ) (e : error)
    (hpoll : env.get_command_result ⟨device_command_code.poll, []⟩ self.world
      = (.error e, world)) :
    operate_pass env self =
      (.error e,
        { self with
          world := world
          trace := self.trace ++ [event.device ⟨device_command_code.poll, []⟩]
          previous_device_state := self.current_device_state }) := by
  simp only [operate_pass, poll, call_get_command_result, hpoll]

theorem operate_loop_inner {σ : Type} (env : environment σ) (working : Nat)
    (self self1 : bill_validator σ)
    (hinit : self.initialization_required = false)
    (hpass : operate_pass env self = (.ok (), self1)) :
    operate_loop env (working + 1) .inner self = operate_loop env working .inner self1 := by
  simp only [operate_loop, hinit, hpass, Bool.false_eq_true, if_false]

theorem operate_loop_inner_error {σ : Type} (env : environment σ) (working : Nat)
    (self self1 : bill_validator σ) (e : error)
    (hinit : self.initialization_required = false)
    (hpass : operate_pass env self = (.error e, self1)) :
    operate_loop env (working + 1) .inner self = (.error e, self1) := by
  simp only [operate_loop, hinit, hpass, Bool.false_eq_true, if_false]

theorem serve_request_empty {σ : Type} (env : environment σ) (self : bill_validator σ)
    (hqueue : self.cmd_queue = []) : serve_request env self = (.ok (), self) := by
  simp only [serve_request, hqueue]

/-! ## C3: the accept scenario -/

/-- C3: the request queue is empty, the bill table holds `cash` at index
`i`, and the state observed last is not DropCassetteOutOfPos (at the start
of the thread it is Unknown). When three successive polls report Idling,
EscrowPos(i) and BillStacked(i), the operator answers Accept within the
bound and the device accepts Stack Bill, the inner cycle makes exactly
these steps, in this order, and goes on: Poll, Poll,
`request_cash_action(cash)`, Stack Bill, Poll, `cash_accepted(cash)`. So
`request_cash_action` is called once, Stack Bill is the one command between
the second and the third poll, `cash_accepted` is called once after the
third poll, and `cash_returned` is not called. -/
theorem accept_scenario {σ : Type} (env : environment σ) (self : bill_validator σ)
    (i : Nat) (cash : cash_type) (w1 w2 w3 w4 w5 : σ)
    (hqueue : self.cmd_queue = [])
    (hinit : self.initialization_required = false)
    (hprev : self.current_device_state.code ≠ device_state_code.drop_cassette_out_of_pos)
    (htable : map_at self.bill_types_by_numbers i = .ok cash)
    (hpoll1 : env.get_command_result ⟨device_command_code.poll, []⟩ self.world
      = (.ok [device_state_code.idling], w1))
    (hpoll2 : env.get_command_result ⟨device_command_code.poll, []⟩ w1
      = (.ok [device_state_code.escrow_pos, i], w2))
    (hanswer : env.request_cash_action cash w2 = (⟨false, .accept_cash⟩, w3))
    (hstack : env.send_command ⟨device_command_code.stack_bill, []⟩ w3 = (.ok (), w4))
    (hpoll3 : env.get_command_result ⟨device_command_code.poll, []⟩ w4
      = (.ok [device_state_code.bill_stacked, i], w5))
    (working : Nat) :
    operate_loop env (working + 3) .inner self =
      operate_loop env working .inner
        { self with
          world := w5
          trace := self.trace ++
            [event.device ⟨device_command_code.poll, []⟩,
             event.device ⟨device_command_code.poll, []⟩,
             event.operator_call (.request_cash_action cash),
             event.device ⟨device_command_code.stack_bill, []⟩,
             event.device ⟨device_command_code.poll, []⟩,
             event.operator_call (.cash_accepted cash)]
          previous_device_state := ⟨device_state_code.escrow_pos, i⟩
          current_device_state := ⟨device_state_code.bill_stacked, i⟩ } := by
  obtain ⟨world, trace, cmd_queue, info, table, prev, cur, ireq⟩ := self
  simp only at hqueue hinit hprev htable hpoll1
  subst hqueue hinit
  have hprev2 : ¬ cur.code = 66 := hprev
  have hpass1 : operate_pass env ⟨world, trace, [], info, table, prev, cur, false⟩ =
      (.ok (), ⟨w1, trace ++ [event.device ⟨device_command_code.poll, []⟩], [], info, table,
        cur, ⟨device_state_code.idling, 0⟩, false⟩) := by
    rw [operate_pass_of_poll env _ [device_state_code.idling] w1
      ⟨device_state_code.idling, 0⟩ hpoll1 rfl]
    simp [hprev2, bill_validator.observed, current_state_switch, serve_request,
      device_state_code.idling, device_state_code.drop_cassette_full,
      device_state_code.drop_cassette_out_of_pos, device_state_code.validator_jammed,
      device_state_code.drop_cassette_jammed, device_state_code.failure,
      device_state_code.escrow_pos, device_state_code.bill_stacked,
      device_state_code.bill_returned]
  have hpass2 : operate_pass env
      ⟨w1, trace ++ [event.device ⟨device_command_code.poll, []⟩], [], info, table,
        cur, ⟨device_state_code.idling, 0⟩, false⟩ =
      (.ok (), ⟨w4, trace ++ [event.device ⟨device_command_code.poll, []⟩,
          event.device ⟨device_command_code.poll, []⟩,
          event.operator_call (.request_cash_action cash),
          event.device ⟨device_command_code.stack_bill, []⟩], [], info, table,
        ⟨device_state_code.idling, 0⟩, ⟨device_state_code.escrow_pos, i⟩, false⟩) := by
    rw [operate_pass_of_poll env _ [device_state_code.escrow_pos, i] w2
      ⟨device_state_code.escrow_pos, i⟩ hpoll2 rfl]
    simp [bill_validator.observed, current_state_switch, serve_request, escrow_pos_case,
      htable, hanswer, notify, stack_bill, call_send_command, hstack,
      device_state_code.idling, device_state_code.drop_cassette_full,
      device_state_code.drop_cassette_out_of_pos, device_state_code.validator_jammed,
      device_state_code.drop_cassette_jammed, device_state_code.failure,
      device_state_code.escrow_pos, device_state_code.bill_stacked,
      device_state_code.bill_returned]
  have hpass3 : operate_pass env
      ⟨w4, trace ++ [event.device ⟨device_command_code.poll, []⟩,
          event.device ⟨device_command_code.poll, []⟩,
          event.operator_call (.request_cash_action cash),
          event.device ⟨device_command_code.stack_bill, []⟩], [], info, table,
        ⟨device_state_code.idling, 0⟩, ⟨device_state_code.escrow_pos, i⟩, false⟩ =
      (.ok (), ⟨w5, trace ++ [event.device ⟨device_command_code.poll, []⟩,
          event.device ⟨device_command_code.poll, []⟩,
          event.operator_call (.request_cash_action cash),
          event.device ⟨device_command_code.stack_bill, []⟩,
          event.device ⟨device_command_code.poll, []⟩,
          event.operator_call (.cash_accepted cash)], [], info, table,
        ⟨device_state_code.escrow_pos, i⟩, ⟨device_state_code.bill_stacked, i⟩, false⟩) := by
    rw [operate_pass_of_poll env _ [device_state_code.bill_stacked, i] w5
      ⟨device_state_code.bill_stacked, i⟩ hpoll3 rfl]
    simp [bill_validator.observed, current_state_switch, serve_request,
      htable, notify,
      device_state_code.idling, device_state_code.drop_cassette_full,
      device_state_code.drop_cassette_out_of_pos, device_state_code.validator_jammed,
      device_state_code.drop_cassette_jammed, device_state_code.failure,
      device_state_code.escrow_pos, device_state_code.bill_stacked,
      device_state_code.bill_returned]
  rw [operate_loop_inner env (working + 2) _ _ rfl hpass1,
    operate_loop_inner env (working + 1) _ _ rfl hpass2,
    operate_loop_inner env working _ _ rfl hpass3]

set_option maxRecDepth 100000 in
/-- C3, at a concrete input, on the serial line: the device sends the
replies `14`, `80 00`, ACK, `81 00` as well-formed frames, the bill table
is `0 ↦ (RUB, 500)`, the operator answers Accept in time. -/
theorem accept_scenario_witness :
    operate_loop serial (0 + 3) .inner
        (bill_validator.polling
          (serial_world.mk
            ⟨device_frame 3 [0x14] ++ (device_frame 3 [0x80, 0] ++
              (ack_frame 3 ++ device_frame 3 [0x81, 0])), []⟩
            [⟨false, .accept_cash⟩])
          table_rub_500 [] {}) =
      operate_loop serial 0 .inner
        { bill_validator.polling
            (serial_world.mk
              ⟨device_frame 3 [0x14] ++ (device_frame 3 [0x80, 0] ++
                (ack_frame 3 ++ device_frame 3 [0x81, 0])), []⟩
              [⟨false, .accept_cash⟩])
            table_rub_500 [] {} with
          world := serial_world.mk
            ⟨[], [build_command_frame ⟨0x33, []⟩, ack_frame 3,
                  build_command_frame ⟨0x33, []⟩, ack_frame 3,
                  build_command_frame ⟨0x35, []⟩,
                  build_command_frame ⟨0x33, []⟩, ack_frame 3]⟩ []
          trace := [] ++
            [event.device ⟨device_command_code.poll, []⟩,
             event.device ⟨device_command_code.poll, []⟩,
             event.operator_call (.request_cash_action ⟨[82, 85, 66], 500⟩),
             event.device ⟨device_command_code.stack_bill, []⟩,
             event.device ⟨device_command_code.poll, []⟩,
             event.operator_call (.cash_accepted ⟨[82, 85, 66], 500⟩)]
          previous_device_state := ⟨device_state_code.escrow_pos, 0⟩
          current_device_state := ⟨device_state_code.bill_stacked, 0⟩ } :=
  accept_scenario serial _ 0 ⟨[82, 85, 66], 500⟩
    ⟨⟨device_frame 3 [0x80, 0] ++ (ack_frame 3 ++ device_frame 3 [0x81, 0]),
        [build_command_frame ⟨0x33, []⟩, ack_frame 3]⟩, [⟨false, .accept_cash⟩]⟩
    ⟨⟨ack_frame 3 ++ device_frame 3 [0x81, 0],
        [build_command_frame ⟨0x33, []⟩, ack_frame 3,
         build_command_frame ⟨0x33, []⟩, ack_frame 3]⟩, [⟨false, .accept_cash⟩]⟩
    ⟨⟨ack_frame 3 ++ device_frame 3 [0x81, 0],
        [build_command_frame ⟨0x33, []⟩, ack_frame 3,
         build_command_frame ⟨0x33, []⟩, ack_frame 3]⟩, []⟩
    ⟨⟨device_frame 3 [0x81, 0],
        [build_command_frame ⟨0x33, []⟩, ack_frame 3,
         build_command_frame ⟨0x33, []⟩, ack_frame 3,
         build_command_frame ⟨0x35, []⟩]⟩, []⟩
    ⟨⟨[], [build_command_frame ⟨0x33, []⟩, ack_frame 3,
           build_command_frame ⟨0x33, []⟩, ack_frame 3,
           build_command_frame ⟨0x35, []⟩,
           build_command_frame ⟨0x33, []⟩, ack_frame 3]⟩, []⟩
    rfl rfl (by decide) (by decide) (by decide) (by decide) (by decide) (by decide) (by decide) 0

/-! ## The requests: what serving one adds to the trace -/

theorem operator_calls_append (a b : List event) :
    operator_calls (a ++ b) = operator_calls a ++ operator_calls b := by
  simp [operator_calls, List.filterMap_append]

theorem call_send_command_trace {σ : Type} (env : environment σ) (command : device_command)
    (self : bill_validator σ) :
    (call_send_command env command self).2.trace = self.trace ++ [event.device command] :=
  rfl

theorem call_get_command_result_trace {σ : Type} (env : environment σ)
    (command : device_command) (self : bill_validator σ) :
    (call_get_command_result env command self).2.trace
      = self.trace ++ [event.device command] :=
  rfl

theorem handler_catch_trace {σ : Type} (result : Nat) (e : error) (self : bill_validator σ) :
    ∃ tail, (handler_catch result e self).trace = self.trace ++ tail
      ∧ operator_calls tail = [] := by
  unfold handler_catch
  split
  · exact ⟨[], by simp, rfl⟩
  · exact ⟨_, rfl, rfl⟩

theorem after_exchange_trace {σ : Type} (self self1 self2 : bill_validator σ)
    (command : device_command)
    (h1 : self1.trace = self.trace ++ [event.device command])
    (h2 : ∃ tail, self2.trace = self1.trace ++ tail ∧ operator_calls tail = []) :
    ∃ tail, self2.trace = self.trace ++ tail ∧ operator_calls tail = [] := by
  obtain ⟨tail, h2, h3⟩ := h2
  refine ⟨event.device command :: tail, by rw [h2, h1]; simp, ?_⟩
  simpa [operator_calls] using h3

theorem get_enabled_bill_types_handler_trace {σ : Type} (env : environment σ)
    (data : List Nat) (result : Nat) (self : bill_validator σ) :
    ∃ tail, (get_enabled_bill_types_handler env data result self).2.trace
        = self.trace ++ tail ∧ operator_calls tail = [] := by
  unfold get_enabled_bill_types_handler
  split
  · rename_i e self1 heq
    have h1 : self1.trace = self.trace ++ [event.device ⟨device_command_code.get_status, data⟩] := by
      rw [← call_get_command_result_trace env _ self, heq]
    exact after_exchange_trace self self1 _ _ h1 (handler_catch_trace result e self1)
  · rename_i response self1 heq
    have h1 : self1.trace = self.trace ++ [event.device ⟨device_command_code.get_status, data⟩] := by
      rw [← call_get_command_result_trace env _ self, heq]
    split
    · exact after_exchange_trace self self1 _ _ h1 (handler_catch_trace result _ self1)
    · exact after_exchange_trace self self1 _ _ h1 ⟨_, rfl, rfl⟩

theorem get_bill_types_security_levels_handler_trace {σ : Type} (env : environment σ)
    (data : List Nat) (result : Nat) (self : bill_validator σ) :
    ∃ tail, (get_bill_types_security_levels_handler env data result self).2.trace
        = self.trace ++ tail ∧ operator_calls tail = [] := by
  unfold get_bill_types_security_levels_handler
  split
  · rename_i e self1 heq
    have h1 : self1.trace = self.trace ++ [event.device ⟨device_command_code.get_status, data⟩] := by
      rw [← call_get_command_result_trace env _ self, heq]
    exact after_exchange_trace self self1 _ _ h1 (handler_catch_trace result e self1)
  · rename_i response self1 heq
    have h1 : self1.trace = self.trace ++ [event.device ⟨device_command_code.get_status, data⟩] := by
      rw [← call_get_command_result_trace env _ self, heq]
    split
    · exact after_exchange_trace self self1 _ _ h1 (handler_catch_trace result _ self1)
    · split
      · exact after_exchange_trace self self1 _ _ h1 (handler_catch_trace result _ self1)
      · exact after_exchange_trace self self1 _ _ h1 ⟨_, rfl, rfl⟩

theorem set_enabled_bill_types_handler_trace {σ : Type} (env : environment σ)
    (data : List Nat) (result : Nat) (self : bill_validator σ) :
    ∃ tail, (set_enabled_bill_types_handler env data result self).2.trace
        = self.trace ++ tail ∧ operator_calls tail = [] := by
  unfold set_enabled_bill_types_handler
  split
  · rename_i e self1 heq
    have h1 : self1.trace
        = self.trace ++ [event.device ⟨device_command_code.enable_bill_types, data⟩] := by
      rw [← call_send_command_trace env _ self, heq]
    exact after_exchange_trace self self1 _ _ h1 (handler_catch_trace result e self1)
  · rename_i self1 heq
    have h1 : self1.trace
        = self.trace ++ [event.device ⟨device_command_code.enable_bill_types, data⟩] := by
      rw [← call_send_command_trace env _ self, heq]
    exact after_exchange_trace self self1 _ _ h1 ⟨_, rfl, rfl⟩

theorem set_bill_types_security_levels_handler_trace {σ : Type} (env : environment σ)
    (data : List Nat) (result : Nat) (self : bill_validator σ) :
    ∃ tail, (set_bill_types_security_levels_handler env data result self).2.trace
        = self.trace ++ tail ∧ operator_calls tail = [] := by
  unfold set_bill_types_security_levels_handler
  split
  · rename_i e self1 heq
    have h1 : self1.trace
        = self.trace ++ [event.device ⟨device_command_code.set_security, data⟩] := by
      rw [← call_send_command_trace env _ self, heq]
    exact after_exchange_trace self self1 _ _ h1 (handler_catch_trace result e self1)
  · rename_i self1 heq
    have h1 : self1.trace
        = self.trace ++ [event.device ⟨device_command_code.set_security, data⟩] := by
      rw [← call_send_command_trace env _ self, heq]
    exact after_exchange_trace self self1 _ _ h1 ⟨_, rfl, rfl⟩

theorem serve_request_trace {σ : Type} (env : environment σ) (self : bill_validator σ) :
    ∃ tail, (serve_request env self).2.trace = self.trace ++ tail
      ∧ operator_calls tail = [] := by
  unfold serve_request
  split
  · exact ⟨[], by simp, rfl⟩
  · rename_i current_command rest hq
    cases hcode : current_command.code <;> simp only
    · exact ⟨_, rfl, rfl⟩
    · exact get_bill_types_security_levels_handler_trace env _ _ _
    · exact ⟨_, rfl, rfl⟩
    · exact get_enabled_bill_types_handler_trace env _ _ _
    · exact set_bill_types_security_levels_handler_trace env _ _ _
    · exact set_enabled_bill_types_handler_trace env _ _ _

theorem serve_request_operator_calls {σ : Type} (env : environment σ)
    (self : bill_validator σ) :
    operator_calls (serve_request env self).2.trace = operator_calls self.trace := by
  obtain ⟨tail, h1, h2⟩ := serve_request_trace env self
  rw [h1, operator_calls_append, h2, List.append_nil]

/-! ## A pass begins with the Poll -/

theorem trace_extends_trans {σ : Type} {a b c : bill_validator σ}
    (h1 : ∃ tail, b.trace = a.trace ++ tail) (h2 : ∃ tail, c.trace = b.trace ++ tail) :
    ∃ tail, c.trace = a.trace ++ tail := by
  obtain ⟨t1, h1⟩ := h1
  obtain ⟨t2, h2⟩ := h2
  exact ⟨t1 ++ t2, by rw [h2, h1, List.append_assoc]⟩

theorem escrow_pos_case_trace {σ : Type} (env : environment σ) (self : bill_validator σ) :
    ∃ tail, (escrow_pos_case env self).2.trace = self.trace ++ tail := by
  unfold escrow_pos_case
  split
  · exact ⟨[], by simp⟩
  · rename_i cash hcash
    simp only
    have hfirst : ∃ tail,
        (if (env.request_cash_action cash self.world).1.timed_out = true then
            return_bill env (notify (.request_cash_action cash)
              { self with world := (env.request_cash_action cash self.world).2 })
          else (.ok (), notify (.request_cash_action cash)
              { self with world := (env.request_cash_action cash self.world).2 })).2.trace
          = self.trace ++ tail := by
      split
      · exact ⟨_, by simp only [return_bill, call_send_command, notify, List.append_assoc]; rfl⟩
      · exact ⟨_, rfl⟩
    split
    · rename_i e self2 heq
      rw [heq] at hfirst
      exact hfirst
    · rename_i self2 heq
      rw [heq] at hfirst
      refine trace_extends_trans hfirst ?_
      split
      · exact ⟨_, rfl⟩
      · exact ⟨_, rfl⟩
      · exact ⟨_, rfl⟩

theorem current_state_switch_trace {σ : Type} (env : environment σ)
    (self : bill_validator σ) :
    ∃ tail, (current_state_switch env self).2.trace = self.trace ++ tail := by
  unfold current_state_switch
  split
  · exact ⟨_, rfl⟩
  · split
    · exact ⟨_, rfl⟩
    · split
      · exact escrow_pos_case_trace env self
      · split
        · split
          · exact ⟨[], by simp⟩
          · exact ⟨_, rfl⟩
        · split
          · split
            · exact ⟨[], by simp⟩
            · exact ⟨_, rfl⟩
          · exact ⟨[], by simp⟩

theorem operate_pass_begins_with_poll {σ : Type} (env : environment σ)
    (self : bill_validator σ) :
    ∃ tail, (operate_pass env self).2.trace
      = self.trace ++ event.device ⟨device_command_code.poll, []⟩ :: tail := by
  have hstart : ∀ tail (s : bill_validator σ),
      s.trace = (self.trace ++ [event.device ⟨device_command_code.poll, []⟩]) ++ tail →
      s.trace = self.trace ++ event.device ⟨device_command_code.poll, []⟩ :: tail := by
    intro tail s h
    rw [h, List.append_assoc]; rfl
  have hnext : ∀ (a b : bill_validator σ),
      a.trace = self.trace ++ [event.device ⟨device_command_code.poll, []⟩] →
      (∃ tail, b.trace = a.trace ++ tail) →
      ∃ tail, b.trace = self.trace ++ event.device ⟨device_command_code.poll, []⟩ :: tail := by
    intro a b ha hb
    obtain ⟨tail, hb⟩ := hb
    exact ⟨tail, hstart tail b (by rw [hb, ha])⟩
  unfold operate_pass poll
  cases hr : (env.get_command_result ⟨device_command_code.poll, []⟩ self.world).1 with
  | error e =>
    simp only [call_get_command_result, hr]
    exact ⟨[], rfl⟩
  | ok response =>
    simp only [call_get_command_result, hr]
    cases hd : decode_poll response with
    | error e => exact ⟨[], rfl⟩
    | ok state =>
      simp only
      split
      · split
        · exact ⟨_, hstart _ _ (by simp only [notify]; rfl)⟩
        · split
          · rename_i e self3 heq
            have h1 := congrArg (fun r => r.2.trace) heq
            obtain ⟨tail, h2⟩ := current_state_switch_trace env
              { self with
                world := (env.get_command_result ⟨device_command_code.poll, []⟩ self.world).2
                trace := self.trace ++ [event.device ⟨device_command_code.poll, []⟩]
                previous_device_state := self.current_device_state
                current_device_state := state }
            exact ⟨tail, hstart tail _ (by rw [← h2]; exact h1.symm)⟩
          · rename_i self3 heq
            have h1 := congrArg (fun r => r.2.trace) heq
            obtain ⟨tail, h2⟩ := current_state_switch_trace env
              { self with
                world := (env.get_command_result ⟨device_command_code.poll, []⟩ self.world).2
                trace := self.trace ++ [event.device ⟨device_command_code.poll, []⟩]
                previous_device_state := self.current_device_state
                current_device_state := state }
            have h3 : ∃ tail, self3.trace = (bill_validator.mk
                (env.get_command_result ⟨device_command_code.poll, []⟩ self.world).2
                (self.trace ++ [event.device ⟨device_command_code.poll, []⟩])
                self.cmd_queue self.connected_device_info self.bill_types_by_numbers
                self.current_device_state state self.initialization_required).trace ++ tail :=
              ⟨tail, by rw [← h2]; exact h1.symm⟩
            exact hnext _ _ rfl (trace_extends_trans h3
              ⟨(serve_request_trace env self3).choose,
                (serve_request_trace env self3).choose_spec.1⟩)
      · exact hnext _ _ rfl
          ⟨(serve_request_trace env _).choose, (serve_request_trace env _).choose_spec.1⟩

/-! ## C4: the cassette scenario -/

theorem initialization_ok {σ : Type} (env : environment σ) (self : bill_validator σ)
    (w1 w2 w3 : σ) (identification bill_table : List Nat) (info : device_info)
    (table : byte_map cash_type)
    (hreset : env.send_command ⟨device_command_code.reset, []⟩ self.world = (.ok (), w1))
    (hident : env.get_command_result ⟨device_command_code.identification, []⟩ w1
      = (.ok identification, w2))
    (hinfo : decode_device_info identification = .ok info)
    (htable : env.get_command_result ⟨device_command_code.get_bill_table, []⟩ w2
      = (.ok bill_table, w3))
    (hdecode : decode_bill_table bill_table = .ok table) :
    initialization env self =
      (.ok (),
        { self with
          world := w3
          trace := self.trace ++
            [event.device ⟨device_command_code.reset, []⟩,
             event.device ⟨device_command_code.identification, []⟩,
             event.device ⟨device_command_code.get_bill_table, []⟩]
          connected_device_info := info
          bill_types_by_numbers := table
          initialization_required := false }) := by
  simp only [initialization, reset, request_device_info, request_bill_table,
    call_send_command, call_get_command_result, hreset, hident, hinfo, htable, hdecode,
    List.append_assoc, List.singleton_append, List.cons_append, List.nil_append]

theorem operate_loop_reinitialize {σ : Type} (env : environment σ) (working : Nat)
    (self self1 : bill_validator σ)
    (hrequired : self.initialization_required = true)
    (hinit : initialization env self = (.ok (), self1)) :
    operate_loop env (working + 2) .inner self = operate_loop env working .inner self1 := by
  simp only [operate_loop, hrequired, hinit, if_true]

theorem handler_catch_frame {σ : Type} (result : Nat) (e : error) (self : bill_validator σ) :
    ∃ trace, handler_catch result e self = { self with trace := trace } := by
  unfold handler_catch
  split
  · exact ⟨self.trace, rfl⟩
  · exact ⟨_, rfl⟩

theorem after_get_frame {σ : Type} (env : environment σ) (command : device_command)
    (self self1 : bill_validator σ) (r : Except error (List Nat))
    (heq : call_get_command_result env command self = (r, self1)) :
    self1 = { self with
      world := (env.get_command_result command self.world).2
      trace := self.trace ++ [event.device command] } :=
  (congrArg Prod.snd heq).symm

theorem after_send_frame {σ : Type} (env : environment σ) (command : device_command)
    (self self1 : bill_validator σ) (r : Except error Unit)
    (heq : call_send_command env command self = (r, self1)) :
    self1 = { self with
      world := (env.send_command command self.world).2
      trace := self.trace ++ [event.device command] } :=
  (congrArg Prod.snd heq).symm

theorem serve_request_frame {σ : Type} (env : environment σ) (self : bill_validator σ) :
    ∃ world trace cmd_queue,
      (serve_request env self).2
        = { self with world := world, trace := trace, cmd_queue := cmd_queue } := by
  unfold serve_request
  split
  · exact ⟨self.world, self.trace, self.cmd_queue, rfl⟩
  · rename_i current_command rest hq
    cases hcode : current_command.code <;> simp only
    · exact ⟨_, _, _, rfl⟩
    · unfold get_bill_types_security_levels_handler
      split
      · rename_i e self1 heq
        obtain ⟨t, ht⟩ := handler_catch_frame current_command.result e self1
        rw [ht, after_get_frame env _ _ self1 _ heq]
        exact ⟨_, _, _, rfl⟩
      · rename_i response self1 heq
        split
        · obtain ⟨t, ht⟩ := handler_catch_frame current_command.result
            .invalid_data_received self1
          rw [ht, after_get_frame env _ _ self1 _ heq]
          exact ⟨_, _, _, rfl⟩
        · split
          · rename_i e hdec
            obtain ⟨t, ht⟩ := handler_catch_frame current_command.result e self1
            rw [ht, after_get_frame env _ _ self1 _ heq]
            exact ⟨_, _, _, rfl⟩
          · rw [after_get_frame env _ _ self1 _ heq]
            exact ⟨_, _, _, rfl⟩
    · exact ⟨_, _, _, rfl⟩
    · unfold get_enabled_bill_types_handler
      split
      · rename_i e self1 heq
        obtain ⟨t, ht⟩ := handler_catch_frame current_command.result e self1
        rw [ht, after_get_frame env _ _ self1 _ heq]
        exact ⟨_, _, _, rfl⟩
      · rename_i response self1 heq
        split
        · obtain ⟨t, ht⟩ := handler_catch_frame current_command.result
            .invalid_data_received self1
          rw [ht, after_get_frame env _ _ self1 _ heq]
          exact ⟨_, _, _, rfl⟩
        · rw [after_get_frame env _ _ self1 _ heq]
          exact ⟨_, _, _, rfl⟩
    · unfold set_bill_types_security_levels_handler
      split
      · rename_i e self1 heq
        obtain ⟨t, ht⟩ := handler_catch_frame current_command.result e self1
        rw [ht, after_send_frame env _ _ self1 _ heq]
        exact ⟨_, _, _, rfl⟩
      · rename_i self1 heq
        rw [after_send_frame env _ _ self1 _ heq]
        exact ⟨_, _, _, rfl⟩
    · unfold set_enabled_bill_types_handler
      split
      · rename_i e self1 heq
        obtain ⟨t, ht⟩ := handler_catch_frame current_command.result e self1
        rw [ht, after_send_frame env _ _ self1 _ heq]
        exact ⟨_, _, _, rfl⟩
      · rename_i self1 heq
        rw [after_send_frame env _ _ self1 _ heq]
        exact ⟨_, _, _, rfl⟩

theorem serve_request_fields {σ : Type} (env : environment σ) (self served : bill_validator σ)
    (r : Except error Unit) (h : serve_request env self = (r, served)) :
    served.initialization_required = self.initialization_required
    ∧ served.current_device_state = self.current_device_state
    ∧ served.previous_device_state = self.previous_device_state
    ∧ served.bill_types_by_numbers = self.bill_types_by_numbers
    ∧ served.connected_device_info = self.connected_device_info
    ∧ operator_calls served.trace = operator_calls self.trace := by
  obtain ⟨w, t, q, hf⟩ := serve_request_frame env self
  have hc := serve_request_operator_calls env self
  rw [h] at hf hc
  simp only at hf hc
  subst hf
  exact ⟨rfl, rfl, rfl, rfl, rfl, hc⟩

/-- C4: the state observed last is not DropCassetteOutOfPos. Three
successive polls report Idling, DropCassetteOutOfPos and Idling; the
request part of the first two passes, if the queue holds a request,
succeeds (it leaves the controller `served1`, then `served2`); the device
then answers Reset, Identification and Get Bill Table with responses that
decode. Then the cycle goes on in the inner cycle with the new identity and
bill table, after these steps: `drop_cassette_removed()` in the second
pass, and from the third poll on exactly Poll,
`drop_cassette_installed()`, Reset, Identification, Get Bill Table. The
operator calls of the whole run are `drop_cassette_removed()` and
`drop_cassette_installed()`, once each, in this order. With an empty queue
the events are exactly Poll, Poll, `drop_cassette_removed()`, Poll,
`drop_cassette_installed()`, Reset, Identification, Get Bill Table. Every
pass of the inner cycle begins with the Poll command, so the next command
after the re-initialization is a Poll. -/
theorem cassette_scenario {σ : Type} (env : environment σ) (self : bill_validator σ)
    (w1 w2 w3 w4 w5 w6 : σ) (served1 served2 : bill_validator σ)
    (identification bill_table : List Nat) (info : device_info)
    (table : byte_map cash_type)
    (hinit : self.initialization_required = false)
    (hprev : self.current_device_state.code ≠ device_state_code.drop_cassette_out_of_pos)
    (hpoll1 : env.get_command_result ⟨device_command_code.poll, []⟩ self.world
      = (.ok [device_state_code.idling], w1))
    (hserve1 : serve_request env (self.observed w1 ⟨device_state_code.idling, 0⟩)
      = (.ok (), served1))
    (hpoll2 : env.get_command_result ⟨device_command_code.poll, []⟩ served1.world
      = (.ok [device_state_code.drop_cassette_out_of_pos], w2))
    (hserve2 : serve_request env
        (notify .drop_cassette_removed
          (served1.observed w2 ⟨device_state_code.drop_cassette_out_of_pos, 0⟩))
      = (.ok (), served2))
    (hpoll3 : env.get_command_result ⟨device_command_code.poll, []⟩ served2.world
      = (.ok [device_state_code.idling], w3))
    (hreset : env.send_command ⟨device_command_code.reset, []⟩ w3 = (.ok (), w4))
    (hident : env.get_command_result ⟨device_command_code.identification, []⟩ w4
      = (.ok identification, w5))
    (hinfo : decode_device_info identification = .ok info)
    (htable : env.get_command_result ⟨device_command_code.get_bill_table, []⟩ w5
      = (.ok bill_table, w6))
    (hdecode : decode_bill_table bill_table = .ok table)
    (working : Nat) :
    operate_loop env (working + 5) .inner self =
      operate_loop env working .inner
        { served2 with
          world := w6
          trace := served2.trace ++
            [event.device ⟨device_command_code.poll, []⟩,
             event.operator_call .drop_cassette_installed,
             event.device ⟨device_command_code.reset, []⟩,
             event.device ⟨device_command_code.identification, []⟩,
             event.device ⟨device_command_code.get_bill_table, []⟩]
          connected_device_info := info
          bill_types_by_numbers := table
          previous_device_state := ⟨device_state_code.drop_cassette_out_of_pos, 0⟩
          current_device_state := ⟨device_state_code.idling, 0⟩
          initialization_required := false }
    ∧ operator_calls (served2.trace ++
          [event.device ⟨device_command_code.poll, []⟩,
           event.operator_call .drop_cassette_installed,
           event.device ⟨device_command_code.reset, []⟩,
           event.device ⟨device_command_code.identification, []⟩,
           event.device ⟨device_command_code.get_bill_table, []⟩])
        = operator_calls self.trace ++ [.drop_cassette_removed, .drop_cassette_installed]
    ∧ (self.cmd_queue = [] →
        served2.trace = self.trace ++
          [event.device ⟨device_command_code.poll, []⟩,
           event.device ⟨device_command_code.poll, []⟩,
           event.operator_call .drop_cassette_removed])
    ∧ ∀ next : bill_validator σ, ∃ tail,
        (operate_pass env next).2.trace
          = next.trace ++ event.device ⟨device_command_code.poll, []⟩ :: tail := by
  have hprev2 : ¬ self.current_device_state.code = 66 := hprev
  obtain ⟨hi1, hc1, -, -, -, ho1⟩ := serve_request_fields env _ served1 _ hserve1
  obtain ⟨hi2, hc2, hp2, -, -, ho2⟩ := serve_request_fields env _ served2 _ hserve2
  simp only [bill_validator.observed, notify] at hi1 hc1 ho1 hi2 hc2 hp2 ho2
  have hpass1 : operate_pass env self = (.ok (), served1) := by
    rw [operate_pass_of_poll env _ [device_state_code.idling] w1
      ⟨device_state_code.idling, 0⟩ hpoll1 rfl, if_neg hprev]
    have hs : current_state_switch env (self.observed w1 ⟨device_state_code.idling, 0⟩)
        = (.ok (), self.observed w1 ⟨device_state_code.idling, 0⟩) := by
      simp [current_state_switch, bill_validator.observed,
        device_state_code.idling, device_state_code.drop_cassette_full,
        device_state_code.drop_cassette_out_of_pos, device_state_code.validator_jammed,
        device_state_code.drop_cassette_jammed, device_state_code.failure,
        device_state_code.escrow_pos, device_state_code.bill_stacked,
        device_state_code.bill_returned]
    rw [hs]
    simp only [hserve1, ite_self]
  have hpass2 : operate_pass env served1 = (.ok (), served2) := by
    rw [operate_pass_of_poll env _ [device_state_code.drop_cassette_out_of_pos] w2
      ⟨device_state_code.drop_cassette_out_of_pos, 0⟩ hpoll2 rfl, hc1]
    have hs : current_state_switch env
        (served1.observed w2 ⟨device_state_code.drop_cassette_out_of_pos, 0⟩)
        = (.ok (), notify .drop_cassette_removed
            (served1.observed w2 ⟨device_state_code.drop_cassette_out_of_pos, 0⟩)) := by
      simp [current_state_switch, bill_validator.observed,
        device_state_code.drop_cassette_full, device_state_code.drop_cassette_out_of_pos]
    rw [if_pos (by decide), if_neg (by decide), hs]
    exact hserve2
  have hpass3 : operate_pass env served2 =
      (.ok (), { notify .drop_cassette_installed
                  (served2.observed w3 ⟨device_state_code.idling, 0⟩) with
                 initialization_required := true }) := by
    rw [operate_pass_of_poll env _ [device_state_code.idling] w3
      ⟨device_state_code.idling, 0⟩ hpoll3 rfl, hc2]
    simp [device_state_code.idling, device_state_code.drop_cassette_out_of_pos]
  refine ⟨?_, ?_, ?_, operate_pass_begins_with_poll env⟩
  · rw [operate_loop_inner env (working + 4) _ _ hinit hpass1,
      operate_loop_inner env (working + 3) _ _ (hi1.trans hinit) hpass2,
      operate_loop_inner env (working + 2) _ _ (hi2.trans (hi1.trans hinit)) hpass3,
      operate_loop_reinitialize env working _ _ rfl
        (initialization_ok env _ w4 w5 w6 identification bill_table info table
          hreset hident hinfo htable hdecode)]
    simp [notify, bill_validator.observed, hc2]
  · rw [operator_calls_append, ho2, operator_calls_append, operator_calls_append, ho1,
      operator_calls_append]
    simp [operator_calls]
  · intro hqueue
    have h1 : served1 = self.observed w1 ⟨device_state_code.idling, 0⟩ := by
      have := serve_request_empty env (self.observed w1 ⟨device_state_code.idling, 0⟩) hqueue
      rw [hserve1] at this
      injection this with _ h
    have h2 : served2 = notify .drop_cassette_removed
        (served1.observed w2 ⟨device_state_code.drop_cassette_out_of_pos, 0⟩) := by
      have := serve_request_empty env
        (notify .drop_cassette_removed
          (served1.observed w2 ⟨device_state_code.drop_cassette_out_of_pos, 0⟩))
        (by rw [h1]; exact hqueue)
      rw [hserve2] at this
      injection this with _ h
    rw [h2, h1]
    simp [notify, bill_validator.observed]

set_option maxRecDepth 100000 in
/-- C4, at a concrete input: a device that plays `cassette_exchanges`, with
one request (`get_device_info`, promise 7) in the queue, which the first
pass serves; the responses decode to the identity `A..A` and to the bill
table `0 ↦ (RUB, 500)`. -/
theorem cassette_scenario_witness :
    operate_loop scripted (0 + 5) .inner cassette_start =
      operate_loop scripted 0 .inner
        { cassette_served2 with
          world := script.mk [] []
          trace := cassette_served2.trace ++
            [event.device ⟨device_command_code.poll, []⟩,
             event.operator_call .drop_cassette_installed,
             event.device ⟨device_command_code.reset, []⟩,
             event.device ⟨device_command_code.identification, []⟩,
             event.device ⟨device_command_code.get_bill_table, []⟩]
          connected_device_info :=
            ⟨List.replicate 15 65, List.replicate 12 65, 0x41414141414141⟩
          bill_types_by_numbers := table_rub_500
          previous_device_state := ⟨device_state_code.drop_cassette_out_of_pos, 0⟩
          current_device_state := ⟨device_state_code.idling, 0⟩
          initialization_required := false } :=
  (cassette_scenario scripted cassette_start
    ⟨cassette_exchanges.drop 1, []⟩ ⟨cassette_exchanges.drop 2, []⟩
    ⟨cassette_exchanges.drop 3, []⟩ ⟨cassette_exchanges.drop 4, []⟩
    ⟨cassette_exchanges.drop 5, []⟩ ⟨[], []⟩
    cassette_served1 cassette_served2
    sample_identification sample_bill_table
    ⟨List.replicate 15 65, List.replicate 12 65, 0x41414141414141⟩ table_rub_500
    rfl (by decide) rfl rfl rfl rfl rfl rfl rfl (by decide) rfl (by decide) 0).1

/-! ## C1, C2: what the pass does on a jam and on an escrow timeout -/

set_option maxRecDepth 100000 in
/-- C1 (the code at the failing input): with the bill table `0 ↦ (RUB, 500)`
and the last observed state Idling, a poll that reports ValidatorJammed
(0x43) makes the pass call `request_cash_action((RUB, 500))` and, on the
answer Accept, send Stack Bill; a poll that reports Failure (0x47) with the
subcode 0x50 ends `operate` with `std::out_of_range`. The first fact is
also evaluated on the serial line, byte for byte (the poll reply
`02 03 06 43 5D F2`, then the ACK of Stack Bill). -/
theorem jammed_falls_through_to_escrow :
    (operate_pass scripted
        (bill_validator.polling (script.mk [.ok [0x43], .ok []] [⟨false, .accept_cash⟩])
          table_rub_500 [] ⟨device_state_code.idling, 0⟩)).2.trace
      = [event.device ⟨device_command_code.poll, []⟩,
         event.operator_call (.request_cash_action ⟨[82, 85, 66], 500⟩),
         event.device ⟨device_command_code.stack_bill, []⟩]
    ∧ (operate_loop scripted 5 .inner
        (bill_validator.polling (script.mk [.ok [0x47, 0x50]] [])
          table_rub_500 [] ⟨device_state_code.idling, 0⟩)).1
      = .error .out_of_range
    ∧ (operate_pass serial
        (bill_validator.polling
          (serial_world.mk
            ⟨[0x02, 0x03, 0x06, 0x43, 0x5D, 0xF2] ++ [0x02, 0x03, 0x06, 0x00, 0xC2, 0x82], []⟩
            [⟨false, .accept_cash⟩])
          table_rub_500 [] ⟨device_state_code.idling, 0⟩)).2.trace
      = [event.device ⟨device_command_code.poll, []⟩,
         event.operator_call (.request_cash_action ⟨[82, 85, 66], 500⟩),
         event.device ⟨device_command_code.stack_bill, []⟩] := by
  decide

/-- C2 (the code at the failing input): with the bill table `0 ↦ (RUB, 500)`
and the last observed state Idling, a poll reports EscrowPos(0) and the
operator's decision is not available within the 10 s bound. The pass sends
Return Bill and then, once the decision is there, a second command: Stack
Bill for Accept, Return Bill again for Return, Hold Bill for Hold. -/
theorem escrow_timeout_sends_two_commands :
    device_commands (operate_pass scripted
        (bill_validator.polling
          (script.mk [.ok [0x80, 0], .ok [], .ok []] [⟨true, .accept_cash⟩])
          table_rub_500 [] ⟨device_state_code.idling, 0⟩)).2.trace
      = [⟨device_command_code.poll, []⟩, ⟨device_command_code.return_bill, []⟩,
         ⟨device_command_code.stack_bill, []⟩]
    ∧ device_commands (operate_pass scripted
        (bill_validator.polling
          (script.mk [.ok [0x80, 0], .ok [], .ok []] [⟨true, .return_cash⟩])
          table_rub_500 [] ⟨device_state_code.idling, 0⟩)).2.trace
      = [⟨device_command_code.poll, []⟩, ⟨device_command_code.return_bill, []⟩,
         ⟨device_command_code.return_bill, []⟩]
    ∧ device_commands (operate_pass scripted
        (bill_validator.polling
          (script.mk [.ok [0x80, 0], .ok [], .ok []] [⟨true, .hold_cash⟩])
          table_rub_500 [] ⟨device_state_code.idling, 0⟩)).2.trace
      = [⟨device_command_code.poll, []⟩, ⟨device_command_code.return_bill, []⟩,
         ⟨device_command_code.hold_bill, []⟩] := by
  decide

/-! ## C5: the callbacks of a transition -/

set_option maxRecDepth 100000 in
/-- C6 (as stated, refuted): the thread starts with one request in the
queue; Reset, Identification and Get Bill Table succeed, then the exchange
of the first Poll fails with "crc error" while the device would answer all
further exchanges. `operate` ends with that error although
`thread_is_working` stays set: the last command sent is the Poll, no
re-initialization follows, and the request is still in the queue. -/
theorem poll_failure_ends_operate :
    (operate scripted 100
        (bill_validator.start
          (script.mk
            [.ok [0x00], .ok sample_identification, .ok sample_bill_table, .error .crc_error,
             .ok [0x00], .ok sample_identification, .ok sample_bill_table, .ok [0x14]] [])
          [⟨.get_device_info, [], 1⟩])).1 = .error .crc_error
    ∧ (operate scripted 100
        (bill_validator.start
          (script.mk
            [.ok [0x00], .ok sample_identification, .ok sample_bill_table, .error .crc_error,
             .ok [0x00], .ok sample_identification, .ok sample_bill_table, .ok [0x14]] [])
          [⟨.get_device_info, [], 1⟩])).2.trace
      = [event.device ⟨device_command_code.reset, []⟩,
         event.device ⟨device_command_code.identification, []⟩,
         event.device ⟨device_command_code.get_bill_table, []⟩,
         event.device ⟨device_command_code.poll, []⟩]
    ∧ (operate scripted 100
        (bill_validator.start
          (script.mk
            [.ok [0x00], .ok sample_identification, .ok sample_bill_table, .error .crc_error,
             .ok [0x00], .ok sample_identification, .ok sample_bill_table, .ok [0x14]] [])
          [⟨.get_device_info, [], 1⟩])).2.cmd_queue
      = [⟨.get_device_info, [], 1⟩] := by
  decide

theorem serve_request_send_failure {σ : Type} (env : environment σ) (self : bill_validator σ)
    (request : handler_command) (rest : List handler_command) (code : device_command_code)
    (e : error) (world : σ)
    (hqueue : self.cmd_queue = request :: rest)
    (hcode : request.code = .set_enabled_bill_types
        ∧ code = device_command_code.enable_bill_types
      ∨ request.code = .set_bill_types_security_levels
        ∧ code = device_command_code.set_security)
    (hfail : env.send_command ⟨code, request.data⟩ self.world = (.error e, world))
    (he : e ≠ .assertion_failed ∧ e ≠ .division_by_zero) :
    serve_request env self =
      (.error e,
        { self with
          world := world
          cmd_queue := rest
          trace := self.trace ++
            [event.device ⟨code, request.data⟩,
             event.promise request.result (.exception .command_processing_error)] }) := by
  rcases hcode with ⟨h1, h2⟩ | ⟨h1, h2⟩
  · subst h2
    simp [serve_request, hqueue, h1, set_enabled_bill_types_handler, call_send_command,
      hfail, handler_catch, complete, he.1, he.2]
  · subst h2
    simp [serve_request, hqueue, h1, set_bill_types_security_levels_handler,
      call_send_command, hfail, handler_catch, complete, he.1, he.2]

theorem serve_request_get_failure {σ : Type} (env : environment σ) (self : bill_validator σ)
    (request : handler_command) (rest : List handler_command)
    (e : error) (world : σ)
    (hqueue : self.cmd_queue = request :: rest)
    (hcode : request.code = .get_enabled_bill_types
      ∨ request.code = .get_bill_types_security_levels)
    (hfail : env.get_command_result ⟨device_command_code.get_status, request.data⟩ self.world
      = (.error e, world))
    (he : e ≠ .assertion_failed ∧ e ≠ .division_by_zero) :
    serve_request env self =
      (.error e,
        { self with
          world := world
          cmd_queue := rest
          trace := self.trace ++
            [event.device ⟨device_command_code.get_status, request.data⟩,
             event.promise request.result (.exception .command_processing_error)] }) := by
  rcases hcode with h1 | h1
  · simp [serve_request, hqueue, h1, get_enabled_bill_types_handler, call_get_command_result,
      hfail, handler_catch, complete, he.1, he.2]
  · simp [serve_request, hqueue, h1, get_bill_types_security_levels_handler,
      call_get_command_result, hfail, handler_catch, complete, he.1, he.2]

theorem operate_pass_request_part {σ : Type} (env : environment σ)
    (self served : bill_validator σ) (response : List Nat) (world : σ) (state : device_state)
    (hpoll : env.get_command_result ⟨device_command_code.poll, []⟩ self.world
      = (.ok response, world))
    (hstate : decode_poll response = .ok state)
    (hreach : self.current_device_state.code = state.code
        ∧ served = self.observed world state
      ∨ self.current_device_state.code ≠ state.code
        ∧ self.current_device_state.code ≠ device_state_code.drop_cassette_out_of_pos
        ∧ current_state_switch env (self.observed world state) = (.ok (), served)) :
    operate_pass env self = serve_request env served := by
  rw [operate_pass_of_poll env self response world state hpoll hstate]
  rcases hreach with ⟨heq, hs⟩ | ⟨hne, hprev, hs⟩
  · rw [if_neg (not_not.mpr heq), hs]
  · rw [if_pos hne, if_neg hprev, hs]

/-- C6 (amended): an error raised inside the inner poll cycle ends
`operate`, whatever the number of times `thread_is_working` would still be
found set: no re-initialization follows, no further command goes to the
device, and the requests waiting in the queue stay there. This holds when
the exchange of Poll fails (the last event is the Poll); when a transition
into EscrowPos, BillStacked or BillReturned carries an info index absent
from the bill table (`std::out_of_range`, the last event is the Poll); and
when the pass reaches its request part (no transition, or a transition
handled without error, leaving the controller `served`) and the exchange
of the handler of the front request fails with an exception: the promise
of that request receives "command processing error", and `operate` ends
with the exception of the exchange. -/
theorem inner_cycle_error_ends_operate {σ : Type} (env : environment σ)
    (self : bill_validator σ) (working : Nat)
    (hinit : self.initialization_required = false) :
    (∀ e world,
      env.get_command_result ⟨device_command_code.poll, []⟩ self.world = (.error e, world) →
      operate_loop env (working + 1) .inner self =
        (.error e,
          { self with
            world := world
            trace := self.trace ++ [event.device ⟨device_command_code.poll, []⟩]
            previous_device_state := self.current_device_state }))
    ∧ (∀ response world state,
      env.get_command_result ⟨device_command_code.poll, []⟩ self.world
        = (.ok response, world) →
      decode_poll response = .ok state →
      self.current_device_state.code ≠ state.code →
      self.current_device_state.code ≠ device_state_code.drop_cassette_out_of_pos →
      (state.code = device_state_code.escrow_pos ∨ state.code = device_state_code.bill_stacked
        ∨ state.code = device_state_code.bill_returned) →
      map_at self.bill_types_by_numbers state.info = .error .out_of_range →
      operate_loop env (working + 1) .inner self
        = (.error .out_of_range, self.observed world state))
    ∧ (∀ response world state served request rest code e world2,
      env.get_command_result ⟨device_command_code.poll, []⟩ self.world
        = (.ok response, world) →
      decode_poll response = .ok state →
      (self.current_device_state.code = state.code
          ∧ served = self.observed world state
        ∨ self.current_device_state.code ≠ state.code
          ∧ self.current_device_state.code ≠ device_state_code.drop_cassette_out_of_pos
          ∧ current_state_switch env (self.observed world state) = (.ok (), served)) →
      served.cmd_queue = request :: rest →
      (request.code = .set_enabled_bill_types
          ∧ code = device_command_code.enable_bill_types
        ∨ request.code = .set_bill_types_security_levels
          ∧ code = device_command_code.set_security) →
      env.send_command ⟨code, request.data⟩ served.world = (.error e, world2) →
      e ≠ .assertion_failed ∧ e ≠ .division_by_zero →
      operate_loop env (working + 1) .inner self =
        (.error e,
          { served with
            world := world2
            cmd_queue := rest
            trace := served.trace ++
              [event.device ⟨code, request.data⟩,
               event.promise request.result (.exception .command_processing_error)] }))
    ∧ (∀ response world state served request rest e world2,
      env.get_command_result ⟨device_command_code.poll, []⟩ self.world
        = (.ok response, world) →
      decode_poll response = .ok state →
      (self.current_device_state.code = state.code
          ∧ served = self.observed world state
        ∨ self.current_device_state.code ≠ state.code
          ∧ self.current_device_state.code ≠ device_state_code.drop_cassette_out_of_pos
          ∧ current_state_switch env (self.observed world state) = (.ok (), served)) →
      served.cmd_queue = request :: rest →
      (request.code = .get_enabled_bill_types
        ∨ request.code = .get_bill_types_security_levels) →
      env.get_command_result ⟨device_command_code.get_status, request.data⟩ served.world
        = (.error e, world2) →
      e ≠ .assertion_failed ∧ e ≠ .division_by_zero →
      operate_loop env (working + 1) .inner self =
        (.error e,
          { served with
            world := world2
            cmd_queue := rest
            trace := served.trace ++
              [event.device ⟨device_command_code.get_status, request.data⟩,
               event.promise request.result (.exception .command_processing_error)] })) := by
  refine ⟨?_, ?_, ?_, ?_⟩
  · intro e world hpoll
    exact operate_loop_inner_error env working self _ e hinit
      (operate_pass_of_poll_error env self world e hpoll)
  · intro response world state hpoll hstate hne hprev hcode htable
    refine operate_loop_inner_error env working self _ _ hinit ?_
    rw [operate_pass_of_poll env self response world state hpoll hstate, if_pos hne,
      if_neg hprev]
    have hs : current_state_switch env (self.observed world state)
        = (.error .out_of_range, self.observed world state) := by
      rcases hcode with hc | hc | hc <;>
        simp [current_state_switch, escrow_pos_case, bill_validator.observed, hc, htable,
          device_state_code.drop_cassette_out_of_pos, device_state_code.drop_cassette_full,
          device_state_code.validator_jammed, device_state_code.drop_cassette_jammed,
          device_state_code.failure, device_state_code.escrow_pos,
          device_state_code.bill_stacked, device_state_code.bill_returned]
    rw [hs]
  · intro response world state served request rest code e world2 hpoll hstate hreach hqueue
      hcode hfail he
    refine operate_loop_inner_error env working self _ _ hinit ?_
    rw [operate_pass_request_part env self served response world state hpoll hstate hreach,
      serve_request_send_failure env served request rest code e world2 hqueue hcode hfail he]
  · intro response world state served request rest e world2 hpoll hstate hreach hqueue hcode
      hfail he
    refine operate_loop_inner_error env working self _ _ hinit ?_
    rw [operate_pass_request_part env self served response world state hpoll hstate hreach,
      serve_request_get_failure env served request rest e world2 hqueue hcode hfail he]

/-- C6, at a concrete input: a controller in the inner cycle, the exchange
of the Poll fails with "crc error". -/
theorem inner_cycle_error_ends_operate_witness :
    operate_loop scripted (7 + 1) .inner
        (bill_validator.polling (script.mk [.error .crc_error, .ok [0x14]] [])
          table_rub_500 [⟨.get_device_info, [], 1⟩] ⟨device_state_code.idling, 0⟩) =
      (.error .crc_error,
        { bill_validator.polling (script.mk [.error .crc_error, .ok [0x14]] [])
            table_rub_500 [⟨.get_device_info, [], 1⟩] ⟨device_state_code.idling, 0⟩ with
          world := script.mk [.ok [0x14]] []
          trace := [] ++ [event.device ⟨device_command_code.poll, []⟩]
          previous_device_state := ⟨device_state_code.idling, 0⟩ }) :=
  (inner_cycle_error_ends_operate scripted
    (bill_validator.polling (script.mk [.error .crc_error, .ok [0x14]] [])
      table_rub_500 [⟨.get_device_info, [], 1⟩] ⟨device_state_code.idling, 0⟩) 7 rfl).1
    .crc_error (script.mk [.ok [0x14]] []) rfl

/-! ## C11, C12, C13: framing faults and frames addressed elsewhere -/

theorem low_byte_eq_mod (v : Nat) : (v &&& 0xFF) % 256 = v % 256 := by
  have := Nat.and_pow_two_sub_one_eq_mod v 8
  norm_num at this
  rw [this, Nat.mod_mod]

theorem high_byte_eq_div (v : Nat) (hv : v < 2 ^ 16) : (v >>> 8) % 256 = v / 256 := by
  rw [Nat.shiftRight_eq_div_pow]
  exact Nat.mod_eq_of_lt (by omega)

theorem nak_frame_layout (device_address : Nat) :
    nak_frame device_address =
      [0x02, device_address, 0x06, 0xFF,
       get_crc [0x02, device_address, 0x06, 0xFF] % 256,
       get_crc [0x02, device_address, 0x06, 0xFF] / 256] := by
  have hlt := get_crc_lt [0x02, device_address, 0x06, 0xFF]
  rewrite [nak_frame_eq_device_frame, device_frame_eq]
  show [0x02, device_address, 0x06, 0xFF,
      (get_crc [0x02, device_address, 0x06, 0xFF] &&& 0xFF) % 256,
      (get_crc [0x02, device_address, 0x06, 0xFF] >>> 8) % 256] = _
  rewrite [low_byte_eq_mod, high_byte_eq_div _ hlt]
  rfl

theorem receive_frame_sync_error (port port1 : serial_port) (header : List Nat)
    (h1 : port.read header_size = some (header, port1))
    (h2 : header.getD sync_offset 0 ≠ sync) :
    receive_frame port = (.error .synchronisation_error, port1) := by
  unfold receive_frame
  rewrite [h1]
  exact if_pos h2

theorem receive_frame_crc_error (port port1 port2 port3 : serial_port)
    (header payload crc : List Nat) (size : Nat)
    (h1 : port.read header_size = some (header, port1))
    (h2 : header.getD sync_offset 0 = sync)
    (h3 : (header.getD lng_offset 0 + 2 ^ 64 - header_size - sizeof_crc16) % 2 ^ 64 = size)
    (h4 : ¬ size > vector_max_size)
    (h5 : port1.read size = some (payload, port2))
    (h6 : port2.read sizeof_crc16 = some (crc, port3))
    (h7 : get_crc (header ++ payload) ≠ read_uint16 crc) :
    receive_frame port = (.error .crc_error, send_nak (header.getD adr_offset 0) port3) := by
  unfold receive_frame
  simp only [h1, h2, h3, h4, h5, h6, h7, ne_eq, not_true_eq_false, not_false_eq_true, if_false,
    if_true]

theorem receive_frame_corrupted (a : Nat) (payload crc rest : List Nat)
    (output : List (List Nat)) (hlen : payload.length ≤ 250) (hcrc : crc.length = 2)
    (hbad : read_uint16 crc ≠ get_crc ([sync, a, payload.length + 5] ++ payload)) :
    receive_frame ⟨[sync, a, payload.length + 5] ++ (payload ++ (crc ++ rest)), output⟩ =
      (.error .crc_error, ⟨rest, output ++ [nak_frame a]⟩) := by
  have hsize : (payload.length + 5 + 2 ^ 64 - header_size - sizeof_crc16) % 2 ^ 64
      = payload.length := by
    simp only [header_size, sizeof_crc16]; omega
  have hmax : ¬ (payload.length > vector_max_size) := by
    simp only [vector_max_size]; omega
  exact receive_frame_crc_error _ _ _ _ _ _ _ payload.length
    (read_append [sync, a, payload.length + 5] _ output header_size rfl)
    rfl hsize hmax
    (read_append payload _ output payload.length rfl)
    (read_append crc rest output sizeof_crc16 hcrc)
    (fun h => hbad h.symm)

theorem receive_frame_out_of_sync (h0 h1 h2 : Nat) (rest : List Nat)
    (output : List (List Nat)) (hsync : h0 ≠ sync) :
    receive_frame ⟨[h0, h1, h2] ++ rest, output⟩ =
      (.error .synchronisation_error, ⟨rest, output⟩) :=
  receive_frame_sync_error _ _ _ (read_append [h0, h1, h2] rest output header_size rfl) hsync

theorem receive_loop_error (command_frame : List Nat) (try_count : Nat)
    (port port1 : serial_port) (e : error)
    (h : receive_frame port = (.error e, port1)) :
    receive_loop command_frame (try_count + 1) port = (.error e, port1) := by
  rewrite [receive_loop, h]
  rfl

theorem get_command_result_loop_error (command_frame : List Nat) (try_count : Nat)
    (port port1 : serial_port) (e : error)
    (h : receive_loop command_frame 5 (port.write command_frame) = (.error e, port1)) :
    get_command_result_loop command_frame (try_count + 1) port = (.error e, port1) := by
  rewrite [get_command_result_loop, h]
  rfl

theorem send_command_loop_error (command_frame : List Nat) (try_count : Nat)
    (port port1 : serial_port) (e : error)
    (h : receive_loop command_frame 5 (port.write command_frame) = (.error e, port1)) :
    send_command_loop command_frame (try_count + 1) port = (.error e, port1) := by
  rewrite [send_command_loop, h]
  rfl

theorem get_command_result_error (command : device_command) (port port1 : serial_port)
    (e : error)
    (h : get_command_result_loop (build_command_frame command) 3 port = (.error e, port1)) :
    get_command_result command port = (.error e, port1) := by
  rewrite [get_command_result, h]
  rfl

theorem send_command_error (command : device_command) (port port1 : serial_port)
    (e : error)
    (h : send_command_loop (build_command_frame command) 3 port = (.error e, port1)) :
    send_command command port = (.error e, port1) := by
  rewrite [send_command, h]
  rfl

theorem receive_loop_foreign (command_frame : List Nat)
    (haddr : command_frame.getD adr_offset 0 = bill_validator_addr)
    (foreign : List (Nat × List Nat))
    (hforeign : ∀ f ∈ foreign, f.1 ≠ bill_validator_addr ∧ f.2.length ≤ 250)
    (try_count : Nat) (tail : List Nat) (port : serial_port)
    (hinput : port.input = frames_line foreign ++ tail) :
    receive_loop command_frame try_count port =
      if try_count ≤ foreign.length then
        (.ok none, ⟨frames_line (foreign.drop try_count) ++ tail, port.output⟩)
      else receive_loop command_frame (try_count - foreign.length) ⟨tail, port.output⟩ := by
  induction foreign generalizing try_count port with
  | nil =>
    obtain ⟨input, output⟩ := port
    simp only [frames_line, List.nil_append] at hinput
    subst hinput
    cases try_count with
    | zero => simp [receive_loop, frames_line]
    | succ n => simp
  | cons f fs ih =>
    obtain ⟨input, output⟩ := port
    simp only [frames_line, List.append_assoc] at hinput
    subst hinput
    cases try_count with
    | zero => simp [receive_loop, frames_line]
    | succ n =>
      have hf := hforeign f (List.mem_cons_self _ _)
      have hne : ¬ (f.1 = command_frame.getD adr_offset 0) := by
        rw [haddr]; exact hf.1
      rewrite [receive_loop, receive_frame_device_frame _ _ _ _ hf.2]
      simp only [adr_offset, List.getD_cons_zero, List.getD_cons_succ]
      simp only [adr_offset] at hne
      rewrite [if_neg hne,
        ih (fun g hg => hforeign g (List.mem_cons_of_mem _ hg)) n ⟨_, output⟩ rfl]
      simp only [List.length_cons, Nat.add_le_add_iff_right, List.drop_succ_cons,
        Nat.add_sub_add_right]


theorem receive_loop_after_foreign (command_frame : List Nat)
    (haddr : command_frame.getD adr_offset 0 = bill_validator_addr)
    (foreign : List (Nat × List Nat))
    (hforeign : ∀ f ∈ foreign, f.1 ≠ bill_validator_addr ∧ f.2.length ≤ 250)
    (hcount : foreign.length ≤ 4) (tail : List Nat) (port : serial_port)
    (hinput : port.input = frames_line foreign ++ tail) :
    receive_loop command_frame 5 port =
      receive_loop command_frame (4 - foreign.length + 1) ⟨tail, port.output⟩ := by
  rewrite [receive_loop_foreign command_frame haddr foreign hforeign 5 tail port hinput,
    if_neg (by omega)]
  congr 1
  omega

theorem exchange_loops_crc_error (command_frame : List Nat)
    (haddr : command_frame.getD adr_offset 0 = bill_validator_addr)
    (foreign : List (Nat × List Nat))
    (hforeign : ∀ f ∈ foreign, f.1 ≠ bill_validator_addr ∧ f.2.length ≤ 250)
    (hcount : foreign.length ≤ 4) (try_count a : Nat) (payload crc rest : List Nat)
    (port : serial_port) (hlen : payload.length ≤ 250) (hcrc : crc.length = 2)
    (hbad : read_uint16 crc ≠ get_crc ([sync, a, payload.length + 5] ++ payload))
    (hinput : port.input =
      frames_line foreign ++ ([sync, a, payload.length + 5] ++ (payload ++ (crc ++ rest)))) :
    get_command_result_loop command_frame (try_count + 1) port =
        (.error .crc_error, ⟨rest, port.output ++ [command_frame] ++ [nak_frame a]⟩)
      ∧ send_command_loop command_frame (try_count + 1) port =
        (.error .crc_error, ⟨rest, port.output ++ [command_frame] ++ [nak_frame a]⟩) := by
  have hloop : receive_loop command_frame 5 (port.write command_frame) =
      (.error .crc_error, ⟨rest, port.output ++ [command_frame] ++ [nak_frame a]⟩) := by
    rewrite [receive_loop_after_foreign command_frame haddr foreign hforeign hcount _
      (port.write command_frame) hinput]
    exact receive_loop_error _ _ _ _ _
      (receive_frame_corrupted a payload crc rest _ hlen hcrc hbad)
  exact ⟨get_command_result_loop_error _ _ _ _ _ hloop, send_command_loop_error _ _ _ _ _ hloop⟩

theorem exchange_loops_sync_error (command_frame : List Nat)
    (haddr : command_frame.getD adr_offset 0 = bill_validator_addr)
    (foreign : List (Nat × List Nat))
    (hforeign : ∀ f ∈ foreign, f.1 ≠ bill_validator_addr ∧ f.2.length ≤ 250)
    (hcount : foreign.length ≤ 4) (try_count h0 h1 h2 : Nat) (rest : List Nat)
    (port : serial_port) (hsync : h0 ≠ sync)
    (hinput : port.input = frames_line foreign ++ ([h0, h1, h2] ++ rest)) :
    get_command_result_loop command_frame (try_count + 1) port =
        (.error .synchronisation_error, ⟨rest, port.output ++ [command_frame]⟩)
      ∧ send_command_loop command_frame (try_count + 1) port =
        (.error .synchronisation_error, ⟨rest, port.output ++ [command_frame]⟩) := by
  have hloop : receive_loop command_frame 5 (port.write command_frame) =
      (.error .synchronisation_error, ⟨rest, port.output ++ [command_frame]⟩) := by
    rewrite [receive_loop_after_foreign command_frame haddr foreign hforeign hcount _
      (port.write command_frame) hinput]
    exact receive_loop_error _ _ _ _ _ (receive_frame_out_of_sync h0 h1 h2 rest _ hsync)
  exact ⟨get_command_result_loop_error _ _ _ _ _ hloop, send_command_loop_error _ _ _ _ _ hloop⟩

/-- C11: a frame with SYNC 0x02, any ADDRESS `a` and a LENGTH byte that
announces its `payload` (at most 250 bytes), whose two trailing bytes, read
little-endian, differ from the CRC-16 of header and payload, makes the
frame parser write exactly one frame, the NAK frame
`02 a 06 FF crc-low crc-high` (the CRC of its first four bytes), and end
with the CRC error; when such a frame reaches `get_command_result` or
`send_command`, directly or after up to four well-formed frames addressed
elsewhere, the exchange writes the command frame and that NAK frame,
nothing else (no ACK), and fails with the CRC error. -/
theorem crc_mismatch_sends_nak (command : device_command) (foreign : List (Nat × List Nat))
    (a : Nat) (payload crc rest : List Nat) (output : List (List Nat))
    (hforeign : ∀ f ∈ foreign, f.1 ≠ bill_validator_addr ∧ f.2.length ≤ 250)
    (hcount : foreign.length ≤ 4)
    (hlen : payload.length ≤ 250) (hcrc : crc.length = 2)
    (hbad : read_uint16 crc ≠ get_crc ([0x02, a, payload.length + 5] ++ payload)) :
    receive_frame ⟨[0x02, a, payload.length + 5] ++ (payload ++ (crc ++ rest)), output⟩ =
        (.error .crc_error, ⟨rest, output ++ [nak_frame a]⟩)
      ∧ nak_frame a =
        [0x02, a, 0x06, 0xFF,
         get_crc [0x02, a, 0x06, 0xFF] % 256, get_crc [0x02, a, 0x06, 0xFF] / 256]
      ∧ get_command_result command
          ⟨frames_line foreign ++ ([0x02, a, payload.length + 5] ++ (payload ++ (crc ++ rest))),
           output⟩ =
        (.error .crc_error, ⟨rest, output ++ [build_command_frame command] ++ [nak_frame a]⟩)
      ∧ send_command command
          ⟨frames_line foreign ++ ([0x02, a, payload.length + 5] ++ (payload ++ (crc ++ rest))),
           output⟩ =
        (.error .crc_error, ⟨rest, output ++ [build_command_frame command] ++ [nak_frame a]⟩) := by
  have hloops := exchange_loops_crc_error (build_command_frame command)
    (build_command_frame_address command) foreign hforeign hcount 2 a payload crc rest
    ⟨_, output⟩ hlen hcrc hbad rfl
  exact ⟨receive_frame_corrupted a payload crc rest output hlen hcrc hbad,
    nak_frame_layout a,
    get_command_result_error command _ _ _ hloops.1,
    send_command_error command _ _ _ hloops.2⟩

set_option maxRecDepth 100000 in
/-- C11, at a concrete input: after one frame addressed to 0x01, a frame
addressed to 0x07 with the payload `14` and the trailing bytes `00 00`. -/
theorem crc_mismatch_sends_nak_witness :
    (get_command_result ⟨0x33, []⟩
        ⟨frames_line [(1, [0x13])] ++ ([0x02, 7, [0x14].length + 5] ++ ([0x14] ++ ([0, 0] ++ [9]))),
         []⟩ =
        (.error .crc_error, ⟨[9], [] ++ [build_command_frame ⟨0x33, []⟩] ++ [nak_frame 7]⟩))
      ∧ nak_frame 7 = [0x02, 0x07, 0x06, 0xFF, 0xDB, 0xEE] :=
  ⟨(crc_mismatch_sends_nak ⟨0x33, []⟩ [(1, [0x13])] 7 [0x14] [0, 0] [9] []
      (by decide) (by decide) (by decide) (by decide) (by decide)).2.2.1,
    by decide⟩


set_option maxRecDepth 100000 in
/-- C12 (as stated, refuted): the device answers the Stack command with an
ACK frame whose last byte is corrupted (`02 03 06 00 C2 83`) and then with
a valid ACK frame; `send_command` does not read the second frame: it
writes the command frame and one NAK frame and fails with the CRC error. -/
theorem corrupted_reply_then_ack_fails :
    send_command ⟨0x35, []⟩
        ⟨[0x02, 0x03, 0x06, 0x00, 0xC2, 0x83] ++ [0x02, 0x03, 0x06, 0x00, 0xC2, 0x82], []⟩ =
      (.error .crc_error,
        ⟨[0x02, 0x03, 0x06, 0x00, 0xC2, 0x82],
         [[0x02, 0x03, 0x06, 0x35, 0xEC, 0xE4], [0x02, 0x03, 0x06, 0xFF, 0xBA, 0x8D]]⟩) := by
  decide

/-- C12 (amended): framing faults are not retried. In both exchanges,
however many attempts are left, a frame whose first byte is not 0x02 ends
the exchange at once with the synchronisation error, after the write of
the command frame only, and a frame with SYNC 0x02 whose trailing bytes
differ from the CRC-16 of header and payload ends it at once with the CRC
error, after the write of the command frame and of one NAK frame; this
also holds when up to four well-formed frames addressed elsewhere come
first. No later frame is read and the command frame is not written
again. -/
theorem framing_faults_end_exchange (command_frame : List Nat)
    (foreign : List (Nat × List Nat)) (try_count : Nat) (rest : List Nat)
    (output : List (List Nat))
    (haddr : command_frame.getD adr_offset 0 = bill_validator_addr)
    (hforeign : ∀ f ∈ foreign, f.1 ≠ bill_validator_addr ∧ f.2.length ≤ 250)
    (hcount : foreign.length ≤ 4) :
    (∀ h0 h1 h2 : Nat, h0 ≠ 0x02 →
      get_command_result_loop command_frame (try_count + 1)
          ⟨frames_line foreign ++ ([h0, h1, h2] ++ rest), output⟩ =
        (.error .synchronisation_error, ⟨rest, output ++ [command_frame]⟩)
      ∧ send_command_loop command_frame (try_count + 1)
          ⟨frames_line foreign ++ ([h0, h1, h2] ++ rest), output⟩ =
        (.error .synchronisation_error, ⟨rest, output ++ [command_frame]⟩))
    ∧ (∀ (a : Nat) (payload crc : List Nat), payload.length ≤ 250 → crc.length = 2 →
      read_uint16 crc ≠ get_crc ([0x02, a, payload.length + 5] ++ payload) →
      get_command_result_loop command_frame (try_count + 1)
          ⟨frames_line foreign ++ ([0x02, a, payload.length + 5] ++ (payload ++ (crc ++ rest))),
           output⟩ =
        (.error .crc_error, ⟨rest, output ++ [command_frame] ++ [nak_frame a]⟩)
      ∧ send_command_loop command_frame (try_count + 1)
          ⟨frames_line foreign ++ ([0x02, a, payload.length + 5] ++ (payload ++ (crc ++ rest))),
           output⟩ =
        (.error .crc_error, ⟨rest, output ++ [command_frame] ++ [nak_frame a]⟩)) :=
  ⟨fun h0 h1 h2 hsync =>
      exchange_loops_sync_error command_frame haddr foreign hforeign hcount try_count h0 h1 h2
        rest ⟨_, output⟩ hsync rfl,
    fun a payload crc hlen hcrc hbad =>
      exchange_loops_crc_error command_frame haddr foreign hforeign hcount try_count a payload
        crc rest ⟨_, output⟩ hlen hcrc hbad rfl⟩

set_option maxRecDepth 100000 in
/-- C12 (amended), at a concrete input: the Poll command frame, three
attempts left, no frame addressed elsewhere, and a first byte 0x01. -/
theorem framing_faults_end_exchange_witness :
    (get_command_result_loop (build_command_frame ⟨0x33, []⟩) (2 + 1)
        ⟨frames_line [] ++ ([0x01, 0x03, 0x06] ++ [0x00, 0xC2, 0x82]), []⟩ =
      (.error .synchronisation_error,
        ⟨[0x00, 0xC2, 0x82], [] ++ [build_command_frame ⟨0x33, []⟩]⟩))
    ∧ (build_command_frame ⟨0x33, []⟩).getD adr_offset 0 = bill_validator_addr :=
  ⟨((framing_faults_end_exchange (build_command_frame ⟨0x33, []⟩) [] 2 [0x00, 0xC2, 0x82] []
      (by decide) (by decide) (by decide)).1 0x01 0x03 0x06 (by decide)).1,
    by decide⟩

theorem get_command_result_loop_received (command_frame : List Nat) (try_count : Nat)
    (port port1 : serial_port) (header payload : List Nat)
    (h : receive_loop command_frame 5 (port.write command_frame) =
      (.ok (some (header, payload)), port1)) :
    get_command_result_loop command_frame (try_count + 1) port =
      if ¬ (payload.length > 0) then (.error .assertion_failed, port1)
      else if payload.length = 1 ∧ payload.getD 0 0 = ill_cmd then
        (.error .illegal_command, port1)
      else if payload.length = 1 ∧ payload.getD 0 0 = nak then
        get_command_result_loop command_frame try_count port1
      else (.ok (some payload), send_ack (header.getD adr_offset 0) port1) := by
  rewrite [get_command_result_loop, h]
  rfl

theorem get_command_result_after_foreign (command : device_command)
    (foreign : List (Nat × List Nat)) (data rest : List Nat) (port : serial_port)
    (hforeign : ∀ f ∈ foreign, f.1 ≠ bill_validator_addr ∧ f.2.length ≤ 250)
    (hcount : foreign.length ≤ 4)
    (hpos : 0 < data.length) (hlen : data.length ≤ 250)
    (hill : data ≠ [ill_cmd]) (hnak : data ≠ [nak])
    (hinput : port.input =
      frames_line foreign ++ (device_frame bill_validator_addr data ++ rest)) :
    get_command_result command port =
      (.ok data,
        ⟨rest, port.output ++ [build_command_frame command]
          ++ [ack_frame bill_validator_addr]⟩) := by
  have haddr := build_command_frame_address command
  have hloop : receive_loop (build_command_frame command) 5
      (port.write (build_command_frame command)) =
      (.ok (some ([sync, bill_validator_addr, data.length + 5], data)),
        ⟨rest, port.output ++ [build_command_frame command]⟩) := by
    rewrite [receive_loop_after_foreign _ haddr foreign hforeign hcount _
      (port.write (build_command_frame command)) hinput]
    exact receive_loop_accept _ _ data rest ⟨_, _⟩ haddr hlen rfl
  unfold get_command_result
  rewrite [get_command_result_loop_received _ 2 port _ _ _ hloop]
  rw [if_neg (not_not.mpr hpos),
    if_neg (fun h => hill (singleton_of_length_getD data ill_cmd h)),
    if_neg (fun h => hnak (singleton_of_length_getD data nak h))]
  rfl

theorem get_command_result_foreign_only (command : device_command)
    (foreign : List (Nat × List Nat)) (tail : List Nat) (port : serial_port)
    (hforeign : ∀ f ∈ foreign, f.1 ≠ bill_validator_addr ∧ f.2.length ≤ 250)
    (hcount : 5 ≤ foreign.length)
    (hinput : port.input = frames_line foreign ++ tail) :
    get_command_result command port =
      (.error .unable_to_receive_data,
        ⟨frames_line (foreign.drop 5) ++ tail, port.output ++ [build_command_frame command]⟩) := by
  have hloop : receive_loop (build_command_frame command) 5
      (port.write (build_command_frame command)) =
      (.ok none,
        ⟨frames_line (foreign.drop 5) ++ tail, port.output ++ [build_command_frame command]⟩) := by
    rewrite [receive_loop_foreign _ (build_command_frame_address command) foreign hforeign 5 tail
      (port.write (build_command_frame command)) hinput, if_pos hcount]
    rfl
  have hloop2 : get_command_result_loop (build_command_frame command) 3 port =
      (.error .unable_to_receive_data,
        ⟨frames_line (foreign.drop 5) ++ tail, port.output ++ [build_command_frame command]⟩) := by
    rewrite [get_command_result_loop, hloop]
    rfl
  exact get_command_result_error command _ _ _ hloop2

set_option maxRecDepth 100000 in
theorem ack_frame_bill_validator :
    ack_frame bill_validator_addr = [0x02, 0x03, 0x06, 0x00, 0xC2, 0x82] := by
  decide

/-- C13: when the line delivers `j` well-formed frames whose ADDRESS is not
0x03 and then a well-formed frame addressed to 0x03 with the data `d`
(at least one byte, as every frame of the protocol carries; at most 250;
not the single byte 0x30 or 0xFF), `get_command_result` returns exactly `d`
for `j ≤ 4`, having written the command frame once and then the ACK frame
`02 03 06 00 C2 82`; for `j ≥ 5` it fails with "unable to receive data"
after five reads, having written the command frame only (no ACK). -/
theorem address_filtering (command : device_command) (foreign : List (Nat × List Nat))
    (d rest : List Nat) (output : List (List Nat))
    (hforeign : ∀ f ∈ foreign, f.1 ≠ 0x03 ∧ f.2.length ≤ 250)
    (hpos : 0 < d.length) (hlen : d.length ≤ 250)
    (hill : d ≠ [0x30]) (hnak : d ≠ [0xFF]) :
    (foreign.length ≤ 4 →
      get_command_result command
          ⟨frames_line foreign ++ (device_frame 0x03 d ++ rest), output⟩ =
        (.ok d,
          ⟨rest, output ++ [build_command_frame command]
            ++ [[0x02, 0x03, 0x06, 0x00, 0xC2, 0x82]]⟩))
    ∧ (5 ≤ foreign.length →
      get_command_result command
          ⟨frames_line foreign ++ (device_frame 0x03 d ++ rest), output⟩ =
        (.error .unable_to_receive_data,
          ⟨frames_line (foreign.drop 5) ++ (device_frame 0x03 d ++ rest),
           output ++ [build_command_frame command]⟩)) := by
  constructor
  · intro hcount
    rewrite [← ack_frame_bill_validator]
    exact get_command_result_after_foreign command foreign d rest ⟨_, output⟩ hforeign hcount
      hpos hlen hill hnak rfl
  · intro hcount
    exact get_command_result_foreign_only command foreign _ ⟨_, output⟩ hforeign hcount rfl

set_option maxRecDepth 100000 in
/-- C13, at a concrete input: two frames addressed to 0x01 and 0x07, then
the state byte 0x14. -/
theorem address_filtering_witness :
    get_command_result ⟨0x33, []⟩
        ⟨frames_line [(1, [0x13]), (7, [])] ++ (device_frame 0x03 [0x14] ++ [9]), []⟩ =
      (.ok [0x14],
        ⟨[9], [] ++ [build_command_frame ⟨0x33, []⟩] ++ [[0x02, 0x03, 0x06, 0x00, 0xC2, 0x82]]⟩) :=
  (address_filtering ⟨0x33, []⟩ [(1, [0x13]), (7, [])] [0x14] [9] []
    (by decide) (by decide) (by decide) (by decide) (by decide)).1 (by decide)


/-! ## C14, C15, C16: the bill table -/

theorem power_loop_mod (base n result : Nat) :
    power_loop base n result % 2 ^ 64 = (result * base ^ n) % 2 ^ 64 := by
  induction n generalizing result with
  | zero => simp [power_loop]
  | succ n ih =>
    rw [power_loop, ih, Nat.mul_mod, Nat.mod_mod, ← Nat.mul_mod, pow_succ base n, Nat.mul_assoc,
      Nat.mul_comm (base ^ n) base]

theorem power_loop_lt (base n result : Nat) (h : result < 2 ^ 64) :
    power_loop base n result < 2 ^ 64 := by
  induction n generalizing result with
  | zero => simpa [power_loop] using h
  | succ n ih =>
    rw [power_loop]
    exact ih _ (Nat.mod_lt _ (by norm_num))

theorem power_currency_base (exponent : Nat) :
    power currency_base exponent = .ok (10 ^ exponent % 2 ^ 64) := by
  have h := power_loop_mod currency_base exponent 1
  rw [Nat.mod_eq_of_lt (power_loop_lt currency_base exponent 1 (by norm_num)), Nat.one_mul] at h
  rw [power, if_neg (by simp [currency_base]), h]
  rfl

theorem lookup_map_assign_self {α : Type} (m : byte_map α) (key : Nat) (value : α) :
    (map_assign m key value).lookup key = some value := by
  induction m with
  | nil => simp [map_assign, List.lookup]
  | cons entry rest ih =>
    obtain ⟨k, v⟩ := entry
    rw [map_assign]
    split
    · simp [List.lookup]
    · split
      · simp [List.lookup]
      · next h1 h2 =>
        have hne : (key == k) = false := by simpa using h2
        simp only [List.lookup, hne]
        exact ih

theorem lookup_map_assign_other {α : Type} (m : byte_map α) (key other : Nat) (value : α)
    (hne : other ≠ key) :
    (map_assign m key value).lookup other = m.lookup other := by
  have hfalse : (other == key) = false := by simpa using hne
  induction m with
  | nil => simp [map_assign, List.lookup, hfalse]
  | cons entry rest ih =>
    obtain ⟨k, v⟩ := entry
    rw [map_assign]
    split
    · simp only [List.lookup, hfalse]
    · split
      · next h1 h2 =>
        subst h2
        simp only [List.lookup, hfalse]
      · by_cases hk : (other == k) = true
        · simp only [List.lookup, hk]
        · have hk2 : (other == k) = false := by simpa using hk
          simp only [List.lookup, hk2]
          exact ih

theorem lookup_eq_none_iff_not_key {α : Type} (m : byte_map α) (key : Nat) :
    m.lookup key = none ↔ key ∉ m.map Prod.fst := by
  induction m with
  | nil => simp [List.lookup]
  | cons entry rest ih =>
    obtain ⟨k, v⟩ := entry
    by_cases hk : key = k
    · subst hk
      simp [List.lookup]
    · have hk2 : (key == k) = false := by simpa using hk
      simp only [List.lookup, hk2, List.map_cons, List.mem_cons, not_or]
      rw [ih]
      exact ⟨fun h => ⟨hk, h⟩, fun h => h.2⟩

theorem decode_bill_type_unused (response : List Nat) (n : Nat) (table : byte_map cash_type)
    (hunused : response.getD (n * 5) 0 = 0) :
    decode_bill_type response n table = .ok table := by
  unfold decode_bill_type
  simp only [bill_type_record_size, hunused, if_true]

theorem decode_bill_type_positive (response : List Nat) (n : Nat) (table : byte_map cash_type)
    (hused : response.getD (n * 5) 0 ≠ 0)
    (hsign : is_bit_set (response.getD (n * 5 + 4) 0) 7 = false) :
    decode_bill_type response n table =
      .ok (map_assign table n
        ⟨[response.getD (n * 5 + 1) 0, response.getD (n * 5 + 2) 0, response.getD (n * 5 + 3) 0],
         (response.getD (n * 5) 0 * 100 * 10 ^ (response.getD (n * 5 + 4) 0 &&& 0x7F))
           % 2 ^ 64⟩) := by
  unfold decode_bill_type
  simp only [bill_type_record_size, exponent_sign_bit_number, hused, hsign, if_false,
    power_currency_base, get_abs_exponent, Bool.false_eq_true]
  rw [← Nat.mul_mod]

theorem decode_bill_type_negative (response : List Nat) (n : Nat) (table : byte_map cash_type)
    (hused : response.getD (n * 5) 0 ≠ 0)
    (hsign : is_bit_set (response.getD (n * 5 + 4) 0) 7 = true) :
    decode_bill_type response n table =
      if 10 ^ (response.getD (n * 5 + 4) 0 &&& 0x7F) % 2 ^ 64 = 0 then
        .error .division_by_zero
      else if (response.getD (n * 5) 0 * 100) % 2 ^ 64
          % (10 ^ (response.getD (n * 5 + 4) 0 &&& 0x7F) % 2 ^ 64) ≠ 0 then
        .error .invalid_cash_type
      else
        .ok (map_assign table n
          ⟨[response.getD (n * 5 + 1) 0, response.getD (n * 5 + 2) 0,
            response.getD (n * 5 + 3) 0],
           (response.getD (n * 5) 0 * 100) % 2 ^ 64
             / (10 ^ (response.getD (n * 5 + 4) 0 &&& 0x7F) % 2 ^ 64)⟩) := by
  unfold decode_bill_type
  simp only [bill_type_record_size, exponent_sign_bit_number, hused, hsign, if_false, if_true,
    power_currency_base, get_abs_exponent]

theorem decode_bill_type_shape (response : List Nat) (n : Nat)
    (table result : byte_map cash_type)
    (h : decode_bill_type response n table = .ok result) :
    (response.getD (n * 5) 0 = 0 → result = table)
      ∧ (response.getD (n * 5) 0 ≠ 0 → ∃ cash, result = map_assign table n cash) := by
  constructor
  · intro hunused
    rw [decode_bill_type_unused response n table hunused] at h
    exact (Except.ok.inj h).symm
  · intro hused
    cases hsign : is_bit_set (response.getD (n * 5 + 4) 0) 7 with
    | false =>
      rw [decode_bill_type_positive response n table hused hsign] at h
      exact ⟨_, (Except.ok.inj h).symm⟩
    | true =>
      rw [decode_bill_type_negative response n table hused hsign] at h
      split at h
      · exact absurd h (by simp)
      · split at h
        · exact absurd h (by simp)
        · exact ⟨_, (Except.ok.inj h).symm⟩

theorem decode_bill_type_lookup_other (response : List Nat) (n other : Nat)
    (table result : byte_map cash_type)
    (h : decode_bill_type response n table = .ok result) (hne : other ≠ n) :
    result.lookup other = table.lookup other := by
  have hshape := decode_bill_type_shape response n table result h
  by_cases hused : response.getD (n * 5) 0 = 0
  · rw [hshape.1 hused]
  · obtain ⟨cash, hcash⟩ := hshape.2 hused
    rw [hcash, lookup_map_assign_other table n other cash hne]

theorem decode_bill_table_loop_outside (response : List Nat) (count start : Nat)
    (table result : byte_map cash_type)
    (h : decode_bill_table_loop response count start table = .ok result) (n : Nat)
    (hn : n < start ∨ start + count ≤ n) :
    result.lookup n = table.lookup n := by
  induction count generalizing start table with
  | zero =>
    rw [decode_bill_table_loop] at h
    rw [Except.ok.inj h]
  | succ count ih =>
    rw [decode_bill_table_loop] at h
    split at h
    · exact absurd h (by simp)
    · next t ht =>
      rw [ih (start + 1) t h (by omega),
        decode_bill_type_lookup_other response start n table t ht (by omega)]

theorem decode_bill_table_loop_inside (response : List Nat) (count start : Nat)
    (table result : byte_map cash_type)
    (h : decode_bill_table_loop response count start table = .ok result) (n : Nat)
    (hn : start ≤ n ∧ n < start + count) :
    ∃ before after, decode_bill_type response n before = .ok after
      ∧ before.lookup n = table.lookup n ∧ result.lookup n = after.lookup n := by
  induction count generalizing start table with
  | zero => omega
  | succ count ih =>
    rw [decode_bill_table_loop] at h
    split at h
    · exact absurd h (by simp)
    · next t ht =>
      by_cases hstart : n = start
      · subst hstart
        exact ⟨table, t, ht, rfl,
          decode_bill_table_loop_outside response count (n + 1) t result h n (by omega)⟩
      · obtain ⟨before, after, hstep, hbefore, hafter⟩ := ih (start + 1) t h (by omega)
        exact ⟨before, after, hstep,
          by rw [hbefore, decode_bill_type_lookup_other response start n table t ht hstart],
          hafter⟩


theorem decode_bill_table_slot (response : List Nat) (table : byte_map cash_type)
    (hdecode : decode_bill_table response = .ok table) (n : Nat) (hn : n < 24) :
    ∃ before after, decode_bill_type response n before = .ok after
      ∧ before.lookup n = none ∧ table.lookup n = after.lookup n := by
  unfold decode_bill_table at hdecode
  split at hdecode
  · exact absurd hdecode (by simp)
  · exact decode_bill_table_loop_inside response bill_types_count_max 0 [] table hdecode n
      ⟨Nat.zero_le n, by simpa [bill_types_count_max] using hn⟩

set_option maxRecDepth 100000 in
/-- C14 (as stated, refuted): the record `01 'R' 'U' 'B' 14` (exponent 20,
sign bit clear) in slot 0 decodes to the denomination
`1864712049423024128`, which is `100 * 10 ^ 20` reduced modulo `2 ^ 64`,
not `1 * 100 * 10 ^ 20`. -/
theorem positive_exponent_overflow :
    decode_bill_table ([1, 82, 85, 66, 20] ++ List.replicate 115 0) =
        .ok [(0, ⟨[82, 85, 66], 1864712049423024128⟩)]
      ∧ 1864712049423024128 ≠ 1 * 100 * 10 ^ 20 := by
  decide

/-- C14 (amended): for every Get Bill Table response that the decoder of
`request_bill_table` accepts and every slot `n` in 0..23 whose record byte 0
(`b`) is non-zero and whose exponent byte has bit 7 clear, with `e` the
exponent byte `& 0x7F`, the decoded table maps `n` to the cash type whose
currency code is the bytes 1..3 of the record and whose denomination is
`b * 100 * 10 ^ e` reduced modulo `2 ^ 64`; the denomination is exactly
`b * 100 * 10 ^ e` whenever that product is below `2 ^ 64`, which it is for
every byte `b` and every `e ≤ 14`. -/
theorem positive_exponent_denomination (response : List Nat) (table : byte_map cash_type)
    (n : Nat) (hdecode : decode_bill_table response = .ok table) (hn : n < 24)
    (hused : response.getD (5 * n) 0 ≠ 0)
    (hsign : is_bit_set (response.getD (5 * n + 4) 0) 7 = false) :
    table.lookup n =
        some ⟨[response.getD (5 * n + 1) 0, response.getD (5 * n + 2) 0,
               response.getD (5 * n + 3) 0],
              (response.getD (5 * n) 0 * 100 * 10 ^ (response.getD (5 * n + 4) 0 &&& 0x7F))
                % 2 ^ 64⟩
      ∧ (response.getD (5 * n) 0 * 100 * 10 ^ (response.getD (5 * n + 4) 0 &&& 0x7F) < 2 ^ 64 →
        table.lookup n =
          some ⟨[response.getD (5 * n + 1) 0, response.getD (5 * n + 2) 0,
                 response.getD (5 * n + 3) 0],
                response.getD (5 * n) 0 * 100 * 10 ^ (response.getD (5 * n + 4) 0 &&& 0x7F)⟩)
      ∧ (response.getD (5 * n) 0 < 256 → response.getD (5 * n + 4) 0 &&& 0x7F ≤ 14 →
        response.getD (5 * n) 0 * 100 * 10 ^ (response.getD (5 * n + 4) 0 &&& 0x7F) < 2 ^ 64) := by
  rw [Nat.mul_comm 5 n] at hused hsign ⊢
  obtain ⟨before, after, hstep, _, hafter⟩ := decode_bill_table_slot response table hdecode n hn
  rw [decode_bill_type_positive response n before hused hsign] at hstep
  have hlookup := hafter
  rw [← Except.ok.inj hstep, lookup_map_assign_self] at hlookup
  refine ⟨hlookup, ?_, ?_⟩
  · intro hsmall
    rw [hlookup, Nat.mod_eq_of_lt hsmall]
  · intro hb he
    have hpow : 10 ^ (response.getD (n * 5 + 4) 0 &&& 0x7F) ≤ 10 ^ 14 :=
      Nat.pow_le_pow_right (by norm_num) he
    calc response.getD (n * 5) 0 * 100 * 10 ^ (response.getD (n * 5 + 4) 0 &&& 0x7F)
        ≤ 255 * 100 * 10 ^ 14 :=
          Nat.mul_le_mul (Nat.mul_le_mul (by omega) (Nat.le_refl _)) hpow
      _ < 2 ^ 64 := by norm_num

set_option maxRecDepth 100000 in
/-- C14 (amended), at a concrete input: the record `05 'R' 'U' 'B' 00` in
slot 0 decodes to (RUB, 500). -/
theorem positive_exponent_denomination_witness :
    decode_bill_table sample_bill_table = .ok table_rub_500
      ∧ table_rub_500.lookup 0 = some ⟨[82, 85, 66], 500⟩ :=
  ⟨by decide,
    (positive_exponent_denomination sample_bill_table table_rub_500 0 (by decide) (by decide)
      (by decide) (by decide)).1⟩


theorem ten_pow_mod_eq_zero (e : Nat) (he : 64 ≤ e) : 10 ^ e % 2 ^ 64 = 0 := by
  apply Nat.mod_eq_zero_of_dvd
  have h10 : (10 : Nat) ^ e = 2 ^ e * 5 ^ e := by
    rw [← Nat.mul_pow]
  rw [h10]
  exact Dvd.dvd.mul_right (pow_dvd_pow 2 he) _

theorem ten_pow_mod_cases :
    ∀ e < 64, 10 ^ e % 2 ^ 64 = 10 ^ e ∨ (25500 < 10 ^ e % 2 ^ 64 ∧ 25500 < 10 ^ e) := by
  decide

set_option maxRecDepth 100000 in
/-- C15 (the code at the failing input): with the sign bit set and an
exponent magnitude `e ≥ 64`, `power(10, e)` wraps to `0` in 64-bit
arithmetic and the record is not rejected with "invalid cash type": the
decoder divides by zero (a response with the record `01 'U' 'S' 'D' C0`
in slot 0 ends so). For `e ≤ 63` the decoder does what the claim says:
a record with byte 0 `b` in 1..255 is rejected with "invalid cash type"
if and only if `(b * 100) mod 10 ^ e ≠ 0` and otherwise yields the
denomination `(b * 100) / 10 ^ e`; the three examples of the claim give
5, 3 and 10. -/
theorem negative_exponent_zero_divisor :
    decode_bill_table ([1, 85, 83, 68, 0xC0] ++ List.replicate 115 0)
        = .error .division_by_zero
      ∧ (∀ e, 64 ≤ e → power currency_base e = .ok 0)
      ∧ (∀ (response : List Nat) (n : Nat) (table : byte_map cash_type),
          response.getD (5 * n) 0 ≠ 0 →
          is_bit_set (response.getD (5 * n + 4) 0) 7 = true →
          64 ≤ response.getD (5 * n + 4) 0 &&& 0x7F →
          decode_bill_type response n table = .error .division_by_zero)
      ∧ (∀ (response : List Nat) (n : Nat) (table : byte_map cash_type),
          response.getD (5 * n) 0 ≠ 0 → response.getD (5 * n) 0 < 256 →
          is_bit_set (response.getD (5 * n + 4) 0) 7 = true →
          response.getD (5 * n + 4) 0 &&& 0x7F < 64 →
          decode_bill_type response n table =
            if (response.getD (5 * n) 0 * 100)
                % 10 ^ (response.getD (5 * n + 4) 0 &&& 0x7F) ≠ 0 then
              .error .invalid_cash_type
            else
              .ok (map_assign table n
                ⟨[response.getD (5 * n + 1) 0, response.getD (5 * n + 2) 0,
                  response.getD (5 * n + 3) 0],
                 (response.getD (5 * n) 0 * 100)
                   / 10 ^ (response.getD (5 * n + 4) 0 &&& 0x7F)⟩))
      ∧ decode_bill_table ([5, 85, 83, 68, 0x82] ++ List.replicate 115 0)
        = .ok [(0, ⟨[85, 83, 68], 5⟩)]
      ∧ decode_bill_table ([3, 85, 83, 68, 0x82] ++ List.replicate 115 0)
        = .ok [(0, ⟨[85, 83, 68], 3⟩)]
      ∧ decode_bill_table ([1, 85, 83, 68, 0x81] ++ List.replicate 115 0)
        = .ok [(0, ⟨[85, 83, 68], 10⟩)] := by
  refine ⟨by decide, ?_, ?_, ?_, by decide, by decide, by decide⟩
  · intro e he
    rw [power_currency_base, ten_pow_mod_eq_zero e he]
  · intro response n table hused hsign he
    rw [Nat.mul_comm 5 n] at hused hsign he
    rw [decode_bill_type_negative response n table hused hsign,
      if_pos (ten_pow_mod_eq_zero _ he)]
  · intro response n table hused hb hsign he
    rw [Nat.mul_comm 5 n] at hused hb hsign he ⊢
    rw [decode_bill_type_negative response n table hused hsign]
    have hsmall : response.getD (n * 5) 0 * 100 % 2 ^ 64 = response.getD (n * 5) 0 * 100 :=
      Nat.mod_eq_of_lt
        (Nat.lt_of_le_of_lt (Nat.mul_le_mul_right 100 (Nat.le_of_lt hb)) (by norm_num))
    have hpos : 0 < 10 ^ (response.getD (n * 5 + 4) 0 &&& 0x7F) := Nat.pow_pos (by norm_num)
    rw [hsmall]
    rcases ten_pow_mod_cases _ he with hexact | ⟨hbig1, hbig2⟩
    · rw [hexact, if_neg (by omega)]
    · have hne1 : response.getD (n * 5) 0 * 100
          % (10 ^ (response.getD (n * 5 + 4) 0 &&& 0x7F) % 2 ^ 64) ≠ 0 := by
        rw [Nat.mod_eq_of_lt (by omega)]; omega
      have hne2 : response.getD (n * 5) 0 * 100
          % 10 ^ (response.getD (n * 5 + 4) 0 &&& 0x7F) ≠ 0 := by
        rw [Nat.mod_eq_of_lt (by omega)]; omega
      rw [if_neg (by omega), if_pos hne1, if_pos hne2]


theorem decode_bill_table_keys (response : List Nat) (table : byte_map cash_type)
    (hdecode : decode_bill_table response = .ok table) (n : Nat) :
    n ∈ table.map Prod.fst ↔ n < 24 ∧ response.getD (5 * n) 0 ≠ 0 := by
  rw [Nat.mul_comm 5 n]
  have hkey : n ∈ table.map Prod.fst ↔ table.lookup n ≠ none := by
    rw [Ne, lookup_eq_none_iff_not_key, not_not]
  rw [hkey]
  by_cases hn : n < 24
  · obtain ⟨before, after, hstep, hbefore, hafter⟩ :=
      decode_bill_table_slot response table hdecode n hn
    have hshape := decode_bill_type_shape response n before after hstep
    by_cases hused : response.getD (n * 5) 0 = 0
    · rw [hafter, hshape.1 hused, hbefore]
      exact ⟨fun h => absurd rfl h, fun h => absurd hused h.2⟩
    · obtain ⟨cash, hcash⟩ := hshape.2 hused
      rw [hafter, hcash, lookup_map_assign_self]
      exact ⟨fun _ => ⟨hn, hused⟩, fun _ => Option.some_ne_none cash⟩
  · have houtside : table.lookup n = none := by
      unfold decode_bill_table at hdecode
      split at hdecode
      · exact absurd hdecode (by simp)
      · rw [decode_bill_table_loop_outside response bill_types_count_max 0 [] table hdecode n
          (Or.inr (by simp only [bill_types_count_max]; omega))]
        rfl
    rw [houtside]
    exact ⟨fun h => absurd rfl h, fun h => absurd h.1 hn⟩

set_option maxRecDepth 100000 in
/-- C16 (as stated, refuted): a Get Bill Table response of 120 zero bytes
(every slot unused) is accepted and decodes to the empty table, and the
initialization sequence that receives it completes without error with an
empty cached bill table. -/
theorem empty_bill_table_accepted :
    decode_bill_table (List.replicate 120 0) = .ok []
      ∧ (initialization scripted
          (bill_validator.start
            (script.mk [.ok [0x00], .ok sample_identification, .ok (List.replicate 120 0)] [])
            [])).1 = .ok ()
      ∧ (initialization scripted
          (bill_validator.start
            (script.mk [.ok [0x00], .ok sample_identification, .ok (List.replicate 120 0)] [])
            [])).2.bill_types_by_numbers = [] := by
  decide

/-- C16 (amended): whenever `request_bill_table` returns a table, the
device has answered Get Bill Table with a response of 120 bytes and the
keys of the table are exactly the slot numbers `n` in 0..23 whose record
byte 0 is non-zero; the table is empty exactly when every record has byte 0
zero (such a response is accepted). -/
theorem bill_table_keys {σ : Type} (env : environment σ) (self self1 : bill_validator σ)
    (table : byte_map cash_type)
    (hrequest : request_bill_table env self = (.ok table, self1)) :
    ∃ response,
      (env.get_command_result ⟨device_command_code.get_bill_table, []⟩ self.world).1
          = .ok response
        ∧ response.length = 120
        ∧ (∀ n, n ∈ table.map Prod.fst ↔ n < 24 ∧ response.getD (5 * n) 0 ≠ 0)
        ∧ (table = [] ↔ ∀ n, n < 24 → response.getD (5 * n) 0 = 0) := by
  unfold request_bill_table call_get_command_result at hrequest
  cases hresult : env.get_command_result ⟨device_command_code.get_bill_table, []⟩ self.world with
  | mk result world =>
    rw [hresult] at hrequest
    cases result with
    | error e => simp at hrequest
    | ok response =>
      simp only [Prod.mk.injEq] at hrequest
      have hdecode := hrequest.1
      have hlength : response.length = 120 := by
        unfold decode_bill_table at hdecode
        split at hdecode
        · exact absurd hdecode (by simp)
        · next hlen => simpa [get_bill_table_result_data_size] using hlen
      have hkeys := decode_bill_table_keys response table hdecode
      refine ⟨response, rfl, hlength, hkeys, ?_⟩
      constructor
      · intro hempty n hn
        by_contra hused
        have hmem := (hkeys n).2 ⟨hn, hused⟩
        rw [hempty] at hmem
        simp at hmem
      · intro hzero
        cases table with
        | nil => rfl
        | cons entry rest =>
          have hmem := (hkeys entry.1).1 (by simp)
          exact absurd (hzero entry.1 hmem.1) hmem.2

set_option maxRecDepth 100000 in
/-- C16 (amended), at a concrete input: the device answers Get Bill Table
with the record `05 'R' 'U' 'B' 00` in slot 0 and 23 unused slots. -/
theorem bill_table_keys_witness :
    ∃ response,
      (scripted.get_command_result ⟨device_command_code.get_bill_table, []⟩
          (bill_validator.start (script.mk [.ok sample_bill_table] []) []).world).1
          = .ok response
        ∧ response.length = 120
        ∧ (∀ n, n ∈ table_rub_500.map Prod.fst ↔ n < 24 ∧ response.getD (5 * n) 0 ≠ 0)
        ∧ (table_rub_500 = [] ↔ ∀ n, n < 24 → response.getD (5 * n) 0 = 0) :=
  bill_table_keys scripted (bill_validator.start (script.mk [.ok sample_bill_table] []) [])
    { bill_validator.start (script.mk [] []) [] with
      trace := [event.device ⟨device_command_code.get_bill_table, []⟩] }
    table_rub_500 (by decide)


/-! ## C17: the Identification response -/

theorem getD_lt_of_bytes (bytes : List Nat) (hbytes : ∀ b ∈ bytes, b < 256) (k : Nat) :
    bytes.getD k 0 < 256 := by
  induction bytes generalizing k with
  | nil => simp
  | cons b rest ih =>
    cases k with
    | zero => simpa using hbytes b (List.mem_cons_self _ _)
    | succ k =>
      simpa using ih (fun c hc => hbytes c (List.mem_cons_of_mem _ hc)) k

theorem getD_drop_add (bytes : List Nat) (n k : Nat) :
    (bytes.drop n).getD k 0 = bytes.getD (n + k) 0 := by
  simp [List.getD_eq_getElem?_getD, List.getElem?_drop]

theorem read_uint64_asset_number (a b c d e f g : Nat) :
    read_uint64 ([0] ++ [a, b, c, d, e, f, g]) =
      .ok (a * 256 ^ 6 + b * 256 ^ 5 + c * 256 ^ 4 + d * 256 ^ 3 + e * 256 ^ 2 + f * 256 ^ 1
        + g * 256 ^ 0) := by
  simp only [read_uint64, List.cons_append, List.nil_append, List.length_cons, List.length_nil,
    List.reverse_cons, List.reverse_nil, List.take, List.foldr]
  norm_num
  ring

theorem decode_device_info_asset_number (response part_number serial_number : List Nat)
    (hlength : response.length = 34)
    (hpart : trim (response.take 15) = .ok part_number)
    (hserial : trim ((response.drop 15).take 12) = .ok serial_number) :
    decode_device_info response =
      .ok ⟨part_number, serial_number,
        response.getD 27 0 * 256 ^ 6 + response.getD 28 0 * 256 ^ 5
          + response.getD 29 0 * 256 ^ 4 + response.getD 30 0 * 256 ^ 3
          + response.getD 31 0 * 256 ^ 2 + response.getD 32 0 * 256 ^ 1
          + response.getD 33 0 * 256 ^ 0⟩ := by
  have htail : response.drop 27 =
      [response.getD 27 0, response.getD 28 0, response.getD 29 0, response.getD 30 0,
       response.getD 31 0, response.getD 32 0, response.getD 33 0] := by
    have hlen : (response.drop 27).length = 7 := by simp [hlength]
    have h0 := getD_drop_add response 27 0
    have h1 := getD_drop_add response 27 1
    have h2 := getD_drop_add response 27 2
    have h3 := getD_drop_add response 27 3
    have h4 := getD_drop_add response 27 4
    have h5 := getD_drop_add response 27 5
    have h6 := getD_drop_add response 27 6
    match hdrop : response.drop 27, hlen with
    | [a, b, c, d, e, f, g], _ =>
      rw [hdrop] at h0 h1 h2 h3 h4 h5 h6
      simp only [List.getD_cons_zero, List.getD_cons_succ, Nat.reduceAdd] at h0 h1 h2 h3 h4 h5 h6
      rw [← h0, ← h1, ← h2, ← h3, ← h4, ← h5, ← h6]
  unfold decode_device_info
  rw [if_neg (by simp [hlength, identification_result_data_size])]
  simp only [hpart, hserial]
  rw [show (15 + 12 : Nat) = 27 from rfl, htail, read_uint64_asset_number]


set_option maxRecDepth 100000 in
/-- C17 (the code at the failing input): `request_device_info` does not
return for every 34-byte response. A response whose part-number field is
a space followed by 14 letters makes `trim` throw `std::out_of_range`, so
no asset number is returned. Whenever `trim` accepts the two string fields,
`request_device_info` returns the asset number
`r[27] * 256 ^ 6 + ... + r[33] * 256 ^ 0`, which is below `2 ^ 56` for
bytes; a response whose length is not 34 is rejected with "invalid data
received". -/
theorem asset_number_decoding :
    decode_device_info ([32] ++ List.replicate 33 65) = .error .out_of_range
      ∧ (request_device_info scripted
          (bill_validator.start (script.mk [.ok ([32] ++ List.replicate 33 65)] []) [])).1
        = .error .out_of_range
      ∧ (∀ response part_number serial_number : List Nat, response.length = 34 →
          trim (response.take 15) = .ok part_number →
          trim ((response.drop 15).take 12) = .ok serial_number →
          decode_device_info response =
            .ok ⟨part_number, serial_number,
              response.getD 27 0 * 256 ^ 6 + response.getD 28 0 * 256 ^ 5
                + response.getD 29 0 * 256 ^ 4 + response.getD 30 0 * 256 ^ 3
                + response.getD 31 0 * 256 ^ 2 + response.getD 32 0 * 256 ^ 1
                + response.getD 33 0 * 256 ^ 0⟩)
      ∧ (∀ response : List Nat, (∀ b ∈ response, b < 256) →
          response.getD 27 0 * 256 ^ 6 + response.getD 28 0 * 256 ^ 5
            + response.getD 29 0 * 256 ^ 4 + response.getD 30 0 * 256 ^ 3
            + response.getD 31 0 * 256 ^ 2 + response.getD 32 0 * 256 ^ 1
            + response.getD 33 0 * 256 ^ 0 < 2 ^ 56)
      ∧ (∀ response : List Nat, response.length ≠ 34 →
          decode_device_info response = .error .invalid_data_received) := by
  refine ⟨by decide, by decide, decode_device_info_asset_number, ?_, ?_⟩
  · intro response hbytes
    have h27 := getD_lt_of_bytes response hbytes 27
    have h28 := getD_lt_of_bytes response hbytes 28
    have h29 := getD_lt_of_bytes response hbytes 29
    have h30 := getD_lt_of_bytes response hbytes 30
    have h31 := getD_lt_of_bytes response hbytes 31
    have h32 := getD_lt_of_bytes response hbytes 32
    have h33 := getD_lt_of_bytes response hbytes 33
    generalize response.getD 27 0 = a at h27 ⊢
    generalize response.getD 28 0 = b at h28 ⊢
    generalize response.getD 29 0 = c at h29 ⊢
    generalize response.getD 30 0 = d at h30 ⊢
    generalize response.getD 31 0 = e at h31 ⊢
    generalize response.getD 32 0 = f at h32 ⊢
    generalize response.getD 33 0 = g at h33 ⊢
    norm_num
    omega
  · intro response hlength
    unfold decode_device_info
    rw [if_pos (by simpa [identification_result_data_size] using hlength)]


/-! ## C18, C19: the payload of Enable Bill Types -/

theorem set_bit_at_length (command_data result : List Nat) (index : Int) (bit_number : Nat)
    (h : set_bit_at command_data index bit_number = .ok result) :
    result.length = command_data.length := by
  unfold set_bit_at at h
  split at h
  · rw [← Except.ok.inj h, List.length_set]
  · exact absurd h (by simp)

theorem set_enabled_cash_types_loop_low_slot (bill_types_by_numbers : byte_map cash_type)
    (cash : cash_type) (rest : List cash_type) (command_data : List Nat) (number : Nat)
    (hfind : find_bill_type bill_types_by_numbers cash = some number)
    (hnumber : number < 8) (hlength : command_data.length = 6) :
    set_enabled_cash_types_loop bill_types_by_numbers (cash :: rest) command_data
      = .error .out_of_bounds := by
  have hmod : number % 256 = number := Nat.mod_eq_of_lt (by omega)
  have hdiv : number / byte_size = 0 := by
    simp only [byte_size]; omega
  rw [set_enabled_cash_types_loop, hfind]
  simp only [hmod, hdiv]
  cases hfirst : set_bit_at command_data (3 - ((0 : Nat) : Int)) (number % byte_size) with
  | error e =>
    unfold set_bit_at at hfirst
    rw [if_pos (by rw [hlength]; decide)] at hfirst
    exact absurd hfirst (by simp)
  | ok data =>
    have hdata := set_bit_at_length _ _ _ _ hfirst
    simp only
    unfold set_bit_at
    rw [if_neg (by rw [hdata, hlength]; decide)]

set_option maxRecDepth 100000 in
/-- C18 (the code at the failing input): `set_enabled_cash_types` sets the
bit of the table entry `n` in the bytes `3 - n / 8` and `6 - n / 8` of its
6-byte buffer, not in the bytes `2 - n / 8` and `5 - n / 8`. With the table
`8 ↦ (RUB, 500)` and S = {(RUB, 500)} the payload enqueued is
`00 00 01 00 00 01` (bit 0 of byte 2 of each triplet), where the claim
requires bit 0 of byte 1, `00 01 00 00 01 00`. With the table
`0 ↦ (RUB, 500)` and the same S the second write goes to byte 6, outside
the buffer, and so does it for every set whose first cash type sits at an
index below 8. -/
theorem enable_payload_off_by_one :
    (set_enabled_cash_types [⟨[82, 85, 66], 500⟩] 1
        { bill_validator.start (script.mk [] []) [] with
          bill_types_by_numbers := [(8, ⟨[82, 85, 66], 500⟩)] }).2.cmd_queue
        = [⟨.set_enabled_bill_types, [0, 0, 1, 0, 0, 1], 1⟩]
      ∧ (set_enabled_cash_types [⟨[82, 85, 66], 500⟩] 1
          { bill_validator.start (script.mk [] []) [] with
            bill_types_by_numbers := table_rub_500 }).1
        = .error .out_of_bounds
      ∧ (∀ (bill_types_by_numbers : byte_map cash_type) (cash : cash_type)
          (rest : List cash_type) (number : Nat),
          find_bill_type bill_types_by_numbers cash = some number → number < 8 →
          set_enabled_cash_types_loop bill_types_by_numbers (cash :: rest)
              (List.replicate enable_bill_types_command_data_size 0)
            = .error .out_of_bounds) := by
  refine ⟨by decide, by decide, ?_⟩
  intro bill_types_by_numbers cash rest number hfind hnumber
  exact set_enabled_cash_types_loop_low_slot bill_types_by_numbers cash rest _ number hfind
    hnumber (by simp [enable_bill_types_command_data_size])

set_option maxRecDepth 100000 in
/-- C19 (the code at the failing input): with the table
`0 ↦ (RUB, 100), 8 ↦ (RUB, 500)` and S = {8}, `set_enabled_cash_types`
builds the triplet `00 00 01` (twice); the mask decoder of
`get_enabled_bill_types_handler`, given a response that starts with that
triplet, yields (RUB, 100), the cash type at index 0, not (RUB, 500). With
S = {0} no triplet is built: the second write goes outside the buffer. -/
theorem enable_triplet_not_symmetric :
    (set_enabled_cash_types [⟨[82, 85, 66], 500⟩] 1
        { bill_validator.start (script.mk [] []) [] with
          bill_types_by_numbers :=
            [(0, ⟨[82, 85, 66], 100⟩), (8, ⟨[82, 85, 66], 500⟩)] }).2.cmd_queue
        = [⟨.set_enabled_bill_types, [0, 0, 1] ++ [0, 0, 1], 1⟩]
      ∧ (∀ x y z : Nat,
          decode_enabled_bill_types [(0, ⟨[82, 85, 66], 100⟩), (8, ⟨[82, 85, 66], 500⟩)]
              ([0, 0, 1] ++ [x, y, z])
            = [⟨[82, 85, 66], 100⟩])
      ∧ (set_enabled_cash_types [⟨[82, 85, 66], 100⟩] 1
          { bill_validator.start (script.mk [] []) [] with
            bill_types_by_numbers :=
              [(0, ⟨[82, 85, 66], 100⟩), (8, ⟨[82, 85, 66], 500⟩)] }).1
        = .error .out_of_bounds := by
  refine ⟨by decide, ?_, by decide⟩
  intro x y z
  rfl


/-! ## C20: the decoders of the Get Status response -/

theorem string_lt_irrefl (a : List Nat) : string_lt a a = false := by
  induction a with
  | nil => rfl
  | cons x xs ih => simp [string_lt, ih]

theorem string_lt_trichotomy (a b : List Nat)
    (hab : string_lt a b = false) (hba : string_lt b a = false) : a = b := by
  induction a generalizing b with
  | nil =>
    cases b with
    | nil => rfl
    | cons y ys => simp [string_lt] at hab
  | cons x xs ih =>
    cases b with
    | nil => simp [string_lt] at hba
    | cons y ys =>
      simp only [string_lt] at hab hba
      by_cases hxy : x < y
      · simp [hxy] at hab
      · by_cases hyx : y < x
        · simp [hyx] at hba
        · have hx : x = y := by omega
          subst hx
          simp only [hxy, if_false] at hab hba
          rw [ih ys hab hba]

theorem cash_type_lt_irrefl (a : cash_type) : cash_type.lt a a = false := by
  simp [cash_type.lt]

theorem cash_type_lt_trichotomy (a b : cash_type)
    (hab : cash_type.lt a b = false) (hba : cash_type.lt b a = false) : a = b := by
  obtain ⟨code_a, value_a⟩ := a
  obtain ⟨code_b, value_b⟩ := b
  simp only [cash_type.lt] at hab hba
  by_cases hcode : code_a = code_b
  · subst hcode
    simp only [bne_self_eq_false, Bool.false_eq_true, if_false, decide_eq_false_iff_not] at hab hba
    have hvalue : value_a = value_b := by omega
    rw [hvalue]
  · have hne1 : (code_a != code_b) = true := by simpa using hcode
    have hne2 : (code_b != code_a) = true := by simpa using (fun h => hcode h.symm)
    simp only [hne1, hne2, if_true] at hab hba
    exact absurd (string_lt_trichotomy code_a code_b hab hba) hcode

theorem mem_set_insert (set : List cash_type) (x c : cash_type) :
    c ∈ set_insert set x ↔ c ∈ set ∨ c = x := by
  induction set with
  | nil => simp [set_insert]
  | cons y ys ih =>
    rw [set_insert]
    split
    · simp only [List.mem_cons]
      tauto
    · split
      · simp only [List.mem_cons, ih]
        tauto
      · next h1 h2 =>
        have hxy : x = y :=
          cash_type_lt_trichotomy x y (by simpa using h1) (by simpa using h2)
        subst hxy
        simp only [List.mem_cons]
        tauto

theorem enabled_inner_fold (bill_types_by_numbers : byte_map cash_type) (byte : Nat)
    (items : List Nat) (number : Nat) (set : List cash_type)
    (hbound : number + items.length < 256) :
    (items.foldl
        (fun (state : Nat × List cash_type) _ =>
          let bill_type_number := state.1
          let enabled_bill_types :=
            if is_bit_set byte (bill_type_number % byte_size) then
              match bill_types_by_numbers.lookup bill_type_number with
              | some cash => set_insert state.2 cash
              | none => state.2
            else state.2
          ((bill_type_number + 1) % 256, enabled_bill_types))
        (number, set)).1 = number + items.length
      ∧ ∀ c, c ∈ (items.foldl
          (fun (state : Nat × List cash_type) _ =>
            let bill_type_number := state.1
            let enabled_bill_types :=
              if is_bit_set byte (bill_type_number % byte_size) then
                match bill_types_by_numbers.lookup bill_type_number with
                | some cash => set_insert state.2 cash
                | none => state.2
              else state.2
            ((bill_type_number + 1) % 256, enabled_bill_types))
          (number, set)).2 ↔
        c ∈ set ∨ ∃ k, k < items.length
          ∧ is_bit_set byte ((number + k) % byte_size) = true
          ∧ bill_types_by_numbers.lookup (number + k) = some c := by
  induction items generalizing number set with
  | nil => simp
  | cons item rest ih =>
    simp only [List.length_cons] at hbound
    have hmod : (number + 1) % 256 = number + 1 := Nat.mod_eq_of_lt (by omega)
    simp only [List.foldl_cons, hmod, List.length_cons]
    obtain ⟨hfirst, hmem⟩ := ih (number + 1)
      (if is_bit_set byte (number % byte_size) then
        match bill_types_by_numbers.lookup number with
        | some cash => set_insert set cash
        | none => set
      else set) (by omega)
    refine ⟨by rw [hfirst]; omega, ?_⟩
    intro c
    rw [hmem c]
    have hstep : c ∈ (if is_bit_set byte (number % byte_size) then
          match bill_types_by_numbers.lookup number with
          | some cash => set_insert set cash
          | none => set
        else set) ↔
        c ∈ set ∨ (is_bit_set byte (number % byte_size) = true
          ∧ bill_types_by_numbers.lookup number = some c) := by
      cases hbit : is_bit_set byte (number % byte_size) with
      | false => simp
      | true =>
        cases hlookup : bill_types_by_numbers.lookup number with
        | none => simp
        | some cash =>
          simp only [if_true, mem_set_insert, true_and, Option.some.injEq]
          exact ⟨fun h => h.imp id Eq.symm, fun h => h.imp id Eq.symm⟩
    rw [hstep]
    constructor
    · rintro ((h | h) | ⟨k, hk, hbit, hlookup⟩)
      · exact Or.inl h
      · exact Or.inr ⟨0, by omega, h.1, h.2⟩
      · exact Or.inr ⟨k + 1, by omega, by rw [← Nat.add_assoc, Nat.add_right_comm]; exact hbit,
          by rw [← Nat.add_assoc, Nat.add_right_comm]; exact hlookup⟩
    · rintro (h | ⟨k, hk, hbit, hlookup⟩)
      · exact Or.inl (Or.inl h)
      · cases k with
        | zero => exact Or.inl (Or.inr ⟨hbit, hlookup⟩)
        | succ k =>
          refine Or.inr ⟨k, by omega, ?_, ?_⟩
          · rw [Nat.add_right_comm, Nat.add_assoc]; exact hbit
          · rw [Nat.add_right_comm, Nat.add_assoc]; exact hlookup


theorem pair_eq_of_fst {α : Type} (p : Nat × α) (n : Nat) (h : p.1 = n) : p = (n, p.2) := by
  obtain ⟨a, b⟩ := p
  simp only at h
  rw [h]

theorem enabled_byte_fold (bill_types_by_numbers : byte_map cash_type) (byte : Nat)
    (number : Nat) (set : List cash_type) (hbound : number + byte_size < 256) :
    ∃ enabled,
      (List.range byte_size).foldl
          (fun (state : Nat × List cash_type) _ =>
            let bill_type_number := state.1
            let enabled_bill_types :=
              if is_bit_set byte (bill_type_number % byte_size) then
                match bill_types_by_numbers.lookup bill_type_number with
                | some cash => set_insert state.2 cash
                | none => state.2
              else state.2
            ((bill_type_number + 1) % 256, enabled_bill_types))
          (number, set) = (number + byte_size, enabled)
        ∧ ∀ c, c ∈ enabled ↔
          c ∈ set ∨ ∃ k, k < byte_size
            ∧ is_bit_set byte ((number + k) % byte_size) = true
            ∧ bill_types_by_numbers.lookup (number + k) = some c := by
  have h := enabled_inner_fold bill_types_by_numbers byte (List.range byte_size) number set
    (by rw [List.length_range]; exact hbound)
  rw [List.length_range] at h
  exact ⟨_, pair_eq_of_fst _ _ h.1, h.2⟩

theorem decode_enabled_bill_types_mem (bill_types_by_numbers : byte_map cash_type)
    (response : List Nat) (hlength : response.length = 6) (c : cash_type) :
    c ∈ decode_enabled_bill_types bill_types_by_numbers response ↔
      ∃ n, n < 24 ∧ is_bit_set (response.getD (2 - n / 8) 0) (n % 8) = true
        ∧ bill_types_by_numbers.lookup n = some c := by
  match response, hlength with
  | [r0, r1, r2, r3, r4, r5], _ =>
    obtain ⟨set1, hfold1, hmem1⟩ :=
      enabled_byte_fold bill_types_by_numbers r2 0 [] (by decide)
    obtain ⟨set2, hfold2, hmem2⟩ :=
      enabled_byte_fold bill_types_by_numbers r1 (0 + byte_size) set1 (by decide)
    obtain ⟨set3, hfold3, hmem3⟩ :=
      enabled_byte_fold bill_types_by_numbers r0 (0 + byte_size + byte_size) set2 (by decide)
    have hvalue : decode_enabled_bill_types bill_types_by_numbers [r0, r1, r2, r3, r4, r5]
        = set3 := by
      unfold decode_enabled_bill_types
      simp only [List.reverse_cons, List.reverse_nil, List.nil_append, List.cons_append,
        List.drop_succ_cons, List.drop_zero, List.foldl_cons, List.foldl_nil]
      rw [hfold1, hfold2, hfold3]
    rw [hvalue, hmem3, hmem2, hmem1]
    simp only [byte_size, Nat.zero_add, Nat.reduceAdd]
    constructor
    · rintro (((h | ⟨k, hk, hbit, hlookup⟩) | ⟨k, hk, hbit, hlookup⟩) | ⟨k, hk, hbit, hlookup⟩)
      · exact absurd h (List.not_mem_nil c)
      · refine ⟨k, by omega, ?_, hlookup⟩
        have hindex : 2 - k / 8 = 2 := by omega
        rw [hindex]
        exact hbit
      · refine ⟨8 + k, by omega, ?_, hlookup⟩
        have hindex : 2 - (8 + k) / 8 = 1 := by omega
        rw [hindex]
        exact hbit
      · refine ⟨16 + k, by omega, ?_, hlookup⟩
        have hindex : 2 - (16 + k) / 8 = 0 := by omega
        rw [hindex]
        exact hbit
    · rintro ⟨n, hn, hbit, hlookup⟩
      by_cases h0 : n < 8
      · have hindex : 2 - n / 8 = 2 := by omega
        rw [hindex] at hbit
        exact Or.inl (Or.inl (Or.inr ⟨n, h0, hbit, hlookup⟩))
      · by_cases h1 : n < 16
        · have hindex : 2 - n / 8 = 1 := by omega
          have hn8 : 8 + (n - 8) = n := by omega
          rw [hindex] at hbit
          refine Or.inl (Or.inr ⟨n - 8, by omega, ?_, ?_⟩)
          · rw [hn8]; exact hbit
          · rw [hn8]; exact hlookup
        · have hindex : 2 - n / 8 = 0 := by omega
          have hn16 : 16 + (n - 16) = n := by omega
          rw [hindex] at hbit
          refine Or.inr ⟨n - 16, by omega, ?_, ?_⟩
          · rw [hn16]; exact hbit
          · rw [hn16]; exact hlookup


theorem lookup_levels_assign_self (levels : List (cash_type × bill_security_level))
    (cash : cash_type) (level : bill_security_level) :
    (levels_assign levels cash level).lookup cash = some level := by
  induction levels with
  | nil => simp [levels_assign, List.lookup]
  | cons entry rest ih =>
    obtain ⟨k, v⟩ := entry
    rw [levels_assign]
    split
    · simp [List.lookup]
    · split
      · next h1 h2 =>
        have hne : (cash == k) = false := by
          rw [beq_eq_false_iff_ne]
          intro h
          rw [h, cash_type_lt_irrefl] at h2
          exact absurd h2 (by simp)
        simp only [List.lookup, hne]
        exact ih
      · next h1 h2 =>
        have heq : cash = k :=
          cash_type_lt_trichotomy cash k (by simpa using h1) (by simpa using h2)
        subst heq
        simp [List.lookup]

theorem lookup_levels_assign_other (levels : List (cash_type × bill_security_level))
    (cash other : cash_type) (level : bill_security_level) (hne : other ≠ cash) :
    (levels_assign levels cash level).lookup other = levels.lookup other := by
  have hfalse : (other == cash) = false := by rw [beq_eq_false_iff_ne]; exact hne
  induction levels with
  | nil => simp [levels_assign, List.lookup, hfalse]
  | cons entry rest ih =>
    obtain ⟨k, v⟩ := entry
    rw [levels_assign]
    split
    · simp only [List.lookup, hfalse]
    · split
      · by_cases hk : (other == k) = true
        · simp only [List.lookup, hk]
        · have hk2 : (other == k) = false := by simpa using hk
          simp only [List.lookup, hk2]
          exact ih
      · next h1 h2 =>
        have heq : cash = k :=
          cash_type_lt_trichotomy cash k (by simpa using h1) (by simpa using h2)
        subst heq
        simp only [List.lookup, hfalse]

theorem security_fold_error (bill_types_by_numbers : byte_map cash_type) (byte : Nat)
    (items : List Nat) (e : error) :
    items.foldl
        (fun (state : Except error (Nat × List (cash_type × bill_security_level))) _ =>
          match state with
          | .error e => .error e
          | .ok (bill_type_number, levels) =>
            match map_at bill_types_by_numbers bill_type_number with
            | .error e => .error e
            | .ok cash =>
              if is_bit_set byte (bill_type_number % byte_size) then
                .ok ((bill_type_number + 1) % 256, levels_assign levels cash .high)
              else
                .ok ((bill_type_number + 1) % 256, levels_assign levels cash .normal))
        (.error e) = .error e := by
  induction items with
  | nil => rfl
  | cons item rest ih =>
    rw [List.foldl_cons]
    exact ih

theorem security_inner_fold (bill_types_by_numbers : byte_map cash_type)
    (hdistinct : ∀ i j c, bill_types_by_numbers.lookup i = some c →
      bill_types_by_numbers.lookup j = some c → i = j)
    (byte : Nat) (items : List Nat) (number : Nat)
    (levels : List (cash_type × bill_security_level))
    (hbound : number + items.length < 256)
    (final : Nat × List (cash_type × bill_security_level))
    (hfold : items.foldl
        (fun (state : Except error (Nat × List (cash_type × bill_security_level))) _ =>
          match state with
          | .error e => .error e
          | .ok (bill_type_number, levels) =>
            match map_at bill_types_by_numbers bill_type_number with
            | .error e => .error e
            | .ok cash =>
              if is_bit_set byte (bill_type_number % byte_size) then
                .ok ((bill_type_number + 1) % 256, levels_assign levels cash .high)
              else
                .ok ((bill_type_number + 1) % 256, levels_assign levels cash .normal))
        (.ok (number, levels)) = .ok final) :
    final.1 = number + items.length
      ∧ (∀ k c, k < items.length → bill_types_by_numbers.lookup (number + k) = some c →
        final.2.lookup c =
          some (if is_bit_set byte ((number + k) % byte_size) then .high else .normal))
      ∧ (∀ c, (∀ k, k < items.length → bill_types_by_numbers.lookup (number + k) ≠ some c) →
        final.2.lookup c = levels.lookup c) := by
  induction items generalizing number levels with
  | nil =>
    simp only [List.foldl_nil, Except.ok.injEq] at hfold
    subst hfold
    exact ⟨rfl, fun k c hk => absurd hk (Nat.not_lt_zero k), fun c _ => rfl⟩
  | cons item rest ih =>
    simp only [List.length_cons] at hbound ⊢
    have hmod : (number + 1) % 256 = number + 1 := Nat.mod_eq_of_lt (by omega)
    rw [List.foldl_cons] at hfold
    cases hlookup : bill_types_by_numbers.lookup number with
    | none =>
      have hat : map_at bill_types_by_numbers number = .error .out_of_range := by
        rw [map_at, hlookup]
      simp only [hat] at hfold
      rw [security_fold_error] at hfold
      exact absurd hfold (by simp)
    | some cash =>
      have hat : map_at bill_types_by_numbers number = .ok cash := by
        rw [map_at, hlookup]
      simp only [hat, hmod] at hfold
      have hstate : (if is_bit_set byte (number % byte_size) = true then
            (Except.ok (number + 1, levels_assign levels cash .high) :
              Except error (Nat × List (cash_type × bill_security_level)))
          else .ok (number + 1, levels_assign levels cash .normal))
          = .ok (number + 1, levels_assign levels cash
              (if is_bit_set byte (number % byte_size) then .high else .normal)) := by
        split <;> rfl
      rw [hstate] at hfold
      obtain ⟨hfirst, hset, hkeep⟩ := ih (number + 1) _ (by omega) hfold
      refine ⟨by rw [hfirst]; omega, ?_, ?_⟩
      · intro k c hk hc
        cases k with
        | zero =>
          rw [Nat.add_zero, hlookup] at hc
          have hcash : cash = c := Option.some.inj hc
          subst hcash
          rw [hkeep cash (fun k hk2 hk3 => by
            have := hdistinct _ _ _ hk3 hlookup
            omega)]
          rw [lookup_levels_assign_self]
          rfl
        | succ k =>
          have h := hset k c (by omega) (by rw [Nat.add_assoc, Nat.add_comm 1 k]; exact hc)
          rw [h, Nat.add_assoc, Nat.add_comm 1 k]
      · intro c hnone
        rw [hkeep c (fun k hk hk2 => hnone (k + 1) (by omega)
          (by rw [← Nat.add_assoc, Nat.add_right_comm]; exact hk2))]
        exact lookup_levels_assign_other levels cash c _ (fun h => hnone 0 (by omega)
          (by rw [Nat.add_zero, hlookup, h]))


theorem security_byte_fold (bill_types_by_numbers : byte_map cash_type)
    (hdistinct : ∀ i j c, bill_types_by_numbers.lookup i = some c →
      bill_types_by_numbers.lookup j = some c → i = j)
    (byte : Nat) (state : Except error (Nat × List (cash_type × bill_security_level)))
    (final : Nat × List (cash_type × bill_security_level))
    (hfold : (List.range byte_size).foldl
        (fun (state : Except error (Nat × List (cash_type × bill_security_level))) _ =>
          match state with
          | .error e => .error e
          | .ok (bill_type_number, levels) =>
            match map_at bill_types_by_numbers bill_type_number with
            | .error e => .error e
            | .ok cash =>
              if is_bit_set byte (bill_type_number % byte_size) then
                .ok ((bill_type_number + 1) % 256, levels_assign levels cash .high)
              else
                .ok ((bill_type_number + 1) % 256, levels_assign levels cash .normal))
        state = .ok final) :
    ∃ number levels, state = .ok (number, levels)
      ∧ (number + 8 < 256 →
        final.1 = number + 8
          ∧ (∀ k c, k < 8 → bill_types_by_numbers.lookup (number + k) = some c →
            final.2.lookup c =
              some (if is_bit_set byte ((number + k) % 8) then .high else .normal))
          ∧ (∀ c, (∀ k, k < 8 → bill_types_by_numbers.lookup (number + k) ≠ some c) →
            final.2.lookup c = levels.lookup c)) := by
  cases state with
  | error e =>
    rw [security_fold_error] at hfold
    exact absurd hfold (by simp)
  | ok start =>
    obtain ⟨number, levels⟩ := start
    refine ⟨number, levels, rfl, fun hbound => ?_⟩
    have h := security_inner_fold bill_types_by_numbers hdistinct byte (List.range byte_size)
      number levels (by rw [List.length_range]; exact hbound) final hfold
    rw [List.length_range] at h
    exact h

theorem except_map_eq_ok {α β : Type} (f : α → β) (x : Except error α) (y : β)
    (h : x.map f = .ok y) : ∃ z, x = .ok z ∧ f z = y := by
  cases x with
  | error e => exact absurd h (by simp [Except.map])
  | ok z => exact ⟨z, rfl, by simpa [Except.map] using h⟩

theorem decode_security_levels_lookup (bill_types_by_numbers : byte_map cash_type)
    (hdistinct : ∀ i j c, bill_types_by_numbers.lookup i = some c →
      bill_types_by_numbers.lookup j = some c → i = j)
    (response : List Nat) (hlength : response.length = 6)
    (levels : List (cash_type × bill_security_level))
    (hdecode : decode_security_levels bill_types_by_numbers response = .ok levels)
    (n : Nat) (hn : n < 24) (c : cash_type)
    (hc : bill_types_by_numbers.lookup n = some c) :
    levels.lookup c =
      some (if is_bit_set (response.getD (5 - n / 8) 0) (n % 8) then .high else .normal) := by
  match response, hlength with
  | [r0, r1, r2, r3, r4, r5], _ =>
    unfold decode_security_levels at hdecode
    simp only [List.reverse_cons, List.reverse_nil, List.nil_append, List.cons_append,
      List.take_succ_cons, List.take_zero, List.foldl_cons, List.foldl_nil] at hdecode
    obtain ⟨final3, hfold3, hlevels⟩ := except_map_eq_ok _ _ _ hdecode
    obtain ⟨number2, levels2, hfold2, hthird⟩ :=
      security_byte_fold bill_types_by_numbers hdistinct r3 _ final3 hfold3
    obtain ⟨number1, levels1, hfold1, hsecond⟩ :=
      security_byte_fold bill_types_by_numbers hdistinct r4 _ (number2, levels2) hfold2
    obtain ⟨number0, levels0, hstart, hfirst⟩ :=
      security_byte_fold bill_types_by_numbers hdistinct r5 _ (number1, levels1) hfold1
    have hzero : number0 = 0 := by
      have := Except.ok.inj hstart
      exact (congrArg Prod.fst this).symm
    subst hzero
    obtain ⟨hn1, hset1, hkeep1⟩ := hfirst (by decide)
    simp only at hn1 hset1 hkeep1
    subst hn1
    obtain ⟨hn2, hset2, hkeep2⟩ := hsecond (by decide)
    simp only at hn2 hset2 hkeep2
    subst hn2
    obtain ⟨hn3, hset3, hkeep3⟩ := hthird (by decide)
    rw [← hlevels]
    simp only [Nat.zero_add] at hset1 hset2 hset3 hkeep1 hkeep2 hkeep3
    by_cases h0 : n < 8
    · have hindex : 5 - n / 8 = 5 := by omega
      rw [hindex]
      rw [hkeep3 c (fun k hk hk2 => by have := hdistinct _ _ _ hk2 hc; omega),
        hkeep2 c (fun k hk hk2 => by have := hdistinct _ _ _ hk2 hc; omega)]
      exact hset1 n c h0 hc
    · by_cases h1 : n < 16
      · have hindex : 5 - n / 8 = 4 := by omega
        have hn8 : 8 + (n - 8) = n := by omega
        rw [hindex]
        rw [hkeep3 c (fun k hk hk2 => by have := hdistinct _ _ _ hk2 hc; omega)]
        have h := hset2 (n - 8) c (by omega) (by rw [hn8]; exact hc)
        rw [hn8] at h
        exact h
      · have hindex : 5 - n / 8 = 3 := by omega
        have hn16 : 8 + 8 + (n - 16) = n := by omega
        rw [hindex]
        have h := hset3 (n - 16) c (by omega) (by rw [hn16]; exact hc)
        rw [hn16] at h
        exact h


theorem security_inner_fold_ok (bill_types_by_numbers : byte_map cash_type) (byte : Nat)
    (items : List Nat) (number : Nat) (levels : List (cash_type × bill_security_level))
    (hbound : number + items.length < 256)
    (hfull : ∀ k, k < items.length → ∃ c, bill_types_by_numbers.lookup (number + k) = some c) :
    ∃ final_levels,
      items.foldl
        (fun (state : Except error (Nat × List (cash_type × bill_security_level))) _ =>
          match state with
          | .error e => .error e
          | .ok (bill_type_number, levels) =>
            match map_at bill_types_by_numbers bill_type_number with
            | .error e => .error e
            | .ok cash =>
              if is_bit_set byte (bill_type_number % byte_size) then
                .ok ((bill_type_number + 1) % 256, levels_assign levels cash .high)
              else
                .ok ((bill_type_number + 1) % 256, levels_assign levels cash .normal))
        (.ok (number, levels)) = .ok (number + items.length, final_levels) := by
  induction items generalizing number levels with
  | nil => exact ⟨levels, rfl⟩
  | cons item rest ih =>
    simp only [List.length_cons] at hbound hfull ⊢
    have hmod : (number + 1) % 256 = number + 1 := Nat.mod_eq_of_lt (by omega)
    obtain ⟨cash, hcash⟩ := hfull 0 (by omega)
    have hat : map_at bill_types_by_numbers number = .ok cash := by
      rw [map_at, ← Nat.add_zero number, hcash]
    rw [List.foldl_cons]
    simp only [hat, hmod]
    have hstate : (if is_bit_set byte (number % byte_size) = true then
          (Except.ok (number + 1, levels_assign levels cash .high) :
            Except error (Nat × List (cash_type × bill_security_level)))
        else .ok (number + 1, levels_assign levels cash .normal))
        = .ok (number + 1, levels_assign levels cash
            (if is_bit_set byte (number % byte_size) then .high else .normal)) := by
      split <;> rfl
    rw [hstate]
    obtain ⟨final_levels, hfinal⟩ := ih (number + 1) _ (by omega)
      (fun k hk => by
        obtain ⟨c, hc⟩ := hfull (k + 1) (by omega)
        exact ⟨c, by rw [Nat.add_assoc, Nat.add_comm 1 k]; exact hc⟩)
    exact ⟨final_levels, by rw [hfinal, Nat.add_assoc, Nat.add_comm 1 rest.length]⟩

theorem security_byte_fold_ok (bill_types_by_numbers : byte_map cash_type) (byte : Nat)
    (number : Nat) (levels : List (cash_type × bill_security_level))
    (hbound : number + byte_size < 256)
    (hfull : ∀ k, k < byte_size → ∃ c, bill_types_by_numbers.lookup (number + k) = some c) :
    ∃ final_levels,
      (List.range byte_size).foldl
        (fun (state : Except error (Nat × List (cash_type × bill_security_level))) _ =>
          match state with
          | .error e => .error e
          | .ok (bill_type_number, levels) =>
            match map_at bill_types_by_numbers bill_type_number with
            | .error e => .error e
            | .ok cash =>
              if is_bit_set byte (bill_type_number % byte_size) then
                .ok ((bill_type_number + 1) % 256, levels_assign levels cash .high)
              else
                .ok ((bill_type_number + 1) % 256, levels_assign levels cash .normal))
        (.ok (number, levels)) = .ok (number + byte_size, final_levels) := by
  have h := security_inner_fold_ok bill_types_by_numbers byte (List.range byte_size) number
    levels (by rw [List.length_range]; exact hbound)
    (by rw [List.length_range]; exact hfull)
  rw [List.length_range] at h
  exact h

theorem decode_security_levels_ok (bill_types_by_numbers : byte_map cash_type)
    (response : List Nat) (hlength : response.length = 6)
    (hfull : ∀ n, n < 24 → ∃ c, bill_types_by_numbers.lookup n = some c) :
    ∃ levels, decode_security_levels bill_types_by_numbers response = .ok levels := by
  match response, hlength with
  | [r0, r1, r2, r3, r4, r5], _ =>
    obtain ⟨levels1, hfold1⟩ := security_byte_fold_ok bill_types_by_numbers r5 0 [] (by decide)
      (fun k hk => hfull (0 + k) (by simp only [byte_size] at hk; omega))
    obtain ⟨levels2, hfold2⟩ := security_byte_fold_ok bill_types_by_numbers r4 (0 + byte_size)
      levels1 (by decide)
      (fun k hk => hfull (0 + byte_size + k) (by simp only [byte_size] at hk ⊢; omega))
    obtain ⟨levels3, hfold3⟩ := security_byte_fold_ok bill_types_by_numbers r3
      (0 + byte_size + byte_size) levels2 (by decide)
      (fun k hk =>
        hfull (0 + byte_size + byte_size + k) (by simp only [byte_size] at hk ⊢; omega))
    refine ⟨levels3, ?_⟩
    unfold decode_security_levels
    simp only [List.reverse_cons, List.reverse_nil, List.nil_append, List.cons_append,
      List.take_succ_cons, List.take_zero, List.foldl_cons, List.foldl_nil]
    rw [hfold1, hfold2, hfold3]
    rfl


set_option maxRecDepth 100000 in
/-- C20 (as stated, refuted): with the table `0 ↦ (RUB, 500)`, the response
`00 00 00 00 00 01` (bit 0 of `r[5]` set) makes the handler of
`get_enabled_cash_types` return the empty set and the response
`00 00 01 00 00 00` (bit 0 of `r[2]` set) makes it return {(RUB, 500)}:
the enable mask is read in the first three bytes. With a table that fills
the 24 slots, `get_cash_types_security_levels` maps the cash type at
index 0 to High for the first response and to Normal for the second: the
security mask is read in the last three bytes. -/
theorem get_status_masks_swapped :
    decode_enabled_bill_types table_rub_500 [0, 0, 0, 0, 0, 1] = []
      ∧ decode_enabled_bill_types table_rub_500 [0, 0, 1, 0, 0, 0] = [⟨[82, 85, 66], 500⟩]
      ∧ (get_enabled_bill_types_handler scripted [] 7
          (bill_validator.polling (script.mk [.ok [0, 0, 0, 0, 0, 1]] []) table_rub_500 []
            {})).2.trace
        = [event.device ⟨device_command_code.get_status, []⟩, event.promise 7 (.cash_types [])]
      ∧ (decode_security_levels full_bill_table [0, 0, 0, 0, 0, 1]).map
          (fun levels => levels.lookup ⟨[82, 85, 66], 100⟩) = .ok (some .high)
      ∧ (decode_security_levels full_bill_table [0, 0, 1, 0, 0, 0]).map
          (fun levels => levels.lookup ⟨[82, 85, 66], 100⟩) = .ok (some .normal) := by
  decide

/-- C20 (amended): when the device answers Get Status with a response `r`
of 6 bytes, the handler of `get_enabled_cash_types` completes the promise
with exactly the cash types at the table indices `n` in 0..23 whose bit
`n mod 8` is set in byte `r[2 - n div 8]` (the enable mask is the first
three bytes); the handler of `get_cash_types_security_levels` reads the
last three bytes: it yields a map for a table that fills the 24 slots, and
whenever it yields a map, for a table with pairwise distinct cash types,
the cash type at index `n` is mapped to High when bit `n mod 8` of byte
`r[5 - n div 8]` is set and to Normal otherwise. A response whose length is
not 6 makes both handlers fail with "invalid data received" after storing
"command processing error" in the promise. -/
theorem get_status_decoding {σ : Type} (env : environment σ) (data : List Nat) (result : Nat)
    (self : bill_validator σ) (response : List Nat) (world : σ)
    (hexchange : env.get_command_result ⟨device_command_code.get_status, data⟩ self.world
      = (.ok response, world)) :
    (response.length = 6 →
      get_enabled_bill_types_handler env data result self =
          (.ok (),
            complete result
              (.cash_types (decode_enabled_bill_types self.bill_types_by_numbers response))
              { self with
                world := world
                trace := self.trace ++ [event.device ⟨device_command_code.get_status, data⟩] })
        ∧ (∀ c, c ∈ decode_enabled_bill_types self.bill_types_by_numbers response ↔
            ∃ n, n < 24 ∧ is_bit_set (response.getD (2 - n / 8) 0) (n % 8) = true
              ∧ self.bill_types_by_numbers.lookup n = some c)
        ∧ ((∀ n, n < 24 → ∃ c, self.bill_types_by_numbers.lookup n = some c) →
            ∃ levels, decode_security_levels self.bill_types_by_numbers response = .ok levels)
        ∧ (∀ levels, decode_security_levels self.bill_types_by_numbers response = .ok levels →
            get_bill_types_security_levels_handler env data result self =
                (.ok (),
                  complete result (.security_levels levels)
                    { self with
                      world := world
                      trace := self.trace ++
                        [event.device ⟨device_command_code.get_status, data⟩] })
              ∧ ((∀ i j c, self.bill_types_by_numbers.lookup i = some c →
                    self.bill_types_by_numbers.lookup j = some c → i = j) →
                  ∀ n c, n < 24 → self.bill_types_by_numbers.lookup n = some c →
                    levels.lookup c =
                      some (if is_bit_set (response.getD (5 - n / 8) 0) (n % 8) then .high
                        else .normal))))
      ∧ (response.length ≠ 6 →
        get_enabled_bill_types_handler env data result self =
            (.error .invalid_data_received,
              complete result (.exception .command_processing_error)
                { self with
                  world := world
                  trace := self.trace ++
                    [event.device ⟨device_command_code.get_status, data⟩] })
          ∧ get_bill_types_security_levels_handler env data result self =
            (.error .invalid_data_received,
              complete result (.exception .command_processing_error)
                { self with
                  world := world
                  trace := self.trace ++
                    [event.device ⟨device_command_code.get_status, data⟩] })) := by
  constructor
  · intro hlength
    refine ⟨?_, decode_enabled_bill_types_mem _ response hlength, ?_, ?_⟩
    · simp only [get_enabled_bill_types_handler, call_get_command_result, hexchange,
        get_status_result_data_size, hlength, ne_eq, not_true_eq_false, if_false]
    · exact decode_security_levels_ok _ response hlength
    · intro levels hdecode
      constructor
      · simp only [get_bill_types_security_levels_handler, call_get_command_result, hexchange,
          get_status_result_data_size, hlength, ne_eq, not_true_eq_false, if_false, hdecode]
      · intro hdistinct n c hn hc
        exact decode_security_levels_lookup _ hdistinct response hlength levels hdecode n hn c hc
  · intro hlength
    constructor
    · simp only [get_enabled_bill_types_handler, call_get_command_result, hexchange,
        get_status_result_data_size, hlength, ne_eq, not_false_eq_true, if_true, handler_catch]
      rfl
    · simp only [get_bill_types_security_levels_handler, call_get_command_result, hexchange,
        get_status_result_data_size, hlength, ne_eq, not_false_eq_true, if_true, handler_catch]
      rfl

set_option maxRecDepth 100000 in
/-- C20 (amended), at a concrete input: the table `0 ↦ (RUB, 500)` and the
response `00 00 01 00 00 00`. -/
theorem get_status_decoding_witness :
    get_enabled_bill_types_handler scripted [] 7
        (bill_validator.polling (script.mk [.ok [0, 0, 1, 0, 0, 0]] []) table_rub_500 [] {}) =
      (.ok (),
        complete 7
          (.cash_types (decode_enabled_bill_types table_rub_500 [0, 0, 1, 0, 0, 0]))
          { bill_validator.polling (script.mk [.ok [0, 0, 1, 0, 0, 0]] []) table_rub_500 [] {}
            with
            world := script.mk [] []
            trace := [] ++ [event.device ⟨device_command_code.get_status, []⟩] })
      ∧ decode_enabled_bill_types table_rub_500 [0, 0, 1, 0, 0, 0] = [⟨[82, 85, 66], 500⟩] :=
  ⟨((get_status_decoding scripted [] 7
      (bill_validator.polling (script.mk [.ok [0, 0, 1, 0, 0, 0]] []) table_rub_500 [] {})
      [0, 0, 1, 0, 0, 0] (script.mk [] []) (by decide)).1 (by decide)).1,
    by decide⟩


/-! ## C26: the order on cash types -/

theorem string_lt_iff_lt (a b : List Nat) : string_lt a b = true ↔ List.lt a b := by
  induction a generalizing b with
  | nil =>
    cases b with
    | nil =>
      simp only [string_lt, Bool.false_eq_true, false_iff]
      intro h
      cases h
    | cons y ys =>
      simp only [string_lt, true_iff]
      exact List.lt.nil y ys
  | cons x xs ih =>
    cases b with
    | nil =>
      simp only [string_lt, Bool.false_eq_true, false_iff]
      intro h
      cases h
    | cons y ys =>
      rw [string_lt]
      by_cases hxy : x < y
      · simp only [hxy, if_true, true_iff]
        exact List.lt.head xs ys hxy
      · by_cases hyx : y < x
        · simp only [hxy, hyx, if_true, if_false, Bool.false_eq_true, false_iff]
          intro h
          cases h with
          | head _ _ h => exact hxy h
          | tail _ h2 _ => exact h2 hyx
        · simp only [hxy, hyx, if_false]
          rw [ih ys]
          constructor
          · intro h
            exact List.lt.tail hxy hyx h
          · intro h
            cases h with
            | head _ _ h => exact absurd h hxy
            | tail _ _ h => exact h

theorem string_lt_trans (a b c : List Nat)
    (hab : string_lt a b = true) (hbc : string_lt b c = true) : string_lt a c = true := by
  induction a generalizing b c with
  | nil =>
    cases b with
    | nil => simp [string_lt] at hab
    | cons y ys =>
      cases c with
      | nil => simp [string_lt] at hbc
      | cons z zs => rfl
  | cons x xs ih =>
    cases b with
    | nil => simp [string_lt] at hab
    | cons y ys =>
      cases c with
      | nil => simp [string_lt] at hbc
      | cons z zs =>
        rw [string_lt] at hab hbc ⊢
        by_cases hxy : x < y
        · by_cases hyz : y < z
          · have hxz : x < z := by omega
            simp [hxz]
          · by_cases hzy : z < y
            · simp [hyz, hzy] at hbc
            · have hxz : x < z := by omega
              simp [hxz]
        · by_cases hyx : y < x
          · simp [hxy, hyx] at hab
          · have hx : x = y := by omega
            subst hx
            simp only [hxy, if_false] at hab
            by_cases hxz : x < z
            · simp [hxz]
            · by_cases hzx : z < x
              · simp [hxz, hzx] at hbc
              · simp only [hxz, hzx, if_false] at hbc ⊢
                exact ih ys zs hab hbc

theorem cash_type_lt_iff (a b : cash_type) :
    cash_type.lt a b = true ↔
      string_lt a.currency_code b.currency_code = true
        ∨ (a.currency_code = b.currency_code ∧ a.denomination < b.denomination) := by
  unfold cash_type.lt
  by_cases hcode : a.currency_code = b.currency_code
  · have hne : (a.currency_code != b.currency_code) = false := by simpa using hcode
    simp only [hne, Bool.false_eq_true, if_false, decide_eq_true_eq]
    rw [hcode, string_lt_irrefl]
    simp
  · have hne : (a.currency_code != b.currency_code) = true := by simpa using hcode
    simp only [hne, if_true]
    simp [hcode]

theorem cash_type_lt_trans (a b c : cash_type)
    (hab : cash_type.lt a b = true) (hbc : cash_type.lt b c = true) :
    cash_type.lt a c = true := by
  rw [cash_type_lt_iff] at hab hbc ⊢
  rcases hab with hab | ⟨hab1, hab2⟩
  · rcases hbc with hbc | ⟨hbc1, hbc2⟩
    · exact Or.inl (string_lt_trans _ _ _ hab hbc)
    · exact Or.inl (by rw [← hbc1]; exact hab)
  · rcases hbc with hbc | ⟨hbc1, hbc2⟩
    · exact Or.inl (by rw [hab1]; exact hbc)
    · exact Or.inr ⟨hab1.trans hbc1, by omega⟩

theorem cash_type_lt_asymm (a b : cash_type) (hab : cash_type.lt a b = true) :
    cash_type.lt b a = false := by
  cases hba : cash_type.lt b a with
  | false => rfl
  | true =>
    have h := cash_type_lt_trans a b a hab hba
    rw [cash_type_lt_irrefl] at h
    exact absurd h (by simp)

theorem cash_type_eq_iff (a b : cash_type) : cash_type.eq a b = true ↔ a = b := by
  obtain ⟨code_a, value_a⟩ := a
  obtain ⟨code_b, value_b⟩ := b
  simp [cash_type.eq]

/-- C26: `operator<` on `cash_type` is lexicographic on the currency code
(itself compared lexicographically, as `std::string` does) and then
numeric on the denomination; for all `a`, `b` exactly one of `a < b`,
`a == b`, `b < a` holds; `<` is transitive; `a == b` holds exactly when
both fields are equal; `a != b` is the negation of `a == b`; and `a > b`
is `b < a`. -/
theorem cash_type_order (a b c : cash_type) :
    (cash_type.lt a b = true ↔
        string_lt a.currency_code b.currency_code = true
          ∨ (a.currency_code = b.currency_code ∧ a.denomination < b.denomination))
      ∧ (string_lt a.currency_code b.currency_code = true ↔
        List.lt a.currency_code b.currency_code)
      ∧ ((cash_type.lt a b = true ∧ cash_type.eq a b = false ∧ cash_type.lt b a = false)
        ∨ (cash_type.lt a b = false ∧ cash_type.eq a b = true ∧ cash_type.lt b a = false)
        ∨ (cash_type.lt a b = false ∧ cash_type.eq a b = false ∧ cash_type.lt b a = true))
      ∧ (cash_type.lt a b = true → cash_type.lt b c = true → cash_type.lt a c = true)
      ∧ (cash_type.eq a b = true ↔
        a.currency_code = b.currency_code ∧ a.denomination = b.denomination)
      ∧ cash_type.ne a b = !cash_type.eq a b
      ∧ cash_type.gt a b = cash_type.lt b a := by
  refine ⟨cash_type_lt_iff a b, string_lt_iff_lt _ _, ?_, cash_type_lt_trans a b c, ?_, rfl, ?_⟩
  · cases hab : cash_type.lt a b with
    | true =>
      refine Or.inl ⟨rfl, ?_, cash_type_lt_asymm a b hab⟩
      cases heq : cash_type.eq a b with
      | false => rfl
      | true =>
        rw [(cash_type_eq_iff a b).1 heq, cash_type_lt_irrefl] at hab
        exact absurd hab (by simp)
    | false =>
      cases hba : cash_type.lt b a with
      | true =>
        refine Or.inr (Or.inr ⟨rfl, ?_, rfl⟩)
        cases heq : cash_type.eq a b with
        | false => rfl
        | true =>
          rw [(cash_type_eq_iff a b).1 heq, cash_type_lt_irrefl] at hba
          exact absurd hba (by simp)
      | false =>
        exact Or.inr (Or.inl ⟨rfl, (cash_type_eq_iff a b).2 (cash_type_lt_trichotomy a b hab hba),
          rfl⟩)
  · obtain ⟨code_a, value_a⟩ := a
    obtain ⟨code_b, value_b⟩ := b
    simp [cash_type.eq]
  · unfold cash_type.gt cash_type.lt
    by_cases hcode : a.currency_code = b.currency_code
    · have h1 : (a.currency_code != b.currency_code) = false := by simpa using hcode
      have h2 : (b.currency_code != a.currency_code) = false := by simpa using hcode.symm
      simp only [h1, h2, Bool.false_eq_true, if_false, gt_iff_lt]
    · have h1 : (a.currency_code != b.currency_code) = true := by simpa using hcode
      have h2 : (b.currency_code != a.currency_code) = true := by
        simpa using (fun h => hcode h.symm)
      simp only [h1, h2, if_true]


/-! ## C30: the payload size the frame parser computes -/

theorem receive_frame_length_error (port port1 : serial_port) (header : List Nat) (size : Nat)
    (h1 : port.read header_size = some (header, port1))
    (h2 : header.getD sync_offset 0 = sync)
    (h3 : (header.getD lng_offset 0 + 2 ^ 64 - header_size - sizeof_crc16) % 2 ^ 64 = size)
    (h4 : size > vector_max_size) :
    receive_frame port = (.error .length_error, port1) := by
  unfold receive_frame
  simp only [h1, h2, h3, h4, ne_eq, not_true_eq_false, if_false, if_true]

theorem payload_size_short (length : Nat) (hlength : length < 5) :
    (length + 2 ^ 64 - header_size - sizeof_crc16) % 2 ^ 64 = 2 ^ 64 - 5 + length := by
  simp only [header_size, sizeof_crc16]
  omega

theorem receive_frame_short_length (sync_byte address length : Nat) (rest : List Nat)
    (output : List (List Nat)) (hsync : sync_byte = sync) (hlength : length < 5) :
    receive_frame ⟨[sync_byte, address, length] ++ rest, output⟩ =
      (.error .length_error, ⟨rest, output⟩) := by
  subst hsync
  exact receive_frame_length_error _ _ _ _
    (read_append [sync, address, length] rest output header_size rfl)
    rfl (payload_size_short length hlength)
    (by simp only [vector_max_size]; omega)

set_option maxRecDepth 100000 in
/-- C30 (the code at the failing input): for a header `02 a L` with
`L < 5` the payload size the parser computes, `L - 3 - 2` in
`std::size_t`, wraps to `2 ^ 64 - 5 + L`, far above 250; `payload.resize`
is called with it and throws `std::length_error`, which ends the frame
parser, and so `get_command_result` and `send_command` (evaluated for the
header `02 03 04`). For `L` in 5..255 the size is `L - 5`, at most 250. -/
theorem payload_size_wraps_below_five :
    (∀ length, length < 5 →
        (length + 2 ^ 64 - header_size - sizeof_crc16) % 2 ^ 64 = 2 ^ 64 - 5 + length
          ∧ 250 < (length + 2 ^ 64 - header_size - sizeof_crc16) % 2 ^ 64)
      ∧ (∀ (address length : Nat) (rest : List Nat) (output : List (List Nat)), length < 5 →
        receive_frame ⟨[0x02, address, length] ++ rest, output⟩ =
          (.error .length_error, ⟨rest, output⟩))
      ∧ get_command_result ⟨0x33, []⟩ ⟨[0x02, 0x03, 0x04, 0x00, 0x00, 0x00, 0x00], []⟩ =
        (.error .length_error, ⟨[0x00, 0x00, 0x00, 0x00], [[0x02, 0x03, 0x06, 0x33, 0xDA, 0x81]]⟩)
      ∧ send_command ⟨0x35, []⟩ ⟨[0x02, 0x03, 0x04, 0x00, 0x00, 0x00, 0x00], []⟩ =
        (.error .length_error, ⟨[0x00, 0x00, 0x00, 0x00], [[0x02, 0x03, 0x06, 0x35, 0xEC, 0xE4]]⟩)
      ∧ (∀ length, 5 ≤ length → length ≤ 255 →
        (length + 2 ^ 64 - header_size - sizeof_crc16) % 2 ^ 64 = length - 5
          ∧ (length + 2 ^ 64 - header_size - sizeof_crc16) % 2 ^ 64 ≤ 250) := by
  refine ⟨?_, ?_, by decide, by decide, ?_⟩
  · intro length hlength
    rw [payload_size_short length hlength]
    exact ⟨rfl, by omega⟩
  · intro address length rest output hlength
    exact receive_frame_short_length 0x02 address length rest output rfl hlength
  · intro length h5 h255
    simp only [header_size, sizeof_crc16]
    omega


/-! ## C29: the divisor of the bill-table decoder -/

theorem ten_pow_mod_ne_zero : ∀ e < 64, 10 ^ e % 2 ^ 64 ≠ 0 := by
  decide

theorem decode_bill_table_first_slot_zero_divisor (response : List Nat)
    (hlength : response.length = 120)
    (hused : response.getD 0 0 ≠ 0)
    (hsign : is_bit_set (response.getD 4 0) 7 = true)
    (hexponent : 64 ≤ response.getD 4 0 &&& 0x7F) :
    decode_bill_table response = .error .division_by_zero := by
  have hstep : decode_bill_type response 0 [] = .error .division_by_zero := by
    rw [decode_bill_type_negative response 0 [] hused hsign,
      if_pos (ten_pow_mod_eq_zero _ hexponent)]
  unfold decode_bill_table
  rw [if_neg (by simp [hlength, get_bill_table_result_data_size, bill_types_count_max, bill_type_record_size])]
  simp only [bill_types_count_max, decode_bill_table_loop, hstep]

set_option maxRecDepth 100000 in
/-- C29 (the code at the failing input): the divisor `power(10, e)` of the
negative-exponent branch, computed in 64-bit unsigned arithmetic, is zero
exactly for the magnitudes `e` in 64..127. A 120-byte response whose
slot 0 holds a record with non-zero byte 0, the sign bit set and such a
magnitude makes the decoder divide by zero (evaluated for the record
`01 'U' 'S' 'D' FF`, also through `request_bill_table`). -/
theorem power_of_ten_wraps_to_zero :
    (∀ e, e ≤ 127 → (power currency_base e = .ok 0 ↔ 64 ≤ e))
      ∧ (∀ response : List Nat, response.length = 120 → response.getD 0 0 ≠ 0 →
          is_bit_set (response.getD 4 0) 7 = true → 64 ≤ response.getD 4 0 &&& 0x7F →
          decode_bill_table response = .error .division_by_zero)
      ∧ decode_bill_table ([1, 85, 83, 68, 0xFF] ++ List.replicate 115 0)
        = .error .division_by_zero
      ∧ (request_bill_table scripted
          (bill_validator.start
            (script.mk [.ok ([1, 85, 83, 68, 0xFF] ++ List.replicate 115 0)] []) [])).1
        = .error .division_by_zero := by
  refine ⟨?_, decode_bill_table_first_slot_zero_divisor, by decide, by decide⟩
  intro e _
  rw [power_currency_base]
  constructor
  · intro h
    by_contra hlt
    exact ten_pow_mod_ne_zero e (by omega) (Except.ok.inj h)
  · intro h
    rw [ten_pow_mod_eq_zero e h]


/-! ## C28: the writes of `set_enabled_cash_types` into its buffer -/

theorem set_enabled_cash_types_loop_high_slot (bill_types_by_numbers : byte_map cash_type)
    (cash : cash_type) (rest : List cash_type) (command_data : List Nat) (number : Nat)
    (hfind : find_bill_type bill_types_by_numbers cash = some number)
    (hlow : 8 ≤ number) (hhigh : number < 24) (hlength : command_data.length = 6) :
    ∃ data, data.length = 6
      ∧ set_enabled_cash_types_loop bill_types_by_numbers (cash :: rest) command_data
        = set_enabled_cash_types_loop bill_types_by_numbers rest data := by
  have hmod : number % 256 = number := Nat.mod_eq_of_lt (by omega)
  rw [set_enabled_cash_types_loop, hfind]
  simp only [hmod, byte_size]
  cases hfirst : set_bit_at command_data (3 - ((number / 8 : Nat) : Int)) (number % 8) with
  | error e =>
    unfold set_bit_at at hfirst
    rw [if_pos ⟨by omega, by omega⟩] at hfirst
    exact absurd hfirst (by simp)
  | ok data1 =>
    have hdata1 := set_bit_at_length _ _ _ _ hfirst
    simp only
    cases hsecond : set_bit_at data1 (3 - ((number / 8 : Nat) : Int) + 3) (number % 8) with
    | error e =>
      unfold set_bit_at at hsecond
      rw [if_pos ⟨by omega, by omega⟩] at hsecond
      exact absurd hsecond (by simp)
    | ok data2 =>
      have hdata2 := set_bit_at_length _ _ _ _ hsecond
      exact ⟨data2, by omega, rfl⟩

theorem set_enabled_cash_types_loop_in_bounds (bill_types_by_numbers : byte_map cash_type)
    (enabled_bill_types : List cash_type) (command_data : List Nat)
    (hlength : command_data.length = 6)
    (hfound : ∀ cash ∈ enabled_bill_types, ∃ number,
      find_bill_type bill_types_by_numbers cash = some number ∧ 8 ≤ number ∧ number < 24) :
    ∃ data, data.length = 6
      ∧ set_enabled_cash_types_loop bill_types_by_numbers enabled_bill_types command_data
        = .ok data := by
  induction enabled_bill_types generalizing command_data with
  | nil => exact ⟨command_data, hlength, rfl⟩
  | cons cash rest ih =>
    obtain ⟨number, hfind, hlow, hhigh⟩ := hfound cash (List.mem_cons_self _ _)
    obtain ⟨data, hdata, hstep⟩ := set_enabled_cash_types_loop_high_slot bill_types_by_numbers
      cash rest command_data number hfind hlow hhigh hlength
    rw [hstep]
    exact ih data hdata (fun c hc => hfound c (List.mem_cons_of_mem _ hc))

theorem set_enabled_cash_types_loop_out_of_bounds (bill_types_by_numbers : byte_map cash_type)
    (enabled_bill_types : List cash_type) (command_data : List Nat)
    (hlength : command_data.length = 6)
    (hfound : ∀ cash ∈ enabled_bill_types, ∃ number,
      find_bill_type bill_types_by_numbers cash = some number ∧ number < 24)
    (hlow : ∃ cash ∈ enabled_bill_types, ∃ number,
      find_bill_type bill_types_by_numbers cash = some number ∧ number < 8) :
    set_enabled_cash_types_loop bill_types_by_numbers enabled_bill_types command_data
      = .error .out_of_bounds := by
  induction enabled_bill_types generalizing command_data with
  | nil =>
    obtain ⟨cash, hcash, _⟩ := hlow
    exact absurd hcash (List.not_mem_nil cash)
  | cons cash rest ih =>
    obtain ⟨number, hfind, hhigh⟩ := hfound cash (List.mem_cons_self _ _)
    by_cases hnumber : number < 8
    · exact set_enabled_cash_types_loop_low_slot bill_types_by_numbers cash rest command_data
        number hfind hnumber hlength
    · obtain ⟨data, hdata, hstep⟩ := set_enabled_cash_types_loop_high_slot
        bill_types_by_numbers cash rest command_data number hfind (by omega) hhigh hlength
      rw [hstep]
      refine ih data hdata (fun c hc => hfound c (List.mem_cons_of_mem _ hc)) ?_
      obtain ⟨low, hmem, n, hn, hn8⟩ := hlow
      rcases List.mem_cons.1 hmem with heq | hrest
      · subst heq
        rw [hfind] at hn
        exact absurd (Option.some.inj hn ▸ hn8) hnumber
      · exact ⟨low, hrest, n, hn, hn8⟩

set_option maxRecDepth 100000 in
/-- C28 (the code at the failing input): for a bill type number below 8
the second write of `set_enabled_cash_types` goes to the index
`3 - n / 8 + 3 = 6` of its 6-byte buffer, outside it. For every table and
every set of supported cash types with numbers in 0..23, the call writes
outside the buffer as soon as one cash type of the set has a number
below 8, and all its writes are inside the buffer when all the numbers
are in 8..23. Evaluated for the table `0 ↦ (RUB, 500)` and the set
{(RUB, 500)}. -/
theorem enable_buffer_overrun :
    (∀ (number : Nat) (command_data : List Nat), number < 8 → command_data.length = 6 →
        (3 - ((number / byte_size : Nat) : Int) + 3 = 6)
          ∧ set_bit_at command_data (3 - ((number / byte_size : Nat) : Int) + 3)
              (number % byte_size) = .error .out_of_bounds)
      ∧ (∀ (bill_types_by_numbers : byte_map cash_type) (enabled_bill_types : List cash_type),
          (∀ cash ∈ enabled_bill_types, ∃ number,
            find_bill_type bill_types_by_numbers cash = some number ∧ number < 24) →
          (∃ cash ∈ enabled_bill_types, ∃ number,
            find_bill_type bill_types_by_numbers cash = some number ∧ number < 8) →
          set_enabled_cash_types_loop bill_types_by_numbers enabled_bill_types
              (List.replicate enable_bill_types_command_data_size 0)
            = .error .out_of_bounds)
      ∧ (∀ (bill_types_by_numbers : byte_map cash_type) (enabled_bill_types : List cash_type),
          (∀ cash ∈ enabled_bill_types, ∃ number,
            find_bill_type bill_types_by_numbers cash = some number
              ∧ 8 ≤ number ∧ number < 24) →
          ∃ data, data.length = 6
            ∧ set_enabled_cash_types_loop bill_types_by_numbers enabled_bill_types
                (List.replicate enable_bill_types_command_data_size 0)
              = .ok data)
      ∧ set_enabled_cash_types_loop table_rub_500 [⟨[82, 85, 66], 500⟩]
          (List.replicate enable_bill_types_command_data_size 0)
        = .error .out_of_bounds := by
  refine ⟨?_, ?_, ?_, by decide⟩
  · intro number command_data hnumber hlength
    have hindex : (3 - ((number / byte_size : Nat) : Int) + 3 = 6) := by
      simp only [byte_size]; omega
    refine ⟨hindex, ?_⟩
    rw [hindex]
    unfold set_bit_at
    rw [if_neg (by rw [hlength]; decide)]
  · intro bill_types_by_numbers enabled_bill_types hfound hlow
    exact set_enabled_cash_types_loop_out_of_bounds bill_types_by_numbers enabled_bill_types _
      (by simp [enable_bill_types_command_data_size]) hfound hlow
  · intro bill_types_by_numbers enabled_bill_types hfound
    exact set_enabled_cash_types_loop_in_bounds bill_types_by_numbers enabled_bill_types _
      (by simp [enable_bill_types_command_data_size]) hfound


/-! ## C21: the security levels of a table with unused slots -/

theorem security_inner_fold_missing (bill_types_by_numbers : byte_map cash_type) (byte : Nat)
    (items : List Nat) (number : Nat) (levels : List (cash_type × bill_security_level))
    (hbound : number + items.length < 256)
    (hmissing : ∃ k, k < items.length ∧ bill_types_by_numbers.lookup (number + k) = none) :
    items.foldl
        (fun (state : Except error (Nat × List (cash_type × bill_security_level))) _ =>
          match state with
          | .error e => .error e
          | .ok (bill_type_number, levels) =>
            match map_at bill_types_by_numbers bill_type_number with
            | .error e => .error e
            | .ok cash =>
              if is_bit_set byte (bill_type_number % byte_size) then
                .ok ((bill_type_number + 1) % 256, levels_assign levels cash .high)
              else
                .ok ((bill_type_number + 1) % 256, levels_assign levels cash .normal))
        (.ok (number, levels)) = .error .out_of_range := by
  induction items generalizing number levels with
  | nil =>
    obtain ⟨k, hk, _⟩ := hmissing
    exact absurd hk (Nat.not_lt_zero k)
  | cons item rest ih =>
    simp only [List.length_cons] at hbound hmissing
    have hmod : (number + 1) % 256 = number + 1 := Nat.mod_eq_of_lt (by omega)
    rw [List.foldl_cons]
    cases hlookup : bill_types_by_numbers.lookup number with
    | none =>
      have hat : map_at bill_types_by_numbers number = .error .out_of_range := by
        rw [map_at, hlookup]
      simp only [hat]
      exact security_fold_error bill_types_by_numbers byte rest .out_of_range
    | some cash =>
      have hat : map_at bill_types_by_numbers number = .ok cash := by
        rw [map_at, hlookup]
      simp only [hat, hmod]
      have hstate : (if is_bit_set byte (number % byte_size) = true then
            (Except.ok (number + 1, levels_assign levels cash .high) :
              Except error (Nat × List (cash_type × bill_security_level)))
          else .ok (number + 1, levels_assign levels cash .normal))
          = .ok (number + 1, levels_assign levels cash
              (if is_bit_set byte (number % byte_size) then .high else .normal)) := by
        split <;> rfl
      rw [hstate]
      refine ih (number + 1) _ (by omega) ?_
      obtain ⟨k, hk, hnone⟩ := hmissing
      cases k with
      | zero =>
        rw [Nat.add_zero, hlookup] at hnone
        exact absurd hnone (by simp)
      | succ k =>
        exact ⟨k, by omega, by rw [Nat.add_assoc, Nat.add_comm 1 k]; exact hnone⟩

theorem security_byte_fold_missing (bill_types_by_numbers : byte_map cash_type) (byte : Nat)
    (number : Nat) (levels : List (cash_type × bill_security_level))
    (hbound : number + byte_size < 256)
    (hmissing : ∃ k, k < byte_size ∧ bill_types_by_numbers.lookup (number + k) = none) :
    (List.range byte_size).foldl
        (fun (state : Except error (Nat × List (cash_type × bill_security_level))) _ =>
          match state with
          | .error e => .error e
          | .ok (bill_type_number, levels) =>
            match map_at bill_types_by_numbers bill_type_number with
            | .error e => .error e
            | .ok cash =>
              if is_bit_set byte (bill_type_number % byte_size) then
                .ok ((bill_type_number + 1) % 256, levels_assign levels cash .high)
              else
                .ok ((bill_type_number + 1) % 256, levels_assign levels cash .normal))
        (.ok (number, levels)) = .error .out_of_range :=
  security_inner_fold_missing bill_types_by_numbers byte (List.range byte_size) number levels
    (by rw [List.length_range]; exact hbound)
    (by rw [List.length_range]; exact hmissing)

theorem group_full_or_missing (bill_types_by_numbers : byte_map cash_type) (number : Nat) :
    (∀ k, k < byte_size → ∃ c, bill_types_by_numbers.lookup (number + k) = some c)
      ∨ ∃ k, k < byte_size ∧ bill_types_by_numbers.lookup (number + k) = none := by
  by_cases h : ∀ k, k < byte_size → ∃ c, bill_types_by_numbers.lookup (number + k) = some c
  · exact Or.inl h
  · right
    simp only [not_forall] at h
    obtain ⟨k, hk, hnot⟩ := h
    refine ⟨k, hk, ?_⟩
    cases hlookup : bill_types_by_numbers.lookup (number + k) with
    | none => rfl
    | some c => exact absurd ⟨c, hlookup⟩ hnot

theorem decode_security_levels_missing (bill_types_by_numbers : byte_map cash_type)
    (response : List Nat) (hlength : response.length = 6)
    (hmissing : ∃ n, n < 24 ∧ bill_types_by_numbers.lookup n = none) :
    decode_security_levels bill_types_by_numbers response = .error .out_of_range := by
  match response, hlength with
  | [r0, r1, r2, r3, r4, r5], _ =>
    unfold decode_security_levels
    simp only [List.reverse_cons, List.reverse_nil, List.nil_append, List.cons_append,
      List.take_succ_cons, List.take_zero, List.foldl_cons, List.foldl_nil]
    rcases group_full_or_missing bill_types_by_numbers 0 with hfull1 | hmissing1
    · obtain ⟨levels1, hfold1⟩ :=
        security_byte_fold_ok bill_types_by_numbers r5 0 [] (by decide) hfull1
      rw [hfold1]
      rcases group_full_or_missing bill_types_by_numbers (0 + byte_size) with hfull2 | hmissing2
      · obtain ⟨levels2, hfold2⟩ := security_byte_fold_ok bill_types_by_numbers r4
          (0 + byte_size) levels1 (by decide) hfull2
        rw [hfold2]
        have hmissing3 : ∃ k, k < byte_size
            ∧ bill_types_by_numbers.lookup (0 + byte_size + byte_size + k) = none := by
          obtain ⟨n, hn, hnone⟩ := hmissing
          simp only [byte_size] at hfull1 hfull2 ⊢
          by_cases h8 : n < 8
          · obtain ⟨c, hc⟩ := hfull1 n h8
            rw [Nat.zero_add, hnone] at hc
            exact absurd hc (by simp)
          · by_cases h16 : n < 16
            · obtain ⟨c, hc⟩ := hfull2 (n - 8) (by omega)
              rw [show 0 + 8 + (n - 8) = n by omega, hnone] at hc
              exact absurd hc (by simp)
            · exact ⟨n - 16, by omega, by rw [show 0 + 8 + 8 + (n - 16) = n by omega]; exact hnone⟩
        rw [security_byte_fold_missing bill_types_by_numbers r3 _ levels2 (by decide) hmissing3]
        rfl
      · rw [security_byte_fold_missing bill_types_by_numbers r4 _ levels1 (by decide) hmissing2,
          security_fold_error]
        rfl
    · rw [security_byte_fold_missing bill_types_by_numbers r5 0 [] (by decide) hmissing1,
        security_fold_error, security_fold_error]
      rfl

set_option maxRecDepth 100000 in
/-- C21 (the code at the failing input): for a bill table with an unused
slot `get_cash_types_security_levels` does not complete: its handler calls
`bill_types_by_numbers.at(n)` for every `n` in 0..23, and for every 6-byte
Get Status response the first `n` without a bill type makes it throw
`std::out_of_range`; the promise receives "command processing error" and
the exception leaves the handler. Evaluated for the table
`0 ↦ (RUB, 500)` and the response `00 00 00 00 00 00`. -/
theorem security_levels_fail_on_unused_slot :
    (∀ (bill_types_by_numbers : byte_map cash_type) (response : List Nat),
        response.length = 6 → (∃ n, n < 24 ∧ bill_types_by_numbers.lookup n = none) →
        decode_security_levels bill_types_by_numbers response = .error .out_of_range)
      ∧ get_bill_types_security_levels_handler scripted [] 7
          (bill_validator.polling (script.mk [.ok [0, 0, 0, 0, 0, 0]] []) table_rub_500 [] {}) =
        (.error .out_of_range,
          { bill_validator.polling (script.mk [] []) table_rub_500 [] {} with
            trace :=
              [event.device ⟨device_command_code.get_status, []⟩,
               event.promise 7 (.exception .command_processing_error)] })
      ∧ (operate_pass scripted
          (bill_validator.polling (script.mk [.ok [0x14], .ok [0, 0, 0, 0, 0, 0]] [])
            table_rub_500 [⟨.get_bill_types_security_levels, [], 7⟩]
            ⟨device_state_code.idling, 0⟩)).1
        = .error .out_of_range := by
  exact ⟨decode_security_levels_missing, by decide, by decide⟩


/-! ## C22, C24: the payload of Set Security -/

theorem set_bit_lost (byte bit_number : Nat) (hbyte : byte < 256) (hbit : 8 ≤ bit_number) :
    set_bit byte bit_number = byte := by
  unfold set_bit
  apply Nat.eq_of_testBit_eq
  intro i
  rw [show (256 : Nat) = 2 ^ 8 from rfl, Nat.testBit_mod_two_pow, Nat.testBit_or,
    Nat.shiftLeft_eq, Nat.one_mul, Nat.testBit_two_pow]
  by_cases hi : i < 8
  · have hne : ¬ bit_number = i := by omega
    simp [hi, hne]
  · have hfalse : byte.testBit i = false :=
      Nat.testBit_lt_two_pow (Nat.lt_of_lt_of_le hbyte
        (Nat.pow_le_pow_right (by decide : 2 > 0) (by omega : 8 ≤ i)))
    simp [hi, hfalse]

theorem set_cash_types_security_levels_loop_lost (bill_types_by_numbers : byte_map cash_type)
    (security_levels : List (cash_type × bill_security_level))
    (hfound : ∀ entry ∈ security_levels, entry.2 = .high → ∃ number,
      find_bill_type bill_types_by_numbers entry.1 = some number ∧ 8 ≤ number ∧ number < 24) :
    set_cash_types_security_levels_loop bill_types_by_numbers security_levels [0, 0, 0]
      = .ok [0, 0, 0] := by
  induction security_levels with
  | nil => rfl
  | cons entry rest ih =>
    have hrest := ih (fun e he => hfound e (List.mem_cons_of_mem _ he))
    rw [set_cash_types_security_levels_loop]
    by_cases hhigh : entry.2 = .high
    · obtain ⟨number, hfind, hlow, hupper⟩ := hfound entry (List.mem_cons_self _ _) hhigh
      have hmod : number % 256 = number := Nat.mod_eq_of_lt (by omega)
      have hlost : set_bit 0 number = 0 := set_bit_lost 0 number (by decide) hlow
      have hindex : number / 8 = 1 ∨ number / 8 = 2 := by omega
      rw [if_pos hhigh, hfind]
      simp only [hmod, byte_size]
      have hwrite : set_bit_at [0, 0, 0] ((number / 8 : Nat) : Int) number = .ok [0, 0, 0] := by
        rcases hindex with h | h
        · rw [h]
          unfold set_bit_at
          rw [if_pos (by decide)]
          show Except.ok ([0, 0, 0].set 1 (set_bit 0 number)) = _
          rw [hlost]
          rfl
        · rw [h]
          unfold set_bit_at
          rw [if_pos (by decide)]
          show Except.ok ([0, 0, 0].set 2 (set_bit 0 number)) = _
          rw [hlost]
          rfl
      rw [hwrite]
      exact hrest
    · rw [if_neg hhigh]
      exact hrest


theorem find_bill_type_mem (bill_types_by_numbers : byte_map cash_type) (cash : cash_type)
    (number : Nat) (hfind : find_bill_type bill_types_by_numbers cash = some number) :
    ∃ entry ∈ bill_types_by_numbers, entry.1 = number := by
  unfold find_bill_type at hfind
  cases hfound : bill_types_by_numbers.find? (fun p => cash_type.eq p.2 cash) with
  | none =>
    rw [hfound] at hfind
    exact absurd hfind (by simp)
  | some entry =>
    rw [hfound] at hfind
    exact ⟨entry, List.mem_of_find?_eq_some hfound, Option.some.inj hfind⟩

theorem set_cash_types_security_levels_loop_step (bill_types_by_numbers : byte_map cash_type)
    (htable : ∀ entry ∈ bill_types_by_numbers, entry.1 < 24)
    (entry : cash_type × bill_security_level)
    (rest : List (cash_type × bill_security_level)) (command_data : List Nat)
    (hlength : command_data.length = 3) :
    (entry.2 = .high ∧ find_bill_type bill_types_by_numbers entry.1 = none
        ∧ set_cash_types_security_levels_loop bill_types_by_numbers (entry :: rest) command_data
          = .error .cash_type_not_supported)
      ∨ ((entry.2 = .high → find_bill_type bill_types_by_numbers entry.1 ≠ none)
        ∧ ∃ data, data.length = 3
          ∧ set_cash_types_security_levels_loop bill_types_by_numbers (entry :: rest)
              command_data
            = set_cash_types_security_levels_loop bill_types_by_numbers rest data) := by
  rw [set_cash_types_security_levels_loop]
  by_cases hhigh : entry.2 = .high
  · rw [if_pos hhigh]
    cases hfind : find_bill_type bill_types_by_numbers entry.1 with
    | none => exact Or.inl ⟨hhigh, rfl, rfl⟩
    | some number =>
      right
      refine ⟨fun _ => by simp, ?_⟩
      obtain ⟨found, hmem, hnumber⟩ := find_bill_type_mem bill_types_by_numbers entry.1 number hfind
      have hbound : number < 24 := by rw [← hnumber]; exact htable found hmem
      have hmod : number % 256 = number := Nat.mod_eq_of_lt (by omega)
      simp only [hmod, byte_size]
      cases hwrite : set_bit_at command_data ((number / 8 : Nat) : Int) number with
      | error e =>
        unfold set_bit_at at hwrite
        rw [if_pos ⟨by omega, by omega⟩] at hwrite
        exact absurd hwrite (by simp)
      | ok data =>
        have hdata := set_bit_at_length _ _ _ _ hwrite
        exact ⟨data, by omega, rfl⟩
  · rw [if_neg hhigh]
    exact Or.inr ⟨fun h => absurd h hhigh, command_data, hlength, rfl⟩

theorem set_cash_types_security_levels_loop_rejects
    (bill_types_by_numbers : byte_map cash_type)
    (htable : ∀ entry ∈ bill_types_by_numbers, entry.1 < 24)
    (security_levels : List (cash_type × bill_security_level)) (command_data : List Nat)
    (hlength : command_data.length = 3)
    (habsent : ∃ entry ∈ security_levels,
      entry.2 = .high ∧ find_bill_type bill_types_by_numbers entry.1 = none) :
    set_cash_types_security_levels_loop bill_types_by_numbers security_levels command_data
      = .error .cash_type_not_supported := by
  induction security_levels generalizing command_data with
  | nil =>
    obtain ⟨entry, hentry, _⟩ := habsent
    exact absurd hentry (List.not_mem_nil entry)
  | cons entry rest ih =>
    rcases set_cash_types_security_levels_loop_step bill_types_by_numbers htable entry rest
      command_data hlength with ⟨_, _, hreject⟩ | ⟨hpresent, data, hdata, hstep⟩
    · exact hreject
    · rw [hstep]
      refine ih data hdata ?_
      obtain ⟨absent, hmem, hhigh, hnone⟩ := habsent
      rcases List.mem_cons.1 hmem with heq | hrest
      · subst heq
        exact absurd hnone (hpresent hhigh)
      · exact ⟨absent, hrest, hhigh, hnone⟩

theorem set_cash_types_security_levels_loop_accepts
    (bill_types_by_numbers : byte_map cash_type)
    (htable : ∀ entry ∈ bill_types_by_numbers, entry.1 < 24)
    (security_levels : List (cash_type × bill_security_level)) (command_data : List Nat)
    (hlength : command_data.length = 3)
    (hpresent : ∀ entry ∈ security_levels,
      entry.2 = .high → find_bill_type bill_types_by_numbers entry.1 ≠ none) :
    ∃ data, data.length = 3
      ∧ set_cash_types_security_levels_loop bill_types_by_numbers security_levels command_data
        = .ok data := by
  induction security_levels generalizing command_data with
  | nil => exact ⟨command_data, hlength, rfl⟩
  | cons entry rest ih =>
    rcases set_cash_types_security_levels_loop_step bill_types_by_numbers htable entry rest
      command_data hlength with ⟨hhigh, hnone, _⟩ | ⟨_, data, hdata, hstep⟩
    · exact absurd hnone (hpresent entry (List.mem_cons_self _ _) hhigh)
    · rw [hstep]
      exact ih data hdata (fun e he => hpresent e (List.mem_cons_of_mem _ he))

set_option maxRecDepth 100000 in
/-- C22 (the code at the failing input): `set_cash_types_security_levels`
calls `set_bit` with the bill type number itself as the bit number, so for
a number in 8..23 the bit is shifted out of the byte and lost. With the
table `8 ↦ (RUB, 500)` and the map {(RUB, 500) ↦ High} the payload
enqueued is `00 00 00` (bit 8 of the 24-bit value is not set); every map
whose High entries all sit at numbers in 8..23 gives the payload
`00 00 00`. A number below 8 gives its bit: the table `0 ↦ (RUB, 500)`
gives `01 00 00`. -/
theorem security_payload_loses_high_numbers :
    (set_cash_types_security_levels [(⟨[82, 85, 66], 500⟩, .high)] 1
        { bill_validator.start (script.mk [] []) [] with
          bill_types_by_numbers := [(8, ⟨[82, 85, 66], 500⟩)] }).2.cmd_queue
        = [⟨.set_bill_types_security_levels, [0, 0, 0], 1⟩]
      ∧ (∀ byte bit_number, byte < 256 → 8 ≤ bit_number → set_bit byte bit_number = byte)
      ∧ (∀ (bill_types_by_numbers : byte_map cash_type)
          (security_levels : List (cash_type × bill_security_level)),
          (∀ entry ∈ security_levels, entry.2 = .high → ∃ number,
            find_bill_type bill_types_by_numbers entry.1 = some number
              ∧ 8 ≤ number ∧ number < 24) →
          set_cash_types_security_levels_loop bill_types_by_numbers security_levels
              (List.replicate set_security_command_data_size 0)
            = .ok [0, 0, 0])
      ∧ (set_cash_types_security_levels [(⟨[82, 85, 66], 500⟩, .high)] 1
          { bill_validator.start (script.mk [] []) [] with
            bill_types_by_numbers := table_rub_500 }).2.cmd_queue
        = [⟨.set_bill_types_security_levels, [1, 0, 0], 1⟩] := by
  exact ⟨by decide, set_bit_lost, set_cash_types_security_levels_loop_lost, by decide⟩

set_option maxRecDepth 100000 in
/-- C24 (as stated, refuted): with the table `0 ↦ (RUB, 500)`, the map
{(USD, 100) ↦ Normal}, whose only key is absent from the table, is
accepted: the call returns its future and enqueues a request with the
payload `00 00 00`. -/
theorem absent_normal_key_accepted :
    (set_cash_types_security_levels [(⟨[85, 83, 68], 100⟩, .normal)] 1
        { bill_validator.start (script.mk [] []) [] with
          bill_types_by_numbers := table_rub_500 }).1 = .ok 1
      ∧ (set_cash_types_security_levels [(⟨[85, 83, 68], 100⟩, .normal)] 1
          { bill_validator.start (script.mk [] []) [] with
            bill_types_by_numbers := table_rub_500 }).2.cmd_queue
        = [⟨.set_bill_types_security_levels, [0, 0, 0], 1⟩] := by
  decide

/-- C24 (amended): for every bill table with numbers in 0..23 and every
security-level map, `set_cash_types_security_levels` fails with "specified
cash type is not supported" and leaves the controller, and so the request
queue, unchanged when the map holds a key mapped to High that is absent
from the table; when every key mapped to High is in the table, whatever
the keys mapped to Normal, it appends exactly one request, with a 3-byte
payload, to the back of the queue. -/
theorem security_levels_rejection {σ : Type}
    (security_levels : List (cash_type × bill_security_level)) (promised_result : Nat)
    (self : bill_validator σ)
    (htable : ∀ entry ∈ self.bill_types_by_numbers, entry.1 < 24) :
    ((∃ entry ∈ security_levels,
          entry.2 = .high ∧ find_bill_type self.bill_types_by_numbers entry.1 = none) →
        set_cash_types_security_levels security_levels promised_result self
          = (.error .cash_type_not_supported, self))
      ∧ ((∀ entry ∈ security_levels,
          entry.2 = .high → find_bill_type self.bill_types_by_numbers entry.1 ≠ none) →
        ∃ data, data.length = 3
          ∧ set_cash_types_security_levels security_levels promised_result self
            = (.ok promised_result,
                { self with
                  cmd_queue := self.cmd_queue ++
                    [⟨.set_bill_types_security_levels, data, promised_result⟩] })) := by
  constructor
  · intro habsent
    unfold set_cash_types_security_levels
    rw [set_cash_types_security_levels_loop_rejects self.bill_types_by_numbers htable
      security_levels _ (by simp [set_security_command_data_size]) habsent]
  · intro hpresent
    obtain ⟨data, hdata, hloop⟩ := set_cash_types_security_levels_loop_accepts
      self.bill_types_by_numbers htable security_levels
      (List.replicate set_security_command_data_size 0)
      (by simp [set_security_command_data_size]) hpresent
    refine ⟨data, hdata, ?_⟩
    unfold set_cash_types_security_levels
    rw [hloop]

set_option maxRecDepth 100000 in
/-- C24 (amended), at a concrete input: the table `0 ↦ (RUB, 500)` and the
map {(RUB, 500) ↦ Normal, (USD, 100) ↦ High}. -/
theorem security_levels_rejection_witness :
    set_cash_types_security_levels
        [(⟨[82, 85, 66], 500⟩, .normal), (⟨[85, 83, 68], 100⟩, .high)] 1
        (bill_validator.polling (script.mk [] []) table_rub_500 [] {})
      = (.error .cash_type_not_supported,
          bill_validator.polling (script.mk [] []) table_rub_500 [] {}) :=
  (security_levels_rejection [(⟨[82, 85, 66], 500⟩, .normal), (⟨[85, 83, 68], 100⟩, .high)] 1
    (bill_validator.polling (script.mk [] []) table_rub_500 [] {}) (by decide)).1
    ⟨(⟨[85, 83, 68], 100⟩, .high), by decide, by decide, by decide⟩


/-! ## C23: a cash type absent from the table in `set_enabled_cash_types` -/

theorem set_bit_at_error (command_data : List Nat) (index : Int) (bit_number : Nat) (e : error)
    (h : set_bit_at command_data index bit_number = .error e) : e = .out_of_bounds := by
  unfold set_bit_at at h
  split at h
  · exact absurd h (by simp)
  · exact (Except.error.inj h).symm

theorem set_enabled_cash_types_loop_present (bill_types_by_numbers : byte_map cash_type)
    (cash : cash_type) (rest : List cash_type) (command_data : List Nat) (number : Nat)
    (hfind : find_bill_type bill_types_by_numbers cash = some number)
    (hlength : command_data.length = 6) :
    set_enabled_cash_types_loop bill_types_by_numbers (cash :: rest) command_data
        = .error .out_of_bounds
      ∨ ∃ data, data.length = 6
        ∧ set_enabled_cash_types_loop bill_types_by_numbers (cash :: rest) command_data
          = set_enabled_cash_types_loop bill_types_by_numbers rest data := by
  rw [set_enabled_cash_types_loop, hfind]
  simp only
  cases hfirst : set_bit_at command_data (3 - ((number % 256 / byte_size : Nat) : Int))
      (number % 256 % byte_size) with
  | error e =>
    left
    rw [set_bit_at_error _ _ _ _ hfirst]
  | ok data1 =>
    have hdata1 := set_bit_at_length _ _ _ _ hfirst
    simp only
    cases hsecond : set_bit_at data1 (3 - ((number % 256 / byte_size : Nat) : Int) + 3)
        (number % 256 % byte_size) with
    | error e =>
      left
      rw [set_bit_at_error _ _ _ _ hsecond]
    | ok data2 =>
      have hdata2 := set_bit_at_length _ _ _ _ hsecond
      exact Or.inr ⟨data2, by omega, rfl⟩

theorem set_enabled_cash_types_loop_absent (bill_types_by_numbers : byte_map cash_type)
    (enabled_bill_types : List cash_type) (command_data : List Nat)
    (hlength : command_data.length = 6)
    (habsent : ∃ cash ∈ enabled_bill_types, find_bill_type bill_types_by_numbers cash = none) :
    set_enabled_cash_types_loop bill_types_by_numbers enabled_bill_types command_data
        = .error .cash_type_not_supported
      ∨ set_enabled_cash_types_loop bill_types_by_numbers enabled_bill_types command_data
        = .error .out_of_bounds := by
  induction enabled_bill_types generalizing command_data with
  | nil =>
    obtain ⟨cash, hcash, _⟩ := habsent
    exact absurd hcash (List.not_mem_nil cash)
  | cons cash rest ih =>
    cases hfind : find_bill_type bill_types_by_numbers cash with
    | none =>
      left
      rw [set_enabled_cash_types_loop, hfind]
    | some number =>
      rcases set_enabled_cash_types_loop_present bill_types_by_numbers cash rest command_data
        number hfind hlength with hout | ⟨data, hdata, hstep⟩
      · exact Or.inr hout
      · rw [hstep]
        refine ih data hdata ?_
        obtain ⟨absent, hmem, hnone⟩ := habsent
        rcases List.mem_cons.1 hmem with heq | hrest
        · subst heq
          rw [hfind] at hnone
          exact absurd hnone (by simp)
        · exact ⟨absent, hrest, hnone⟩

theorem set_enabled_cash_types_loop_rejects (bill_types_by_numbers : byte_map cash_type)
    (enabled_bill_types : List cash_type) (command_data : List Nat)
    (hlength : command_data.length = 6)
    (hnumbers : ∀ cash ∈ enabled_bill_types, ∀ number,
      find_bill_type bill_types_by_numbers cash = some number → 8 ≤ number ∧ number < 24)
    (habsent : ∃ cash ∈ enabled_bill_types, find_bill_type bill_types_by_numbers cash = none) :
    set_enabled_cash_types_loop bill_types_by_numbers enabled_bill_types command_data
      = .error .cash_type_not_supported := by
  induction enabled_bill_types generalizing command_data with
  | nil =>
    obtain ⟨cash, hcash, _⟩ := habsent
    exact absurd hcash (List.not_mem_nil cash)
  | cons cash rest ih =>
    cases hfind : find_bill_type bill_types_by_numbers cash with
    | none => rw [set_enabled_cash_types_loop, hfind]
    | some number =>
      obtain ⟨hlow, hhigh⟩ := hnumbers cash (List.mem_cons_self _ _) number hfind
      obtain ⟨data, hdata, hstep⟩ := set_enabled_cash_types_loop_high_slot
        bill_types_by_numbers cash rest command_data number hfind hlow hhigh hlength
      rw [hstep]
      refine ih data hdata (fun c hc => hnumbers c (List.mem_cons_of_mem _ hc)) ?_
      obtain ⟨absent, hmem, hnone⟩ := habsent
      rcases List.mem_cons.1 hmem with heq | hrest
      · subst heq
        rw [hfind] at hnone
        exact absurd hnone (by simp)
      · exact ⟨absent, hrest, hnone⟩

set_option maxRecDepth 100000 in
/-- C23 (the code at the failing input): with the table `0 ↦ (RUB, 100)`
and the set {(RUB, 100), (RUB, 500)}, whose second element is absent from
the table, `set_enabled_cash_types` first handles (RUB, 100) and writes to
byte 6 of its 6-byte buffer before it reaches the absent cash type: the
call does not end with "specified cash type is not supported" but in that
write outside the buffer. For every table and every set with an absent
cash type the call ends in one of these two ways and returns the
controller, and so the request queue, unchanged; it ends with "specified
cash type is not supported" when the cash types of the set that are in the
table have numbers in 8..23, and when the first element of the set is the
absent one. -/
theorem absent_cash_type_after_overrun :
    (set_enabled_cash_types [⟨[82, 85, 66], 100⟩, ⟨[82, 85, 66], 500⟩] 1
        (bill_validator.polling (script.mk [] []) [(0, ⟨[82, 85, 66], 100⟩)] [] {})).1
        = .error .out_of_bounds
      ∧ (∀ (enabled_bill_types : List cash_type) (promised_result : Nat)
          (self : bill_validator script),
          (∃ cash ∈ enabled_bill_types,
            find_bill_type self.bill_types_by_numbers cash = none) →
          set_enabled_cash_types enabled_bill_types promised_result self
              = (.error .cash_type_not_supported, self)
            ∨ set_enabled_cash_types enabled_bill_types promised_result self
              = (.error .out_of_bounds, self))
      ∧ (∀ (enabled_bill_types : List cash_type) (promised_result : Nat)
          (self : bill_validator script),
          (∀ cash ∈ enabled_bill_types, ∀ number,
            find_bill_type self.bill_types_by_numbers cash = some number →
              8 ≤ number ∧ number < 24) →
          (∃ cash ∈ enabled_bill_types,
            find_bill_type self.bill_types_by_numbers cash = none) →
          set_enabled_cash_types enabled_bill_types promised_result self
            = (.error .cash_type_not_supported, self))
      ∧ (∀ (cash : cash_type) (rest : List cash_type) (promised_result : Nat)
          (self : bill_validator script),
          find_bill_type self.bill_types_by_numbers cash = none →
          set_enabled_cash_types (cash :: rest) promised_result self
            = (.error .cash_type_not_supported, self)) := by
  refine ⟨by decide, ?_, ?_, ?_⟩
  · intro enabled_bill_types promised_result self habsent
    unfold set_enabled_cash_types
    rcases set_enabled_cash_types_loop_absent self.bill_types_by_numbers enabled_bill_types
      (List.replicate enable_bill_types_command_data_size 0)
      (by simp [enable_bill_types_command_data_size]) habsent with h | h
    · left; rw [h]
    · right; rw [h]
  · intro enabled_bill_types promised_result self hnumbers habsent
    unfold set_enabled_cash_types
    rw [set_enabled_cash_types_loop_rejects self.bill_types_by_numbers enabled_bill_types
      (List.replicate enable_bill_types_command_data_size 0)
      (by simp [enable_bill_types_command_data_size]) hnumbers habsent]
  · intro cash rest promised_result self hnone
    unfold set_enabled_cash_types
    rw [set_enabled_cash_types_loop, hnone]


/-! ## C27: `trim` -/

theorem getD_mem_of_lt (s : List Nat) (j : Nat) (hj : j < s.length) : s.getD j 0 ∈ s := by
  induction s generalizing j with
  | nil => exact absurd hj (Nat.not_lt_zero j)
  | cons c cs ih =>
    cases j with
    | zero => simp
    | succ j =>
      simp only [List.getD_cons_succ, List.mem_cons]
      exact Or.inr (ih j (by simpa using hj))

theorem find_last_not_of_none (s : List Nat) (h : find_last_not_of s = none) :
    ∀ c ∈ s, c ∈ trim_characters := by
  induction s with
  | nil => intro c hc; exact absurd hc (List.not_mem_nil c)
  | cons c cs ih =>
    rw [find_last_not_of] at h
    cases hrest : find_last_not_of cs with
    | some k =>
      rw [hrest] at h
      exact absurd h (by simp)
    | none =>
      rw [hrest] at h
      simp only at h
      by_cases hc : c ∈ trim_characters
      · intro x hx
        rcases List.mem_cons.1 hx with heq | hmem
        · rw [heq]; exact hc
        · exact ih hrest x hmem
      · rw [if_neg hc] at h
        exact absurd h (by simp)

theorem find_last_not_of_some (s : List Nat) (l : Nat) (h : find_last_not_of s = some l) :
    l < s.length ∧ s.getD l 0 ∉ trim_characters
      ∧ ∀ j, l < j → j < s.length → s.getD j 0 ∈ trim_characters := by
  induction s generalizing l with
  | nil => simp [find_last_not_of] at h
  | cons c cs ih =>
    rw [find_last_not_of] at h
    cases hrest : find_last_not_of cs with
    | some k =>
      rw [hrest] at h
      simp only [Option.some.injEq] at h
      subst h
      obtain ⟨h1, h2, h3⟩ := ih k hrest
      refine ⟨by simpa using h1, by simpa using h2, ?_⟩
      intro j hj hlen
      cases j with
      | zero => omega
      | succ j =>
        simp only [List.getD_cons_succ]
        exact h3 j (by omega) (by simpa using hlen)
    | none =>
      rw [hrest] at h
      simp only at h
      by_cases hc : c ∈ trim_characters
      · rw [if_pos hc] at h
        exact absurd h (by simp)
      · rw [if_neg hc] at h
        simp only [Option.some.injEq] at h
        subst h
        refine ⟨by simp, by simpa using hc, ?_⟩
        intro j hj hlen
        cases j with
        | zero => omega
        | succ j =>
          simp only [List.getD_cons_succ]
          exact find_last_not_of_none cs hrest _
            (getD_mem_of_lt cs j (by simpa using hlen))

theorem find_last_not_of_unique (s : List Nat) (l : Nat) (hl : l < s.length)
    (hlast : s.getD l 0 ∉ trim_characters)
    (hafter : ∀ j, l < j → j < s.length → s.getD j 0 ∈ trim_characters) :
    find_last_not_of s = some l := by
  cases h : find_last_not_of s with
  | none => exact absurd (find_last_not_of_none s h _ (getD_mem_of_lt s l hl)) hlast
  | some k =>
    obtain ⟨hk, hklast, hkafter⟩ := find_last_not_of_some s k h
    have hkl : k = l := by
      rcases Nat.lt_trichotomy k l with hlt | heq | hgt
      · exact absurd (hkafter l hlt hl) hlast
      · exact heq
      · exact absurd (hafter k hgt hk) hklast
    rw [hkl]

theorem find_first_not_of_none (s : List Nat) (h : find_first_not_of s = none) :
    ∀ c ∈ s, c ∈ trim_characters := by
  induction s with
  | nil => intro c hc; exact absurd hc (List.not_mem_nil c)
  | cons c cs ih =>
    rw [find_first_not_of] at h
    by_cases hc : c ∈ trim_characters
    · rw [if_pos hc] at h
      have hrest : find_first_not_of cs = none := by
        cases hcs : find_first_not_of cs with
        | none => rfl
        | some k => rw [hcs] at h; exact absurd h (by simp)
      intro x hx
      rcases List.mem_cons.1 hx with heq | hmem
      · rw [heq]; exact hc
      · exact ih hrest x hmem
    · rw [if_neg hc] at h
      exact absurd h (by simp)

theorem find_first_not_of_some (s : List Nat) (k : Nat) (h : find_first_not_of s = some k) :
    k < s.length ∧ s.getD k 0 ∉ trim_characters := by
  induction s generalizing k with
  | nil => simp [find_first_not_of] at h
  | cons c cs ih =>
    rw [find_first_not_of] at h
    by_cases hc : c ∈ trim_characters
    · rw [if_pos hc] at h
      cases hcs : find_first_not_of cs with
      | none => rw [hcs] at h; exact absurd h (by simp)
      | some m =>
        rw [hcs] at h
        simp only [Option.map_some', Option.some.injEq] at h
        subst h
        obtain ⟨h1, h2⟩ := ih m hcs
        exact ⟨by simpa using h1, by simpa using h2⟩
    · rw [if_neg hc] at h
      simp only [Option.some.injEq] at h
      subst h
      exact ⟨by simp, by simpa using hc⟩

theorem find_first_not_of_zero (s : List Nat) (h : find_first_not_of s = some 0) :
    ∃ c cs, s = c :: cs ∧ c ∉ trim_characters := by
  obtain ⟨hlen, hc⟩ := find_first_not_of_some s 0 h
  cases s with
  | nil => exact absurd hlen (Nat.not_lt_zero 0)
  | cons c cs => exact ⟨c, cs, rfl, by simpa using hc⟩


theorem mem_getD (s : List Nat) (c : Nat) (hc : c ∈ s) : ∃ i, i < s.length ∧ s.getD i 0 = c := by
  induction s with
  | nil => exact absurd hc (List.not_mem_nil c)
  | cons x xs ih =>
    rcases List.mem_cons.1 hc with heq | hmem
    · exact ⟨0, by simp, by simp [heq]⟩
    · obtain ⟨i, hi, hget⟩ := ih hmem
      exact ⟨i + 1, by simpa using hi, by simpa using hget⟩

theorem getD_take_of_lt (s : List Nat) (j m : Nat) (hj : j < m) :
    (s.take m).getD j 0 = s.getD j 0 := by
  simp [List.getD_eq_getElem?_getD, List.getElem?_take, hj]

theorem trim_of_searches (s : List Nat) (k l : Nat)
    (hfirst : find_first_not_of s = some k) (hlast : find_last_not_of s = some l) :
    trim s =
      if l + 1 > (s.drop k).length then .error .out_of_range
      else .ok ((s.drop k).take (l + 1)) := by
  unfold trim
  simp only [hfirst, hlast]

theorem find_last_not_of_of_first (s : List Nat) (k : Nat)
    (hfirst : find_first_not_of s = some k) : ∃ l, find_last_not_of s = some l := by
  obtain ⟨hk, hnot⟩ := find_first_not_of_some s k hfirst
  cases hlast : find_last_not_of s with
  | none => exact absurd (find_last_not_of_none s hlast _ (getD_mem_of_lt s k hk)) hnot
  | some l => exact ⟨l, rfl⟩

theorem trim_without_leading_whitespace (s : List Nat)
    (hfirst : find_first_not_of s = none ∨ find_first_not_of s = some 0) :
    ∃ r t, trim s = .ok r ∧ s = r ++ t ∧ (∀ c ∈ t, c ∈ trim_characters)
      ∧ (∀ front w, r = front ++ [w] → w ∉ trim_characters)
      ∧ (∀ c cs, r = c :: cs → c ∉ trim_characters)
      ∧ trim r = .ok r := by
  rcases hfirst with hnone | hzero
  · have hall := find_first_not_of_none s hnone
    have hlast : find_last_not_of s = none := by
      cases h : find_last_not_of s with
      | none => rfl
      | some l =>
        obtain ⟨hl, hnot, _⟩ := find_last_not_of_some s l h
        exact absurd (hall _ (getD_mem_of_lt s l hl)) hnot
    refine ⟨[], s, ?_, rfl, hall, ?_, ?_, rfl⟩
    · unfold trim
      simp only [hnone, hlast]
      rfl
    · intro front w h
      exact absurd (congrArg List.length h) (by simp)
    · intro c cs h
      exact absurd h (by simp)
  · obtain ⟨c, cs, hs, hc⟩ := find_first_not_of_zero s hzero
    obtain ⟨l, hlast⟩ := find_last_not_of_of_first s 0 hzero
    obtain ⟨hl, hnot, hafter⟩ := find_last_not_of_some s l hlast
    have hlength : (s.take (l + 1)).length = l + 1 := by
      rw [List.length_take]; omega
    have hvalue : trim s = .ok (s.take (l + 1)) := by
      rw [trim_of_searches s 0 l hzero hlast, List.drop_zero, if_neg (by omega)]
    have hhead : s.take (l + 1) = c :: cs.take l := by
      rw [hs, List.take_succ_cons]
    have hfirst_r : find_first_not_of (s.take (l + 1)) = some 0 := by
      rw [hhead, find_first_not_of, if_neg hc]
    have hlast_r : find_last_not_of (s.take (l + 1)) = some l :=
      find_last_not_of_unique _ l (by omega)
        (by rw [getD_take_of_lt s l (l + 1) (by omega)]; exact hnot)
        (fun j hj hlen => by omega)
    refine ⟨s.take (l + 1), s.drop (l + 1), hvalue, (List.take_append_drop _ _).symm, ?_, ?_, ?_,
      ?_⟩
    · intro x hx
      obtain ⟨i, hi, hget⟩ := mem_getD _ x hx
      rw [getD_drop_add] at hget
      rw [List.length_drop] at hi
      rw [← hget]
      exact hafter (l + 1 + i) (by omega) (by omega)
    · intro front w hr
      have hfront : front.length = l := by
        have := congrArg List.length hr
        rw [hlength, List.length_append, List.length_singleton] at this
        omega
      have hw : (s.take (l + 1)).getD l 0 = w := by
        rw [hr, ← hfront]
        simp [List.getD_eq_getElem?_getD]
      rw [← hw, getD_take_of_lt s l (l + 1) (by omega)]
      exact hnot
    · intro x xs hr
      rw [hhead] at hr
      rw [← (List.cons.inj hr).1]
      exact hc
    · rw [trim_of_searches _ 0 l hfirst_r hlast_r, List.drop_zero, if_neg (by omega),
        List.take_of_length_le (by omega)]

theorem trim_with_leading_whitespace (s : List Nat) (k : Nat)
    (hfirst : find_first_not_of s = some (k + 1)) :
    trim s = .error .out_of_range
      ∨ ∃ front w, trim s = .ok (front ++ [w]) ∧ w ∈ trim_characters := by
  obtain ⟨l, hlast⟩ := find_last_not_of_of_first s (k + 1) hfirst
  obtain ⟨hl, hnot, hafter⟩ := find_last_not_of_some s l hlast
  rw [trim_of_searches s (k + 1) l hfirst hlast]
  by_cases hpos : l + 1 > (s.drop (k + 1)).length
  · left
    rw [if_pos hpos]
  · right
    rw [if_neg hpos]
    rw [List.length_drop] at hpos
    have hindex : l < (s.drop (k + 1)).length := by rw [List.length_drop]; omega
    refine ⟨(s.drop (k + 1)).take l, (s.drop (k + 1)).getD l 0, ?_, ?_⟩
    · rw [List.take_succ, List.getD_eq_getElem?_getD, List.getElem?_eq_getElem hindex]
      rfl
    · rw [getD_drop_add]
      exact hafter (k + 1 + l) (by omega) (by omega)


set_option maxRecDepth 100000 in
/-- C27 (the code at the failing input): `trim` computes the position of its
second `erase` on the untrimmed string. For a string that begins with
whitespace and holds another character it either throws
`std::out_of_range` (the string `" A"`, and the 15-byte part-number field
made of a space and 14 letters) or returns a string that still ends with
whitespace (`" A  "` gives `"A "`, and trimming that again gives `"A"`).
For a string without leading whitespace it returns without error the
string with its trailing whitespace removed: the result is a prefix of
the argument, what follows is whitespace, the result neither begins nor
ends with whitespace and is left unchanged by `trim`; a string of
whitespace only gives the empty string. -/
theorem trim_fails_on_leading_whitespace :
    trim [32, 65] = .error .out_of_range
      ∧ trim ([32] ++ List.replicate 14 65) = .error .out_of_range
      ∧ trim [32, 65, 32, 32] = .ok [65, 32]
      ∧ trim [65, 32] = .ok [65]
      ∧ (∀ (w : Nat) (rest : List Nat), w ∈ trim_characters →
          (∃ c ∈ rest, c ∉ trim_characters) →
          trim (w :: rest) = .error .out_of_range
            ∨ ∃ front last, trim (w :: rest) = .ok (front ++ [last])
              ∧ last ∈ trim_characters)
      ∧ (∀ s : List Nat, (∀ w rest, s = w :: rest → w ∉ trim_characters) →
          ∃ r t, trim s = .ok r ∧ s = r ++ t ∧ (∀ c ∈ t, c ∈ trim_characters)
            ∧ (∀ front last, r = front ++ [last] → last ∉ trim_characters)
            ∧ (∀ c cs, r = c :: cs → c ∉ trim_characters)
            ∧ trim r = .ok r)
      ∧ (∀ s : List Nat, (∀ c ∈ s, c ∈ trim_characters) → trim s = .ok []) := by
  refine ⟨by decide, by decide, by decide, by decide, ?_, ?_, ?_⟩
  · intro w rest hw hrest
    have hfirst : ∃ k, find_first_not_of (w :: rest) = some (k + 1) := by
      rw [find_first_not_of, if_pos hw]
      cases h : find_first_not_of rest with
      | none =>
        obtain ⟨c, hc, hnot⟩ := hrest
        exact absurd (find_first_not_of_none rest h c hc) hnot
      | some k => exact ⟨k, rfl⟩
    obtain ⟨k, hk⟩ := hfirst
    exact trim_with_leading_whitespace (w :: rest) k hk
  · intro s hs
    apply trim_without_leading_whitespace
    cases s with
    | nil => exact Or.inl rfl
    | cons w rest =>
      right
      rw [find_first_not_of, if_neg (hs w rest rfl)]
  · intro s hs
    have hfirst : find_first_not_of s = none := by
      cases h : find_first_not_of s with
      | none => rfl
      | some k =>
        obtain ⟨hk, hnot⟩ := find_first_not_of_some s k h
        exact absurd (hs _ (getD_mem_of_lt s k hk)) hnot
    have hlast : find_last_not_of s = none := by
      cases h : find_last_not_of s with
      | none => rfl
      | some l =>
        obtain ⟨hl, hnot, _⟩ := find_last_not_of_some s l h
        exact absurd (hs _ (getD_mem_of_lt s l hl)) hnot
    unfold trim
    simp only [hfirst, hlast]
    rfl


/-! ## C25: the order of the requests -/

theorem fulfilled_append (a b : List event) :
    fulfilled (a ++ b) = fulfilled a ++ fulfilled b := by
  simp [fulfilled, List.filterMap_append]

theorem call_send_command_quiet {σ : Type} (env : environment σ) (command : device_command)
    (self : bill_validator σ) :
    (call_send_command env command self).2.cmd_queue = self.cmd_queue
      ∧ fulfilled (call_send_command env command self).2.trace = fulfilled self.trace := by
  refine ⟨rfl, ?_⟩
  rw [call_send_command_trace, fulfilled_append]
  simp [fulfilled]

theorem call_get_command_result_quiet {σ : Type} (env : environment σ)
    (command : device_command) (self : bill_validator σ) :
    (call_get_command_result env command self).2.cmd_queue = self.cmd_queue
      ∧ fulfilled (call_get_command_result env command self).2.trace = fulfilled self.trace := by
  refine ⟨rfl, ?_⟩
  rw [call_get_command_result_trace, fulfilled_append]
  simp [fulfilled]

theorem notify_quiet {σ : Type} (call : operator_call) (self : bill_validator σ) :
    (notify call self).cmd_queue = self.cmd_queue
      ∧ fulfilled (notify call self).trace = fulfilled self.trace := by
  refine ⟨rfl, ?_⟩
  simp [notify, fulfilled]

theorem complete_fulfilled {σ : Type} (result : Nat) (value : promise_value)
    (self : bill_validator σ) :
    (complete result value self).cmd_queue = self.cmd_queue
      ∧ fulfilled (complete result value self).trace = fulfilled self.trace ++ [result] := by
  refine ⟨rfl, ?_⟩
  simp [complete, fulfilled]

theorem handler_catch_fulfilled {σ : Type} (result : Nat) (e : error)
    (self : bill_validator σ) :
    (handler_catch result e self).cmd_queue = self.cmd_queue
      ∧ (fulfilled (handler_catch result e self).trace = fulfilled self.trace ++ [result]
        ∨ fulfilled (handler_catch result e self).trace = fulfilled self.trace) := by
  unfold handler_catch
  split
  · exact ⟨rfl, Or.inr rfl⟩
  · exact ⟨(complete_fulfilled result _ self).1, Or.inl (complete_fulfilled result _ self).2⟩

theorem poll_quiet {σ : Type} (env : environment σ) (self : bill_validator σ) :
    (poll env self).2.cmd_queue = self.cmd_queue
      ∧ fulfilled (poll env self).2.trace = fulfilled self.trace := by
  have h := call_get_command_result_quiet env ⟨device_command_code.poll, []⟩ self
  unfold poll
  split
  · rename_i e self1 heq
    rw [heq] at h
    exact h
  · rename_i response self1 heq
    rw [heq] at h
    exact h

theorem escrow_pos_case_quiet {σ : Type} (env : environment σ) (self : bill_validator σ) :
    (escrow_pos_case env self).2.cmd_queue = self.cmd_queue
      ∧ fulfilled (escrow_pos_case env self).2.trace = fulfilled self.trace := by
  unfold escrow_pos_case
  split
  · exact ⟨rfl, rfl⟩
  · rename_i cash hcash
    simp only
    have hnotify := notify_quiet (.request_cash_action cash)
      { self with world := (env.request_cash_action cash self.world).2 }
    have hfirst :
        (if (env.request_cash_action cash self.world).1.timed_out = true then
            return_bill env (notify (.request_cash_action cash)
              { self with world := (env.request_cash_action cash self.world).2 })
          else (.ok (), notify (.request_cash_action cash)
              { self with world := (env.request_cash_action cash self.world).2 })).2.cmd_queue
          = self.cmd_queue
        ∧ fulfilled
          (if (env.request_cash_action cash self.world).1.timed_out = true then
            return_bill env (notify (.request_cash_action cash)
              { self with world := (env.request_cash_action cash self.world).2 })
          else (.ok (), notify (.request_cash_action cash)
              { self with world := (env.request_cash_action cash self.world).2 })).2.trace
          = fulfilled self.trace := by
      split
      · have h := call_send_command_quiet env ⟨device_command_code.return_bill, []⟩
          (notify (.request_cash_action cash)
            { self with world := (env.request_cash_action cash self.world).2 })
        exact ⟨h.1.trans hnotify.1, h.2.trans hnotify.2⟩
      · exact hnotify
    split
    · rename_i e self2 heq
      rw [heq] at hfirst
      exact hfirst
    · rename_i self2 heq
      rw [heq] at hfirst
      simp only at hfirst
      split
      · have h := call_send_command_quiet env ⟨device_command_code.stack_bill, []⟩ self2
        exact ⟨h.1.trans hfirst.1, h.2.trans hfirst.2⟩
      · have h := call_send_command_quiet env ⟨device_command_code.hold_bill, []⟩
          { self2 with current_device_state := ⟨device_state_code.idling, 0⟩ }
        exact ⟨h.1.trans hfirst.1, h.2.trans hfirst.2⟩
      · have h := call_send_command_quiet env ⟨device_command_code.return_bill, []⟩ self2
        exact ⟨h.1.trans hfirst.1, h.2.trans hfirst.2⟩

theorem current_state_switch_quiet {σ : Type} (env : environment σ)
    (self : bill_validator σ) :
    (current_state_switch env self).2.cmd_queue = self.cmd_queue
      ∧ fulfilled (current_state_switch env self).2.trace = fulfilled self.trace := by
  unfold current_state_switch
  split
  · exact notify_quiet _ self
  · split
    · exact notify_quiet _ self
    · split
      · exact escrow_pos_case_quiet env self
      · split
        · split
          · exact ⟨rfl, rfl⟩
          · exact notify_quiet _ self
        · split
          · split
            · exact ⟨rfl, rfl⟩
            · exact notify_quiet _ self
          · exact ⟨rfl, rfl⟩


theorem get_handler_fulfilled {σ : Type} (env : environment σ) (data : List Nat)
    (result : Nat) (self : bill_validator σ) :
    ((get_enabled_bill_types_handler env data result self).2.cmd_queue = self.cmd_queue
        ∧ (fulfilled (get_enabled_bill_types_handler env data result self).2.trace
            = fulfilled self.trace ++ [result]
          ∨ fulfilled (get_enabled_bill_types_handler env data result self).2.trace
              = fulfilled self.trace
            ∧ (get_enabled_bill_types_handler env data result self).1 ≠ .ok ()))
      ∧ ((get_bill_types_security_levels_handler env data result self).2.cmd_queue
          = self.cmd_queue
        ∧ (fulfilled (get_bill_types_security_levels_handler env data result self).2.trace
            = fulfilled self.trace ++ [result]
          ∨ fulfilled (get_bill_types_security_levels_handler env data result self).2.trace
              = fulfilled self.trace
            ∧ (get_bill_types_security_levels_handler env data result self).1 ≠ .ok ())) := by
  have hget := call_get_command_result_quiet env ⟨device_command_code.get_status, data⟩ self
  have hcatch : ∀ (e : error) (self1 : bill_validator σ),
      self1.cmd_queue = self.cmd_queue → fulfilled self1.trace = fulfilled self.trace →
      (handler_catch result e self1).cmd_queue = self.cmd_queue
        ∧ (fulfilled (handler_catch result e self1).trace = fulfilled self.trace ++ [result]
          ∨ fulfilled (handler_catch result e self1).trace = fulfilled self.trace
            ∧ (Except.error e : Except error Unit) ≠ .ok ()) := by
    intro e self1 hq ht
    obtain ⟨h1, h2⟩ := handler_catch_fulfilled result e self1
    refine ⟨h1.trans hq, ?_⟩
    rcases h2 with h | h
    · exact Or.inl (by rw [h, ht])
    · exact Or.inr ⟨by rw [h, ht], by simp⟩
  have hdone : ∀ (value : promise_value) (self1 : bill_validator σ),
      self1.cmd_queue = self.cmd_queue → fulfilled self1.trace = fulfilled self.trace →
      (complete result value self1).cmd_queue = self.cmd_queue
        ∧ (fulfilled (complete result value self1).trace = fulfilled self.trace ++ [result]
          ∨ fulfilled (complete result value self1).trace = fulfilled self.trace
            ∧ (Except.ok () : Except error Unit) ≠ .ok ()) := by
    intro value self1 hq ht
    obtain ⟨h1, h2⟩ := complete_fulfilled result value self1
    exact ⟨h1.trans hq, Or.inl (by rw [h2, ht])⟩
  constructor
  · unfold get_enabled_bill_types_handler
    split
    · rename_i e self1 heq
      rw [heq] at hget
      exact hcatch e self1 hget.1 hget.2
    · rename_i response self1 heq
      rw [heq] at hget
      split
      · exact hcatch _ self1 hget.1 hget.2
      · exact hdone _ self1 hget.1 hget.2
  · unfold get_bill_types_security_levels_handler
    split
    · rename_i e self1 heq
      rw [heq] at hget
      exact hcatch e self1 hget.1 hget.2
    · rename_i response self1 heq
      rw [heq] at hget
      split
      · exact hcatch _ self1 hget.1 hget.2
      · split
        · exact hcatch _ self1 hget.1 hget.2
        · exact hdone _ self1 hget.1 hget.2

theorem set_handler_fulfilled {σ : Type} (env : environment σ) (data : List Nat)
    (result : Nat) (self : bill_validator σ) :
    ((set_enabled_bill_types_handler env data result self).2.cmd_queue = self.cmd_queue
        ∧ (fulfilled (set_enabled_bill_types_handler env data result self).2.trace
            = fulfilled self.trace ++ [result]
          ∨ fulfilled (set_enabled_bill_types_handler env data result self).2.trace
              = fulfilled self.trace
            ∧ (set_enabled_bill_types_handler env data result self).1 ≠ .ok ()))
      ∧ ((set_bill_types_security_levels_handler env data result self).2.cmd_queue
          = self.cmd_queue
        ∧ (fulfilled (set_bill_types_security_levels_handler env data result self).2.trace
            = fulfilled self.trace ++ [result]
          ∨ fulfilled (set_bill_types_security_levels_handler env data result self).2.trace
              = fulfilled self.trace
            ∧ (set_bill_types_security_levels_handler env data result self).1 ≠ .ok ())) := by
  have hcatch : ∀ (e : error) (self1 : bill_validator σ),
      self1.cmd_queue = self.cmd_queue → fulfilled self1.trace = fulfilled self.trace →
      (handler_catch result e self1).cmd_queue = self.cmd_queue
        ∧ (fulfilled (handler_catch result e self1).trace = fulfilled self.trace ++ [result]
          ∨ fulfilled (handler_catch result e self1).trace = fulfilled self.trace
            ∧ (Except.error e : Except error Unit) ≠ .ok ()) := by
    intro e self1 hq ht
    obtain ⟨h1, h2⟩ := handler_catch_fulfilled result e self1
    refine ⟨h1.trans hq, ?_⟩
    rcases h2 with h | h
    · exact Or.inl (by rw [h, ht])
    · exact Or.inr ⟨by rw [h, ht], by simp⟩
  have hdone : ∀ (value : promise_value) (self1 : bill_validator σ),
      self1.cmd_queue = self.cmd_queue → fulfilled self1.trace = fulfilled self.trace →
      (complete result value self1).cmd_queue = self.cmd_queue
        ∧ (fulfilled (complete result value self1).trace = fulfilled self.trace ++ [result]
          ∨ fulfilled (complete result value self1).trace = fulfilled self.trace
            ∧ (Except.ok () : Except error Unit) ≠ .ok ()) := by
    intro value self1 hq ht
    obtain ⟨h1, h2⟩ := complete_fulfilled result value self1
    exact ⟨h1.trans hq, Or.inl (by rw [h2, ht])⟩
  constructor
  · have hsend :=
      call_send_command_quiet env ⟨device_command_code.enable_bill_types, data⟩ self
    unfold set_enabled_bill_types_handler
    split
    · rename_i e self1 heq
      rw [heq] at hsend
      exact hcatch e self1 hsend.1 hsend.2
    · rename_i self1 heq
      rw [heq] at hsend
      exact hdone _ self1 hsend.1 hsend.2
  · have hsend := call_send_command_quiet env ⟨device_command_code.set_security, data⟩ self
    unfold set_bill_types_security_levels_handler
    split
    · rename_i e self1 heq
      rw [heq] at hsend
      exact hcatch e self1 hsend.1 hsend.2
    · rename_i self1 heq
      rw [heq] at hsend
      exact hdone _ self1 hsend.1 hsend.2

theorem serve_request_queue {σ : Type} (env : environment σ) (self : bill_validator σ) :
    (self.cmd_queue = [] ∧ serve_request env self = (.ok (), self))
      ∨ ∃ current_command rest, self.cmd_queue = current_command :: rest
        ∧ (serve_request env self).2.cmd_queue = rest
        ∧ (fulfilled (serve_request env self).2.trace
            = fulfilled self.trace ++ [current_command.result]
          ∨ fulfilled (serve_request env self).2.trace = fulfilled self.trace
            ∧ (serve_request env self).1 ≠ .ok ()) := by
  cases hqueue : self.cmd_queue with
  | nil => exact Or.inl ⟨rfl, serve_request_empty env self hqueue⟩
  | cons current_command rest =>
    right
    refine ⟨current_command, rest, rfl, ?_⟩
    unfold serve_request
    simp only [hqueue]
    cases hcode : current_command.code <;> simp only
    · exact ⟨rfl, Or.inl (complete_fulfilled _ _ _).2⟩
    · exact (get_handler_fulfilled env _ _ _).2
    · exact ⟨rfl, Or.inl (complete_fulfilled _ _ _).2⟩
    · exact (get_handler_fulfilled env _ _ _).1
    · exact (set_handler_fulfilled env _ _ _).2
    · exact (set_handler_fulfilled env _ _ _).1


theorem serve_request_step {σ : Type} (env : environment σ) (self start : bill_validator σ)
    (hqueue : self.cmd_queue = start.cmd_queue)
    (htrace : fulfilled self.trace = fulfilled start.trace) :
    ∃ dropped : List Nat, dropped.length ≤ 1
      ∧ fulfilled (serve_request env self).2.trace ++ dropped
          ++ (serve_request env self).2.cmd_queue.map handler_command.result
        = fulfilled start.trace ++ start.cmd_queue.map handler_command.result
      ∧ ((serve_request env self).1 = .ok () → dropped = []) := by
  rcases serve_request_queue env self with ⟨hempty, hserve⟩ | ⟨current, rest, hcons, hrest, hdone⟩
  · refine ⟨[], by simp, ?_, fun _ => rfl⟩
    rw [hserve, ← hqueue, ← htrace]
    simp
  · rcases hdone with hdone | ⟨hsame, herror⟩
    · refine ⟨[], by simp, ?_, fun _ => rfl⟩
      rw [hdone, hrest, ← hqueue, ← htrace, hcons]
      simp
    · refine ⟨[current.result], by simp, ?_, fun h => absurd h herror⟩
      rw [hsame, hrest, ← hqueue, ← htrace, hcons]
      simp

theorem quiet_step {σ : Type} (self start : bill_validator σ)
    (hqueue : self.cmd_queue = start.cmd_queue)
    (htrace : fulfilled self.trace = fulfilled start.trace) (r : Except error Unit) :
    ∃ dropped : List Nat, dropped.length ≤ 1
      ∧ fulfilled self.trace ++ dropped ++ self.cmd_queue.map handler_command.result
        = fulfilled start.trace ++ start.cmd_queue.map handler_command.result
      ∧ (r = .ok () → dropped = []) :=
  ⟨[], by simp, by rw [hqueue, htrace]; simp, fun _ => rfl⟩

theorem operate_pass_step {σ : Type} (env : environment σ) (self : bill_validator σ) :
    ∃ dropped : List Nat, dropped.length ≤ 1
      ∧ fulfilled (operate_pass env self).2.trace ++ dropped
          ++ (operate_pass env self).2.cmd_queue.map handler_command.result
        = fulfilled self.trace ++ self.cmd_queue.map handler_command.result
      ∧ ((operate_pass env self).1 = .ok () → dropped = []) := by
  have hpoll := poll_quiet env { self with previous_device_state := self.current_device_state }
  unfold operate_pass
  split
  · rename_i e self1 heq
    rw [heq] at hpoll
    exact quiet_step self1 self hpoll.1 hpoll.2 (.error e)
  · rename_i state self1 heq
    rw [heq] at hpoll
    simp only
    split
    · split
      · have hnotify := notify_quiet .drop_cassette_installed
          { self1 with current_device_state := state }
        exact quiet_step _ self (hnotify.1.trans hpoll.1) (hnotify.2.trans hpoll.2) (.ok ())
      · have hswitch := current_state_switch_quiet env
          { self1 with current_device_state := state }
        split
        · rename_i e self3 heq3
          rw [heq3] at hswitch
          exact quiet_step self3 self (hswitch.1.trans hpoll.1) (hswitch.2.trans hpoll.2)
            (.error e)
        · rename_i self3 heq3
          rw [heq3] at hswitch
          exact serve_request_step env self3 self (hswitch.1.trans hpoll.1)
            (hswitch.2.trans hpoll.2)
    · exact serve_request_step env _ self hpoll.1 hpoll.2

theorem initialization_quiet {σ : Type} (env : environment σ) (self : bill_validator σ) :
    (initialization env self).2.cmd_queue = self.cmd_queue
      ∧ fulfilled (initialization env self).2.trace = fulfilled self.trace := by
  have hreset := call_send_command_quiet env ⟨device_command_code.reset, []⟩ self
  unfold initialization reset
  split
  · rename_i e self1 heq
    rw [heq] at hreset
    exact hreset
  · rename_i self1 heq
    rw [heq] at hreset
    have hinfo := call_get_command_result_quiet env ⟨device_command_code.identification, []⟩
      self1
    unfold request_device_info
    split
    · rename_i e self2 heq2
      split at heq2
      · rename_i e2 self2b heq2b
        rw [heq2b] at hinfo
        have hself : self2b = self2 := (Prod.mk.inj heq2).2
        rw [hself] at hinfo
        exact ⟨hinfo.1.trans hreset.1, hinfo.2.trans hreset.2⟩
      · rename_i response self2b heq2b
        rw [heq2b] at hinfo
        have hself : self2b = self2 := (Prod.mk.inj heq2).2
        rw [hself] at hinfo
        exact ⟨hinfo.1.trans hreset.1, hinfo.2.trans hreset.2⟩
    · rename_i info self2 heq2
      have hstate : self2.cmd_queue = self.cmd_queue
          ∧ fulfilled self2.trace = fulfilled self.trace := by
        split at heq2
        · rename_i e2 self2b heq2b
          exact absurd (Prod.mk.inj heq2).1 (by simp)
        · rename_i response self2b heq2b
          rw [heq2b] at hinfo
          have hself : self2b = self2 := (Prod.mk.inj heq2).2
          rw [hself] at hinfo
          exact ⟨hinfo.1.trans hreset.1, hinfo.2.trans hreset.2⟩
      have htable := call_get_command_result_quiet env ⟨device_command_code.get_bill_table, []⟩
        { self2 with connected_device_info := info }
      unfold request_bill_table
      split
      · rename_i e self3 heq3
        split at heq3
        · rename_i e3 self3b heq3b
          rw [heq3b] at htable
          have hself : self3b = self3 := (Prod.mk.inj heq3).2
          rw [hself] at htable
          exact ⟨htable.1.trans hstate.1, htable.2.trans hstate.2⟩
        · rename_i response self3b heq3b
          rw [heq3b] at htable
          have hself : self3b = self3 := (Prod.mk.inj heq3).2
          rw [hself] at htable
          exact ⟨htable.1.trans hstate.1, htable.2.trans hstate.2⟩
      · rename_i table self3 heq3
        split at heq3
        · rename_i e3 self3b heq3b
          exact absurd (Prod.mk.inj heq3).1 (by simp)
        · rename_i response self3b heq3b
          rw [heq3b] at htable
          have hself : self3b = self3 := (Prod.mk.inj heq3).2
          rw [hself] at htable
          exact ⟨htable.1.trans hstate.1, htable.2.trans hstate.2⟩


theorem operate_pass_queue {σ : Type} (env : environment σ) (self : bill_validator σ) :
    ((operate_pass env self).2.cmd_queue = self.cmd_queue
        ∧ fulfilled (operate_pass env self).2.trace = fulfilled self.trace)
      ∨ ∃ current_command rest, self.cmd_queue = current_command :: rest
        ∧ (operate_pass env self).2.cmd_queue = rest
        ∧ (fulfilled (operate_pass env self).2.trace
            = fulfilled self.trace ++ [current_command.result]
          ∨ fulfilled (operate_pass env self).2.trace = fulfilled self.trace
            ∧ (operate_pass env self).1 ≠ .ok ()) := by
  have hserve : ∀ served : bill_validator σ, served.cmd_queue = self.cmd_queue →
      fulfilled served.trace = fulfilled self.trace →
      ((serve_request env served).2.cmd_queue = self.cmd_queue
          ∧ fulfilled (serve_request env served).2.trace = fulfilled self.trace)
        ∨ ∃ current_command rest, self.cmd_queue = current_command :: rest
          ∧ (serve_request env served).2.cmd_queue = rest
          ∧ (fulfilled (serve_request env served).2.trace
              = fulfilled self.trace ++ [current_command.result]
            ∨ fulfilled (serve_request env served).2.trace = fulfilled self.trace
              ∧ (serve_request env served).1 ≠ .ok ()) := by
    intro served hqueue htrace
    rcases serve_request_queue env served with ⟨_, hsame⟩ | ⟨current, rest, hcons, hrest, hdone⟩
    · left
      rw [hsame]
      exact ⟨hqueue, htrace⟩
    · right
      refine ⟨current, rest, by rw [← hqueue, hcons], hrest, ?_⟩
      rw [← htrace]
      exact hdone
  have hpoll := poll_quiet env { self with previous_device_state := self.current_device_state }
  unfold operate_pass
  split
  · rename_i e self1 heq
    rw [heq] at hpoll
    exact Or.inl hpoll
  · rename_i state self1 heq
    rw [heq] at hpoll
    simp only
    split
    · split
      · have hnotify := notify_quiet .drop_cassette_installed
          { self1 with current_device_state := state }
        exact Or.inl ⟨hnotify.1.trans hpoll.1, hnotify.2.trans hpoll.2⟩
      · have hswitch := current_state_switch_quiet env
          { self1 with current_device_state := state }
        split
        · rename_i e self3 heq3
          rw [heq3] at hswitch
          exact Or.inl ⟨hswitch.1.trans hpoll.1, hswitch.2.trans hpoll.2⟩
        · rename_i self3 heq3
          rw [heq3] at hswitch
          exact hserve self3 (hswitch.1.trans hpoll.1) (hswitch.2.trans hpoll.2)
    · exact hserve _ hpoll.1 hpoll.2

theorem client_call_step {σ : Type} (request : client_call) (self : bill_validator σ) :
    (request.perform self).trace = self.trace
      ∧ (request.perform self = self
        ∨ ∃ code data, request.perform self =
          { self with cmd_queue := self.cmd_queue ++ [⟨code, data, request.promised_result⟩] }) := by
  cases request with
  | get_device_info promised_result => exact ⟨rfl, Or.inr ⟨_, _, rfl⟩⟩
  | get_enabled_cash_types promised_result => exact ⟨rfl, Or.inr ⟨_, _, rfl⟩⟩
  | get_cash_types_security_levels promised_result => exact ⟨rfl, Or.inr ⟨_, _, rfl⟩⟩
  | get_cash_types promised_result => exact ⟨rfl, Or.inr ⟨_, _, rfl⟩⟩
  | set_enabled_cash_types enabled_bill_types promised_result =>
    simp only [client_call.perform, client_call.promised_result, set_enabled_cash_types]
    split
    · exact ⟨rfl, Or.inl rfl⟩
    · exact ⟨rfl, Or.inr ⟨_, _, rfl⟩⟩
  | set_cash_types_security_levels security_levels promised_result =>
    simp only [client_call.perform, client_call.promised_result, set_cash_types_security_levels]
    split
    · exact ⟨rfl, Or.inl rfl⟩
    · exact ⟨rfl, Or.inr ⟨_, _, rfl⟩⟩

theorem interleaving_invariant {σ : Type} (env : environment σ) (steps : List thread_step)
    (self : bill_validator σ) :
    ∃ enqueued dropped : List Nat, List.Sublist enqueued (requested steps)
      ∧ dropped.length ≤ 1
      ∧ fulfilled (interleaving env steps self).trace ++ dropped
          ++ (interleaving env steps self).cmd_queue.map handler_command.result
        = fulfilled self.trace ++ self.cmd_queue.map handler_command.result ++ enqueued := by
  induction steps generalizing self with
  | nil => exact ⟨[], [], List.Sublist.slnil, by simp, by simp [interleaving]⟩
  | cons step rest ih =>
    cases step with
    | call request =>
      obtain ⟨enqueued, dropped, hsub, hlen, heq⟩ := ih (request.perform self)
      obtain ⟨htrace, hsame | ⟨code, data, hpush⟩⟩ := client_call_step request self
      · refine ⟨enqueued, dropped, List.Sublist.cons _ hsub, hlen, ?_⟩
        rw [interleaving, heq, hsame]
      · refine ⟨request.promised_result :: enqueued, dropped, List.Sublist.cons₂ _ hsub, hlen, ?_⟩
        rw [interleaving, heq, hpush]
        simp
    | initialization =>
      have hquiet := initialization_quiet env self
      rw [interleaving]
      split
      · rename_i e self1 heq
        rw [heq] at hquiet
        exact ⟨[], [], List.nil_sublist _, by simp, by rw [hquiet.1, hquiet.2]; simp⟩
      · rename_i self1 heq
        rw [heq] at hquiet
        obtain ⟨enqueued, dropped, hsub, hlen, heq2⟩ := ih self1
        exact ⟨enqueued, dropped, hsub, hlen, by rw [heq2, hquiet.1, hquiet.2]⟩
    | pass =>
      obtain ⟨dropped1, hlen1, heq1, hok⟩ := operate_pass_step env self
      rw [interleaving]
      split
      · rename_i e self1 heq
        rw [heq] at heq1
        exact ⟨[], dropped1, List.nil_sublist _, hlen1, by rw [heq1]; simp⟩
      · rename_i self1 heq
        rw [heq] at heq1 hok
        have hnil := hok rfl
        subst hnil
        obtain ⟨enqueued, dropped, hsub, hlen, heq2⟩ := ih self1
        refine ⟨enqueued, dropped, hsub, hlen, ?_⟩
        rw [heq2, ← heq1]
        simp


theorem handler_catch_outcome {σ : Type} (result : Nat) (e : error)
    (self1 self : bill_validator σ) (hqueue : self1.cmd_queue = self.cmd_queue)
    (htrace : fulfilled self1.trace = fulfilled self.trace) :
    (handler_catch result e self1).cmd_queue = self.cmd_queue
      ∧ fulfilled (handler_catch result e self1).trace =
        if (Except.error e : Except error Unit) = .error .assertion_failed
            ∨ (Except.error e : Except error Unit) = .error .division_by_zero then
          fulfilled self.trace
        else fulfilled self.trace ++ [result] := by
  unfold handler_catch
  by_cases h : e = .assertion_failed ∨ e = .division_by_zero
  · rw [if_pos h, if_pos (by simpa using h)]
    exact ⟨hqueue, htrace⟩
  · rw [if_neg h, if_neg (by simpa using h)]
    exact ⟨(complete_fulfilled result _ self1).1.trans hqueue,
      by rw [(complete_fulfilled result _ self1).2, htrace]⟩

theorem complete_outcome {σ : Type} (result : Nat) (value : promise_value)
    (self1 self : bill_validator σ) (hqueue : self1.cmd_queue = self.cmd_queue)
    (htrace : fulfilled self1.trace = fulfilled self.trace) :
    (complete result value self1).cmd_queue = self.cmd_queue
      ∧ fulfilled (complete result value self1).trace =
        if (Except.ok () : Except error Unit) = .error .assertion_failed
            ∨ (Except.ok () : Except error Unit) = .error .division_by_zero then
          fulfilled self.trace
        else fulfilled self.trace ++ [result] := by
  rw [if_neg (by simp)]
  exact ⟨(complete_fulfilled result _ self1).1.trans hqueue,
    by rw [(complete_fulfilled result _ self1).2, htrace]⟩

theorem get_handler_outcome {σ : Type} (env : environment σ) (data : List Nat)
    (result : Nat) (self : bill_validator σ) :
    ((get_enabled_bill_types_handler env data result self).2.cmd_queue = self.cmd_queue
        ∧ fulfilled (get_enabled_bill_types_handler env data result self).2.trace =
          if (get_enabled_bill_types_handler env data result self).1 = .error .assertion_failed
              ∨ (get_enabled_bill_types_handler env data result self).1
                = .error .division_by_zero then
            fulfilled self.trace
          else fulfilled self.trace ++ [result])
      ∧ ((get_bill_types_security_levels_handler env data result self).2.cmd_queue
          = self.cmd_queue
        ∧ fulfilled (get_bill_types_security_levels_handler env data result self).2.trace =
          if (get_bill_types_security_levels_handler env data result self).1
                = .error .assertion_failed
              ∨ (get_bill_types_security_levels_handler env data result self).1
                = .error .division_by_zero then
            fulfilled self.trace
          else fulfilled self.trace ++ [result]) := by
  have hget := call_get_command_result_quiet env ⟨device_command_code.get_status, data⟩ self
  constructor
  · unfold get_enabled_bill_types_handler
    split
    · rename_i e self1 heq
      rw [heq] at hget
      exact handler_catch_outcome result e self1 self hget.1 hget.2
    · rename_i response self1 heq
      rw [heq] at hget
      split
      · exact handler_catch_outcome result _ self1 self hget.1 hget.2
      · exact complete_outcome result _ self1 self hget.1 hget.2
  · unfold get_bill_types_security_levels_handler
    split
    · rename_i e self1 heq
      rw [heq] at hget
      exact handler_catch_outcome result e self1 self hget.1 hget.2
    · rename_i response self1 heq
      rw [heq] at hget
      split
      · exact handler_catch_outcome result _ self1 self hget.1 hget.2
      · split
        · exact handler_catch_outcome result _ self1 self hget.1 hget.2
        · exact complete_outcome result _ self1 self hget.1 hget.2

theorem set_handler_outcome {σ : Type} (env : environment σ) (data : List Nat)
    (result : Nat) (self : bill_validator σ) :
    ((set_enabled_bill_types_handler env data result self).2.cmd_queue = self.cmd_queue
        ∧ fulfilled (set_enabled_bill_types_handler env data result self).2.trace =
          if (set_enabled_bill_types_handler env data result self).1 = .error .assertion_failed
              ∨ (set_enabled_bill_types_handler env data result self).1
                = .error .division_by_zero then
            fulfilled self.trace
          else fulfilled self.trace ++ [result])
      ∧ ((set_bill_types_security_levels_handler env data result self).2.cmd_queue
          = self.cmd_queue
        ∧ fulfilled (set_bill_types_security_levels_handler env data result self).2.trace =
          if (set_bill_types_security_levels_handler env data result self).1
                = .error .assertion_failed
              ∨ (set_bill_types_security_levels_handler env data result self).1
                = .error .division_by_zero then
            fulfilled self.trace
          else fulfilled self.trace ++ [result]) := by
  constructor
  · have hsend :=
      call_send_command_quiet env ⟨device_command_code.enable_bill_types, data⟩ self
    unfold set_enabled_bill_types_handler
    split
    · rename_i e self1 heq
      rw [heq] at hsend
      exact handler_catch_outcome result e self1 self hsend.1 hsend.2
    · rename_i self1 heq
      rw [heq] at hsend
      exact complete_outcome result _ self1 self hsend.1 hsend.2
  · have hsend := call_send_command_quiet env ⟨device_command_code.set_security, data⟩ self
    unfold set_bill_types_security_levels_handler
    split
    · rename_i e self1 heq
      rw [heq] at hsend
      exact handler_catch_outcome result e self1 self hsend.1 hsend.2
    · rename_i self1 heq
      rw [heq] at hsend
      exact complete_outcome result _ self1 self hsend.1 hsend.2

theorem serve_request_outcome {σ : Type} (env : environment σ) (self : bill_validator σ)
    (current_command : handler_command) (rest : List handler_command)
    (hqueue : self.cmd_queue = current_command :: rest) :
    (serve_request env self).2.cmd_queue = rest
      ∧ fulfilled (serve_request env self).2.trace =
        if (serve_request env self).1 = .error .assertion_failed
            ∨ (serve_request env self).1 = .error .division_by_zero then
          fulfilled self.trace
        else fulfilled self.trace ++ [current_command.result] := by
  unfold serve_request
  simp only [hqueue]
  cases hcode : current_command.code <;> simp only
  · exact complete_outcome current_command.result _ { self with cmd_queue := rest }
      { self with cmd_queue := rest } rfl rfl
  · exact (get_handler_outcome env _ _ { self with cmd_queue := rest }).2
  · exact complete_outcome current_command.result _ { self with cmd_queue := rest }
      { self with cmd_queue := rest } rfl rfl
  · exact (get_handler_outcome env _ _ { self with cmd_queue := rest }).1
  · exact (set_handler_outcome env _ _ { self with cmd_queue := rest }).2
  · exact (set_handler_outcome env _ _ { self with cmd_queue := rest }).1

theorem operate_pass_cases {σ : Type} (env : environment σ) (self : bill_validator σ) :
    (∃ e, (poll env { self with previous_device_state := self.current_device_state }).1
          = .error e
        ∧ (operate_pass env self).1 = .error e
        ∧ (operate_pass env self).2.cmd_queue = self.cmd_queue
        ∧ fulfilled (operate_pass env self).2.trace = fulfilled self.trace)
      ∨ ∃ state, (poll env { self with previous_device_state := self.current_device_state }).1
          = .ok state
        ∧ ((self.current_device_state.code ≠ state.code
            ∧ self.current_device_state.code = device_state_code.drop_cassette_out_of_pos
            ∧ (operate_pass env self).1 = .ok ()
            ∧ (operate_pass env self).2.cmd_queue = self.cmd_queue
            ∧ fulfilled (operate_pass env self).2.trace = fulfilled self.trace
            ∧ (operate_pass env self).2.initialization_required = true)
          ∨ (self.current_device_state.code ≠ state.code
            ∧ self.current_device_state.code ≠ device_state_code.drop_cassette_out_of_pos
            ∧ (∃ e, (operate_pass env self).1 = .error e)
            ∧ (operate_pass env self).2.cmd_queue = self.cmd_queue
            ∧ fulfilled (operate_pass env self).2.trace = fulfilled self.trace)
          ∨ (¬ (self.current_device_state.code ≠ state.code
              ∧ self.current_device_state.code = device_state_code.drop_cassette_out_of_pos)
            ∧ ∃ served : bill_validator σ, served.cmd_queue = self.cmd_queue
              ∧ fulfilled served.trace = fulfilled self.trace
              ∧ (self.current_device_state.code = state.code
                → served.current_device_state = state)
              ∧ operate_pass env self = serve_request env served)) := by
  have hpoll := poll_quiet env { self with previous_device_state := self.current_device_state }
  have hprev : (poll env
      { self with previous_device_state := self.current_device_state }).2.previous_device_state
      = self.current_device_state := by
    have hstate : ∀ s : bill_validator σ,
        (poll env s).2 = (call_get_command_result env ⟨device_command_code.poll, []⟩ s).2 := by
      intro s
      unfold poll
      generalize call_get_command_result env ⟨device_command_code.poll, []⟩ s = r
      rcases r with ⟨(e | response), s1⟩ <;> rfl
    rw [hstate]
    rfl
  unfold operate_pass
  generalize hp : poll env { self with previous_device_state := self.current_device_state } = p
    at hpoll hprev
  rcases p with ⟨(e | state), self1⟩
  · exact Or.inl ⟨e, rfl, rfl, hpoll.1, hpoll.2⟩
  · right
    refine ⟨state, rfl, ?_⟩
    simp only at hpoll hprev ⊢
    by_cases hne : self1.previous_device_state.code ≠ state.code
    · rw [if_pos hne]
      by_cases hout :
          self1.previous_device_state.code = device_state_code.drop_cassette_out_of_pos
      · rw [if_pos hout]
        have hnotify := notify_quiet .drop_cassette_installed
          { self1 with current_device_state := state }
        exact Or.inl ⟨by rw [← hprev]; exact hne, by rw [← hprev]; exact hout, rfl,
          hnotify.1.trans hpoll.1, hnotify.2.trans hpoll.2, rfl⟩
      · rw [if_neg hout]
        right
        have hswitch := current_state_switch_quiet env
          { self1 with current_device_state := state }
        generalize hs : current_state_switch env { self1 with current_device_state := state }
          = s at hswitch
        rcases s with ⟨(e | _), self3⟩
        · exact Or.inl ⟨by rw [← hprev]; exact hne, by rw [← hprev]; exact hout, ⟨e, rfl⟩,
            hswitch.1.trans hpoll.1, hswitch.2.trans hpoll.2⟩
        · exact Or.inr ⟨fun h => hout (by rw [hprev]; exact h.2), self3,
            hswitch.1.trans hpoll.1, hswitch.2.trans hpoll.2,
            fun h => absurd (by rw [hprev]; exact h) hne, rfl⟩
    · rw [if_neg hne]
      exact Or.inr (Or.inr ⟨fun h => hne (by rw [hprev]; exact h.1),
        { self1 with current_device_state := state }, hpoll.1, hpoll.2, fun _ => rfl, rfl⟩)

theorem operate_pass_serves {σ : Type} (env : environment σ) (self : bill_validator σ)
    (current_command : handler_command) (rest : List handler_command)
    (hqueue : self.cmd_queue = current_command :: rest)
    (hstate : self.current_device_state.code ≠ device_state_code.drop_cassette_out_of_pos)
    (hok : (operate_pass env self).1 = .ok ()) :
    (operate_pass env self).2.cmd_queue = rest
      ∧ fulfilled (operate_pass env self).2.trace
        = fulfilled self.trace ++ [current_command.result] := by
  rcases operate_pass_cases env self with ⟨e, _, he, _⟩ | ⟨state, _, h⟩
  · rw [he] at hok
    cases hok
  · rcases h with ⟨_, hout, _⟩ | ⟨_, _, ⟨e, he⟩, _⟩ | ⟨_, served, hq, ht, _, hserve⟩
    · exact absurd hout hstate
    · rw [he] at hok
      cases hok
    · have h := serve_request_outcome env served current_command rest (hq.trans hqueue)
      rw [hserve] at hok ⊢
      rw [if_neg (by rw [hok]; simp), ht] at h
      exact h

theorem operate_pass_ok {σ : Type} (env : environment σ) (self : bill_validator σ)
    (current_command : handler_command) (rest : List handler_command) (state : device_state)
    (hqueue : self.cmd_queue = current_command :: rest)
    (hpoll : (poll env { self with previous_device_state := self.current_device_state }).1
      = .ok state)
    (hok : (operate_pass env self).1 = .ok ()) :
    if self.current_device_state.code = device_state_code.drop_cassette_out_of_pos
        ∧ state.code ≠ device_state_code.drop_cassette_out_of_pos then
      (operate_pass env self).2.cmd_queue = current_command :: rest
        ∧ fulfilled (operate_pass env self).2.trace = fulfilled self.trace
        ∧ (operate_pass env self).2.initialization_required = true
    else
      (operate_pass env self).2.cmd_queue = rest
        ∧ fulfilled (operate_pass env self).2.trace
          = fulfilled self.trace ++ [current_command.result] := by
  rcases operate_pass_cases env self with ⟨e, _, he, _⟩ | ⟨state1, hpoll1, h⟩
  · rw [he] at hok
    cases hok
  · have hsame : state1 = state := by
      rw [hpoll1] at hpoll
      exact Except.ok.inj hpoll
    subst hsame
    rcases h with ⟨hne, hout, _, hq, ht, hinit⟩ | ⟨_, _, ⟨e, he⟩, _⟩
        | ⟨hnot, served, hq, ht, _, hserve⟩
    · rw [if_pos ⟨hout, fun h => hne (hout.trans h.symm)⟩]
      exact ⟨hq.trans hqueue, ht, hinit⟩
    · rw [he] at hok
      cases hok
    · rw [if_neg (fun h => hnot ⟨fun heq => h.2 (heq ▸ h.1), h.1⟩)]
      have h := serve_request_outcome env served current_command rest (hq.trans hqueue)
      rw [hserve] at hok ⊢
      rw [if_neg (by rw [hok]; simp), ht] at h
      exact h

theorem operate_pass_outcome {σ : Type} (env : environment σ) (self : bill_validator σ)
    (current_command : handler_command) (rest : List handler_command)
    (hqueue : self.cmd_queue = current_command :: rest) :
    ((operate_pass env self).2.cmd_queue = current_command :: rest
        ∧ fulfilled (operate_pass env self).2.trace = fulfilled self.trace
        ∧ ((operate_pass env self).1 ≠ .ok ()
          ∨ self.current_device_state.code = device_state_code.drop_cassette_out_of_pos
            ∧ (operate_pass env self).2.initialization_required = true))
      ∨ ((operate_pass env self).2.cmd_queue = rest
        ∧ fulfilled (operate_pass env self).2.trace =
          if (operate_pass env self).1 = .error .assertion_failed
              ∨ (operate_pass env self).1 = .error .division_by_zero then
            fulfilled self.trace
          else fulfilled self.trace ++ [current_command.result]) := by
  rcases operate_pass_cases env self with ⟨e, _, he, hq, ht⟩ | ⟨state, _, h⟩
  · exact Or.inl ⟨hq.trans hqueue, ht, Or.inl (by rw [he]; simp)⟩
  · rcases h with ⟨_, hout, _, hq, ht, hinit⟩ | ⟨_, _, ⟨e, he⟩, hq, ht⟩
        | ⟨_, served, hq, ht, _, hserve⟩
    · exact Or.inl ⟨hq.trans hqueue, ht, Or.inr ⟨hout, hinit⟩⟩
    · exact Or.inl ⟨hq.trans hqueue, ht, Or.inl (by rw [he]; simp)⟩
    · have h := serve_request_outcome env served current_command rest (hq.trans hqueue)
      rw [ht] at h
      rw [hserve]
      exact Or.inr h

theorem operate_pass_empty {σ : Type} (env : environment σ) (self : bill_validator σ)
    (hqueue : self.cmd_queue = []) :
    (operate_pass env self).2.cmd_queue = []
      ∧ fulfilled (operate_pass env self).2.trace = fulfilled self.trace := by
  rcases operate_pass_queue env self with ⟨hq, ht⟩ | ⟨c, r, hcons, _⟩
  · exact ⟨hq.trans hqueue, ht⟩
  · rw [hqueue] at hcons
    cases hcons

theorem interleaving_pass_ok {σ : Type} (env : environment σ) (self served : bill_validator σ)
    (rest : List thread_step) (h : operate_pass env self = (.ok (), served)) :
    interleaving env (.pass :: rest) self = interleaving env rest served := by
  rw [interleaving, h]

theorem passes_serve_front {σ : Type} (env : environment σ) (n : Nat) :
    ∀ self : bill_validator σ,
      (∀ k, k < n →
        (operate_pass env (interleaving env (List.replicate k .pass) self)).1 = .ok ()
          ∧ (interleaving env (List.replicate k .pass) self).current_device_state.code
            ≠ device_state_code.drop_cassette_out_of_pos) →
      (interleaving env (List.replicate n .pass) self).cmd_queue = self.cmd_queue.drop n
        ∧ fulfilled (interleaving env (List.replicate n .pass) self).trace
          = fulfilled self.trace ++ (self.cmd_queue.take n).map handler_command.result := by
  induction n with
  | zero =>
    intro self _
    simp [interleaving]
  | succ n ih =>
    intro self hok
    have h0 := hok 0 (Nat.succ_pos n)
    simp only [List.replicate, interleaving] at h0
    obtain ⟨hr, hc⟩ := h0
    have hpass : operate_pass env self = (.ok (), (operate_pass env self).2) :=
      Prod.ext hr rfl
    have hstep := fun rest => interleaving_pass_ok env self _ rest hpass
    have hnext := ih (operate_pass env self).2 (fun k hk => by
      have h := hok (k + 1) (Nat.succ_lt_succ hk)
      rw [List.replicate_succ, hstep] at h
      exact h)
    rw [List.replicate_succ, hstep, hnext.1, hnext.2]
    cases hqueue : self.cmd_queue with
    | nil =>
      obtain ⟨hq, ht⟩ := operate_pass_empty env self hqueue
      rw [hq, ht]
      simp
    | cons current_command rest =>
      obtain ⟨hq, ht⟩ := operate_pass_serves env self current_command rest hqueue hc hr
      rw [hq, ht]
      simp

theorem quiet_pass {σ : Type} (env : environment σ) (self : bill_validator σ) (code : Nat)
    (hquiet : ∀ world, ∃ response state,
      (env.get_command_result ⟨device_command_code.poll, []⟩ world).1 = .ok response
        ∧ decode_poll response = .ok state ∧ state.code = code)
    (hcode : self.current_device_state.code = code)
    (hfree : ∀ command ∈ self.cmd_queue,
      command.code = .get_device_info ∨ command.code = .get_bill_types) :
    ∃ served, operate_pass env self = (.ok (), served)
      ∧ served.current_device_state.code = code
      ∧ served.cmd_queue = self.cmd_queue.drop 1
      ∧ fulfilled served.trace
        = fulfilled self.trace ++ (self.cmd_queue.take 1).map handler_command.result := by
  obtain ⟨response, state, hget, hdec, hst⟩ := hquiet self.world
  have hpoll : env.get_command_result ⟨device_command_code.poll, []⟩ self.world
      = (.ok response, (env.get_command_result ⟨device_command_code.poll, []⟩ self.world).2) :=
    Prod.ext hget rfl
  rw [operate_pass_of_poll env self response _ state hpoll hdec,
    if_neg (not_not.mpr (hcode.trans hst.symm))]
  have hobs : fulfilled (self.observed
      (env.get_command_result ⟨device_command_code.poll, []⟩ self.world).2 state).trace
      = fulfilled self.trace := by
    simp [bill_validator.observed, fulfilled]
  cases hqueue : self.cmd_queue with
  | nil =>
    refine ⟨_, serve_request_empty env _ hqueue, hst, hqueue, ?_⟩
    rw [hobs]
    simp
  | cons current_command rest =>
    have hc := hfree current_command (by rw [hqueue]; exact List.mem_cons_self _ _)
    have hq : (self.observed
        (env.get_command_result ⟨device_command_code.poll, []⟩ self.world).2 state).cmd_queue
        = current_command :: rest := hqueue
    have hok : (serve_request env (self.observed
        (env.get_command_result ⟨device_command_code.poll, []⟩ self.world).2 state)).1
        = .ok () := by
      rcases hc with hc | hc
      · simp only [serve_request, hq, hc, get_device_info_handler]
      · simp only [serve_request, hq, hc, get_bill_types_handler]
    obtain ⟨-, hcur, -⟩ := serve_request_fields env _ _ _ (Prod.ext rfl rfl :
      serve_request env (self.observed
        (env.get_command_result ⟨device_command_code.poll, []⟩ self.world).2 state)
      = ((serve_request env (self.observed
        (env.get_command_result ⟨device_command_code.poll, []⟩ self.world).2 state)).1,
        (serve_request env (self.observed
        (env.get_command_result ⟨device_command_code.poll, []⟩ self.world).2 state)).2))
    obtain ⟨hrest, hdone⟩ := serve_request_outcome env _ current_command rest hq
    rw [if_neg (by rw [hok]; simp), hobs] at hdone
    refine ⟨_, Prod.ext hok rfl, ?_, hrest, ?_⟩
    · rw [hcur]
      exact hst
    · rw [hdone]
      rfl

theorem quiet_passes {σ : Type} (env : environment σ) (code : Nat)
    (hquiet : ∀ world, ∃ response state,
      (env.get_command_result ⟨device_command_code.poll, []⟩ world).1 = .ok response
        ∧ decode_poll response = .ok state ∧ state.code = code)
    (n : Nat) :
    ∀ (self : bill_validator σ) (rest : List thread_step),
      self.current_device_state.code = code →
      (∀ command ∈ self.cmd_queue,
        command.code = .get_device_info ∨ command.code = .get_bill_types) →
      ∃ served, interleaving env (List.replicate n .pass ++ rest) self
          = interleaving env rest served
        ∧ served.current_device_state.code = code
        ∧ served.cmd_queue = self.cmd_queue.drop n
        ∧ fulfilled served.trace
          = fulfilled self.trace ++ (self.cmd_queue.take n).map handler_command.result := by
  induction n with
  | zero =>
    intro self rest hcode _
    exact ⟨self, by simp, hcode, by simp, by simp⟩
  | succ n ih =>
    intro self rest hcode hfree
    obtain ⟨s1, hpass, hc1, hq1, ht1⟩ := quiet_pass env self code hquiet hcode hfree
    obtain ⟨s, hrun, hc, hq, ht⟩ := ih s1 rest hc1 (fun command hmem =>
      hfree command (List.mem_of_mem_drop (hq1 ▸ hmem)))
    refine ⟨s, ?_, hc, ?_, ?_⟩
    · rw [List.replicate_succ, List.cons_append, interleaving_pass_ok env self s1 _ hpass, hrun]
    · rw [hq, hq1, List.drop_drop]
      congr 1
      omega
    · rw [ht, ht1, hq1, List.append_assoc, ← List.map_append]
      congr 2
      rw [Nat.add_comm n 1, List.take_add]

theorem client_call_free {σ : Type} (request : client_call) (self : bill_validator σ)
    (hfree : request = .get_device_info request.promised_result
      ∨ request = .get_cash_types request.promised_result) :
    ∃ command : handler_command,
      (command.code = .get_device_info ∨ command.code = .get_bill_types)
        ∧ command.result = request.promised_result
        ∧ request.perform self = { self with cmd_queue := self.cmd_queue ++ [command] } := by
  rcases hfree with h | h
  · rw [h]
    exact ⟨⟨.get_device_info, [], request.promised_result⟩, Or.inl rfl, rfl, rfl⟩
  · rw [h]
    exact ⟨⟨.get_bill_types, [], request.promised_result⟩, Or.inr rfl, rfl, rfl⟩

theorem two_requests_in_order {σ : Type} (env : environment σ) (self : bill_validator σ)
    (first second : client_call) (i j : Nat)
    (hquiet : ∀ world, ∃ response state,
      (env.get_command_result ⟨device_command_code.poll, []⟩ world).1 = .ok response
        ∧ decode_poll response = .ok state
        ∧ state.code = self.current_device_state.code)
    (hqueue : ∀ command ∈ self.cmd_queue,
      command.code = .get_device_info ∨ command.code = .get_bill_types)
    (hfirst : first = .get_device_info first.promised_result
      ∨ first = .get_cash_types first.promised_result)
    (hsecond : second = .get_device_info second.promised_result
      ∨ second = .get_cash_types second.promised_result) :
    fulfilled (interleaving env
        ([.call first] ++ List.replicate i .pass ++ [.call second] ++ List.replicate j .pass)
        self).trace
      = fulfilled self.trace
        ++ (self.cmd_queue.map handler_command.result ++ [first.promised_result]).take i
        ++ ((self.cmd_queue.map handler_command.result ++ [first.promised_result]).drop i
            ++ [second.promised_result]).take j
    ∧ (interleaving env
        ([.call first] ++ List.replicate i .pass ++ [.call second] ++ List.replicate j .pass)
        self).cmd_queue.map handler_command.result
      = ((self.cmd_queue.map handler_command.result ++ [first.promised_result]).drop i
            ++ [second.promised_result]).drop j := by
  obtain ⟨c1, hc1, hr1, hp1⟩ := client_call_free first self hfirst
  have hsteps : [thread_step.call first] ++ List.replicate i .pass ++ [.call second]
      ++ List.replicate j .pass
      = .call first :: (List.replicate i .pass ++ (.call second :: (List.replicate j .pass ++ []))) := by
    simp
  rw [hsteps, interleaving, hp1]
  obtain ⟨s1, hrun1, hcode1, hq1, ht1⟩ := quiet_passes env self.current_device_state.code
    hquiet i { self with cmd_queue := self.cmd_queue ++ [c1] }
    (.call second :: (List.replicate j .pass ++ [])) rfl (fun command hmem => by
      rcases List.mem_append.mp hmem with h | h
      · exact hqueue command h
      · rw [List.mem_singleton.mp h]
        exact hc1)
  obtain ⟨c2, hc2, hr2, hp2⟩ := client_call_free second s1 hsecond
  rw [hrun1, interleaving, hp2]
  obtain ⟨s2, hrun2, -, hq2, ht2⟩ := quiet_passes env self.current_device_state.code
    hquiet j { s1 with cmd_queue := s1.cmd_queue ++ [c2] } [] hcode1 (fun command hmem => by
      rcases List.mem_append.mp hmem with h | h
      · rw [hq1] at h
        rcases List.mem_append.mp (List.mem_of_mem_drop h) with h | h
        · exact hqueue command h
        · rw [List.mem_singleton.mp h]
          exact hc1
      · rw [List.mem_singleton.mp h]
        exact hc2)
  rw [hrun2, interleaving, ht2, hq2]
  simp only at ht1 hq1 ⊢
  rw [ht1, hq1]
  simp only [List.map_take, List.map_drop, List.map_append, List.map_cons, List.map_nil, hr1,
    hr2, List.append_assoc]
  exact ⟨trivial, trivial⟩

theorem handler_catch_tail {σ : Type} (result : Nat) (e : error) (self : bill_validator σ) :
    ∃ tail, (handler_catch result e self).trace = self.trace ++ tail
      ∧ (tail = [] ∨ ∃ value, tail = [event.promise result value]) := by
  unfold handler_catch
  split
  · exact ⟨[], by simp, Or.inl rfl⟩
  · exact ⟨[event.promise result (.exception .command_processing_error)], rfl,
      Or.inr ⟨_, rfl⟩⟩

theorem get_handler_events {σ : Type} (env : environment σ) (data : List Nat)
    (result : Nat) (self : bill_validator σ) :
    (∃ tail, (get_enabled_bill_types_handler env data result self).2.trace
          = self.trace ++ event.device ⟨device_command_code.get_status, data⟩ :: tail
        ∧ (tail = [] ∨ ∃ value, tail = [event.promise result value]))
      ∧ ∃ tail, (get_bill_types_security_levels_handler env data result self).2.trace
          = self.trace ++ event.device ⟨device_command_code.get_status, data⟩ :: tail
        ∧ (tail = [] ∨ ∃ value, tail = [event.promise result value]) := by
  have hcatch : ∀ (e : error) (self1 : bill_validator σ)
      (r : Except error (List Nat)),
      call_get_command_result env ⟨device_command_code.get_status, data⟩ self = (r, self1) →
      ∃ tail, (handler_catch result e self1).trace
          = self.trace ++ event.device ⟨device_command_code.get_status, data⟩ :: tail
        ∧ (tail = [] ∨ ∃ value, tail = [event.promise result value]) := by
    intro e self1 r heq
    obtain ⟨tail, ht, hcase⟩ := handler_catch_tail result e self1
    refine ⟨tail, ?_, hcase⟩
    rw [ht, after_get_frame env _ _ self1 _ heq]
    simp
  have hdone : ∀ (value : promise_value) (self1 : bill_validator σ)
      (r : Except error (List Nat)),
      call_get_command_result env ⟨device_command_code.get_status, data⟩ self = (r, self1) →
      ∃ tail, (complete result value self1).trace
          = self.trace ++ event.device ⟨device_command_code.get_status, data⟩ :: tail
        ∧ (tail = [] ∨ ∃ value, tail = [event.promise result value]) := by
    intro value self1 r heq
    refine ⟨[event.promise result value], ?_, Or.inr ⟨value, rfl⟩⟩
    rw [after_get_frame env _ _ self1 _ heq]
    simp [complete]
  constructor
  · unfold get_enabled_bill_types_handler
    split
    · rename_i e self1 heq
      exact hcatch e self1 _ heq
    · rename_i response self1 heq
      split
      · exact hcatch _ self1 _ heq
      · exact hdone _ self1 _ heq
  · unfold get_bill_types_security_levels_handler
    split
    · rename_i e self1 heq
      exact hcatch e self1 _ heq
    · rename_i response self1 heq
      split
      · exact hcatch _ self1 _ heq
      · split
        · exact hcatch _ self1 _ heq
        · exact hdone _ self1 _ heq

theorem set_handler_events {σ : Type} (env : environment σ) (data : List Nat)
    (result : Nat) (self : bill_validator σ) :
    (∃ tail, (set_enabled_bill_types_handler env data result self).2.trace
          = self.trace ++ event.device ⟨device_command_code.enable_bill_types, data⟩ :: tail
        ∧ (tail = [] ∨ ∃ value, tail = [event.promise result value]))
      ∧ ∃ tail, (set_bill_types_security_levels_handler env data result self).2.trace
          = self.trace ++ event.device ⟨device_command_code.set_security, data⟩ :: tail
        ∧ (tail = [] ∨ ∃ value, tail = [event.promise result value]) := by
  have hcatch : ∀ (command : device_command) (e : error) (self1 : bill_validator σ)
      (r : Except error Unit),
      call_send_command env command self = (r, self1) →
      ∃ tail, (handler_catch result e self1).trace
          = self.trace ++ event.device command :: tail
        ∧ (tail = [] ∨ ∃ value, tail = [event.promise result value]) := by
    intro command e self1 r heq
    obtain ⟨tail, ht, hcase⟩ := handler_catch_tail result e self1
    refine ⟨tail, ?_, hcase⟩
    rw [ht, after_send_frame env _ _ self1 _ heq]
    simp
  have hdone : ∀ (command : device_command) (value : promise_value)
      (self1 : bill_validator σ) (r : Except error Unit),
      call_send_command env command self = (r, self1) →
      ∃ tail, (complete result value self1).trace
          = self.trace ++ event.device command :: tail
        ∧ (tail = [] ∨ ∃ value, tail = [event.promise result value]) := by
    intro command value self1 r heq
    refine ⟨[event.promise result value], ?_, Or.inr ⟨value, rfl⟩⟩
    rw [after_send_frame env _ _ self1 _ heq]
    simp [complete]
  constructor
  · unfold set_enabled_bill_types_handler
    split
    · rename_i e self1 heq
      exact hcatch _ e self1 _ heq
    · rename_i self1 heq
      exact hdone _ _ self1 _ heq
  · unfold set_bill_types_security_levels_handler
    split
    · rename_i e self1 heq
      exact hcatch _ e self1 _ heq
    · rename_i self1 heq
      exact hdone _ _ self1 _ heq

theorem serve_request_handles {σ : Type} (env : environment σ) (self : bill_validator σ)
    (current_command : handler_command) (rest : List handler_command)
    (hqueue : self.cmd_queue = current_command :: rest) :
    (current_command.code = .get_device_info →
        serve_request env self
          = (.ok (), complete current_command.result
              (.device_info self.connected_device_info) { self with cmd_queue := rest }))
      ∧ (current_command.code = .get_bill_types →
        serve_request env self
          = (.ok (), complete current_command.result
              (.cash_types
                (self.bill_types_by_numbers.foldl (fun set p => set_insert set p.2) []))
              { self with cmd_queue := rest }))
      ∧ (current_command.code = .get_enabled_bill_types
          ∨ current_command.code = .get_bill_types_security_levels →
        ∃ tail, (serve_request env self).2.trace
            = self.trace
              ++ event.device ⟨device_command_code.get_status, current_command.data⟩ :: tail
          ∧ (tail = [] ∨ ∃ value, tail = [event.promise current_command.result value]))
      ∧ (current_command.code = .set_enabled_bill_types →
        ∃ tail, (serve_request env self).2.trace
            = self.trace
              ++ event.device ⟨device_command_code.enable_bill_types, current_command.data⟩
                :: tail
          ∧ (tail = [] ∨ ∃ value, tail = [event.promise current_command.result value]))
      ∧ (current_command.code = .set_bill_types_security_levels →
        ∃ tail, (serve_request env self).2.trace
            = self.trace
              ++ event.device ⟨device_command_code.set_security, current_command.data⟩ :: tail
          ∧ (tail = [] ∨ ∃ value, tail = [event.promise current_command.result value])) := by
  refine ⟨?_, ?_, ?_, ?_, ?_⟩
  · intro hc
    simp only [serve_request, hqueue, hc, get_device_info_handler]
  · intro hc
    simp only [serve_request, hqueue, hc, get_bill_types_handler]
  · intro hc
    rcases hc with hc | hc
    · simp only [serve_request, hqueue, hc]
      exact (get_handler_events env _ _ { self with cmd_queue := rest }).1
    · simp only [serve_request, hqueue, hc]
      exact (get_handler_events env _ _ { self with cmd_queue := rest }).2
  · intro hc
    simp only [serve_request, hqueue, hc]
    exact (set_handler_events env _ _ { self with cmd_queue := rest }).1
  · intro hc
    simp only [serve_request, hqueue, hc]
    exact (set_handler_events env _ _ { self with cmd_queue := rest }).2

/-- C25: the request queue is first in, first out, with one consumer.
The calls `get_device_info`, `get_enabled_cash_types`,
`get_cash_types_security_levels` and `get_cash_types` append exactly one
request to the back of the queue and change nothing else;
`set_enabled_cash_types` and `set_cash_types_security_levels` do the same
when they return, and leave the controller unchanged when they throw. A
pass of the inner cycle leaves the queue as it is and completes no
promise, or removes exactly the front request and completes no promise but
that of this request (it completes none only if the handler ends the
pass with an error). For every interleaving of calls, initializations and
passes, the promises completed are, in the order of their completion, a
prefix of: the promises completed before, the requests waiting at the
start, front first, and the requests enqueued by the calls, in the order of
the calls.

A pass does remove and handle the front request. With an empty queue a pass
leaves the queue empty and completes no promise. With a request at the
front, a pass that returns normally and did not start in
DropCassetteOutOfPos removes that request and completes exactly its
promise; for a pass that returns normally, with `state` the state its Poll
reported, the request stays and no promise is completed exactly when the
pass started in DropCassetteOutOfPos and `state` is another state (the
pass then asks for a new initialization), and otherwise the front request
is removed and its promise completed. Whatever the pass returns, either
the queue and the completed promises are unchanged, and then the pass
ended with an error or started in DropCassetteOutOfPos and asks for a new
initialization, or the front request is removed, and then its promise is
completed unless the pass ended with a failed assertion or an undefined
operation. The request part hands the front request to the handler of its
code: `get_device_info` and `get_bill_types` complete its promise with the
cached device info and the cash types of the bill table; the other four
start an exchange for GetStatus, EnableBillTypes or SetSecurity with the
data of the request and complete no promise but that of the request.

Hence `n` successive passes that all return normally, none of them
starting in DropCassetteOutOfPos, complete the promises of the first `n`
waiting requests, front first, and leave the others queued. And when the
device reports at every Poll the state the controller saw last, and the
requests waiting need no exchange, a call `first`, `i` passes, a call
`second` and `j` passes, where both calls are `get_device_info` or
`get_cash_types`, complete, with `queue` the promises waiting at the
start, the first `i` promises of `queue ++ [first]` and then the first `j`
promises of what is left of it followed by `second`: the promise of
`first` is never completed after that of `second`, for every `i` and
`j`. -/
theorem request_queue_is_fifo {σ : Type} (env : environment σ) (self : bill_validator σ)
    (promised_result : Nat) (steps : List thread_step) :
    (get_device_info promised_result self).2
        = { self with
            cmd_queue := self.cmd_queue ++ [⟨.get_device_info, [], promised_result⟩] }
      ∧ (get_enabled_cash_types promised_result self).2
        = { self with
            cmd_queue := self.cmd_queue ++ [⟨.get_enabled_bill_types, [], promised_result⟩] }
      ∧ (get_cash_types_security_levels promised_result self).2
        = { self with
            cmd_queue :=
              self.cmd_queue ++ [⟨.get_bill_types_security_levels, [], promised_result⟩] }
      ∧ (get_cash_types promised_result self).2
        = { self with cmd_queue := self.cmd_queue ++ [⟨.get_bill_types, [], promised_result⟩] }
      ∧ (∀ enabled_bill_types,
          (∃ e, set_enabled_cash_types enabled_bill_types promised_result self
              = (.error e, self))
            ∨ ∃ data, set_enabled_cash_types enabled_bill_types promised_result self
              = (.ok promised_result,
                  { self with
                    cmd_queue := self.cmd_queue ++
                      [⟨.set_enabled_bill_types, data, promised_result⟩] }))
      ∧ (∀ security_levels,
          (∃ e, set_cash_types_security_levels security_levels promised_result self
              = (.error e, self))
            ∨ ∃ data, set_cash_types_security_levels security_levels promised_result self
              = (.ok promised_result,
                  { self with
                    cmd_queue := self.cmd_queue ++
                      [⟨.set_bill_types_security_levels, data, promised_result⟩] }))
      ∧ (((operate_pass env self).2.cmd_queue = self.cmd_queue
            ∧ fulfilled (operate_pass env self).2.trace = fulfilled self.trace)
          ∨ ∃ current_command rest, self.cmd_queue = current_command :: rest
            ∧ (operate_pass env self).2.cmd_queue = rest
            ∧ (fulfilled (operate_pass env self).2.trace
                = fulfilled self.trace ++ [current_command.result]
              ∨ fulfilled (operate_pass env self).2.trace = fulfilled self.trace
                ∧ (operate_pass env self).1 ≠ .ok ()))
      ∧ (∃ enqueued dropped : List Nat, List.Sublist enqueued (requested steps)
          ∧ dropped.length ≤ 1
          ∧ fulfilled (interleaving env steps self).trace ++ dropped
              ++ (interleaving env steps self).cmd_queue.map handler_command.result
            = fulfilled self.trace ++ self.cmd_queue.map handler_command.result ++ enqueued
          ∧ List.IsPrefix (fulfilled (interleaving env steps self).trace)
              (fulfilled self.trace ++ self.cmd_queue.map handler_command.result
                ++ enqueued))
      ∧ (self.cmd_queue = [] →
          (operate_pass env self).2.cmd_queue = []
            ∧ fulfilled (operate_pass env self).2.trace = fulfilled self.trace)
      ∧ (∀ current_command rest, self.cmd_queue = current_command :: rest →
          self.current_device_state.code ≠ device_state_code.drop_cassette_out_of_pos →
          (operate_pass env self).1 = .ok () →
          (operate_pass env self).2.cmd_queue = rest
            ∧ fulfilled (operate_pass env self).2.trace
              = fulfilled self.trace ++ [current_command.result])
      ∧ (∀ current_command rest state, self.cmd_queue = current_command :: rest →
          (poll env { self with previous_device_state := self.current_device_state }).1
            = .ok state →
          (operate_pass env self).1 = .ok () →
          if self.current_device_state.code = device_state_code.drop_cassette_out_of_pos
              ∧ state.code ≠ device_state_code.drop_cassette_out_of_pos then
            (operate_pass env self).2.cmd_queue = current_command :: rest
              ∧ fulfilled (operate_pass env self).2.trace = fulfilled self.trace
              ∧ (operate_pass env self).2.initialization_required = true
          else
            (operate_pass env self).2.cmd_queue = rest
              ∧ fulfilled (operate_pass env self).2.trace
                = fulfilled self.trace ++ [current_command.result])
      ∧ (∀ current_command rest, self.cmd_queue = current_command :: rest →
          ((operate_pass env self).2.cmd_queue = current_command :: rest
              ∧ fulfilled (operate_pass env self).2.trace = fulfilled self.trace
              ∧ ((operate_pass env self).1 ≠ .ok ()
                ∨ self.current_device_state.code = device_state_code.drop_cassette_out_of_pos
                  ∧ (operate_pass env self).2.initialization_required = true))
            ∨ ((operate_pass env self).2.cmd_queue = rest
              ∧ fulfilled (operate_pass env self).2.trace =
                if (operate_pass env self).1 = .error .assertion_failed
                    ∨ (operate_pass env self).1 = .error .division_by_zero then
                  fulfilled self.trace
                else fulfilled self.trace ++ [current_command.result]))
      ∧ (∀ current_command rest, self.cmd_queue = current_command :: rest →
          (serve_request env self).2.cmd_queue = rest
            ∧ (current_command.code = .get_device_info →
              serve_request env self
                = (.ok (), complete current_command.result
                    (.device_info self.connected_device_info)
                    { self with cmd_queue := rest }))
            ∧ (current_command.code = .get_bill_types →
              serve_request env self
                = (.ok (), complete current_command.result
                    (.cash_types
                      (self.bill_types_by_numbers.foldl (fun set p => set_insert set p.2) []))
                    { self with cmd_queue := rest }))
            ∧ (current_command.code = .get_enabled_bill_types
                ∨ current_command.code = .get_bill_types_security_levels →
              ∃ tail, (serve_request env self).2.trace
                  = self.trace
                    ++ event.device ⟨device_command_code.get_status, current_command.data⟩
                      :: tail
                ∧ (tail = [] ∨ ∃ value, tail = [event.promise current_command.result value]))
            ∧ (current_command.code = .set_enabled_bill_types →
              ∃ tail, (serve_request env self).2.trace
                  = self.trace
                    ++ event.device
                        ⟨device_command_code.enable_bill_types, current_command.data⟩
                      :: tail
                ∧ (tail = [] ∨ ∃ value, tail = [event.promise current_command.result value]))
            ∧ (current_command.code = .set_bill_types_security_levels →
              ∃ tail, (serve_request env self).2.trace
                  = self.trace
                    ++ event.device ⟨device_command_code.set_security, current_command.data⟩
                      :: tail
                ∧ (tail = [] ∨ ∃ value, tail = [event.promise current_command.result value])))
      ∧ (∀ n : Nat,
          (∀ k, k < n →
            (operate_pass env (interleaving env (List.replicate k .pass) self)).1 = .ok ()
              ∧ (interleaving env (List.replicate k .pass) self).current_device_state.code
                ≠ device_state_code.drop_cassette_out_of_pos) →
          (interleaving env (List.replicate n .pass) self).cmd_queue = self.cmd_queue.drop n
            ∧ fulfilled (interleaving env (List.replicate n .pass) self).trace
              = fulfilled self.trace ++ (self.cmd_queue.take n).map handler_command.result)
      ∧ (∀ (first second : client_call) (i j : Nat),
          (∀ world, ∃ response state,
            (env.get_command_result ⟨device_command_code.poll, []⟩ world).1 = .ok response
              ∧ decode_poll response = .ok state
              ∧ state.code = self.current_device_state.code) →
          (∀ command ∈ self.cmd_queue,
            command.code = .get_device_info ∨ command.code = .get_bill_types) →
          (first = .get_device_info first.promised_result
            ∨ first = .get_cash_types first.promised_result) →
          (second = .get_device_info second.promised_result
            ∨ second = .get_cash_types second.promised_result) →
          fulfilled (interleaving env
              ([.call first] ++ List.replicate i .pass ++ [.call second]
                ++ List.replicate j .pass) self).trace
            = fulfilled self.trace
              ++ (self.cmd_queue.map handler_command.result
                  ++ [first.promised_result]).take i
              ++ ((self.cmd_queue.map handler_command.result
                    ++ [first.promised_result]).drop i
                  ++ [second.promised_result]).take j
          ∧ (interleaving env
              ([.call first] ++ List.replicate i .pass ++ [.call second]
                ++ List.replicate j .pass) self).cmd_queue.map handler_command.result
            = ((self.cmd_queue.map handler_command.result
                  ++ [first.promised_result]).drop i
                ++ [second.promised_result]).drop j) := by
  refine ⟨rfl, rfl, rfl, rfl, ?_, ?_, operate_pass_queue env self, ?_,
    operate_pass_empty env self, operate_pass_serves env self, operate_pass_ok env self,
    operate_pass_outcome env self, ?_, fun n => passes_serve_front env n self,
    fun first second i j => two_requests_in_order env self first second i j⟩
  · intro enabled_bill_types
    unfold set_enabled_cash_types
    split
    · exact Or.inl ⟨_, rfl⟩
    · exact Or.inr ⟨_, rfl⟩
  · intro security_levels
    unfold set_cash_types_security_levels
    split
    · exact Or.inl ⟨_, rfl⟩
    · exact Or.inr ⟨_, rfl⟩
  · obtain ⟨enqueued, dropped, hsub, hlen, heq⟩ := interleaving_invariant env steps self
    exact ⟨enqueued, dropped, hsub, hlen, heq,
      ⟨dropped ++ (interleaving env steps self).cmd_queue.map handler_command.result,
        by rw [← heq, List.append_assoc]⟩⟩
  · intro current_command rest hqueue
    exact ⟨(serve_request_outcome env self current_command rest hqueue).1,
      serve_request_handles env self current_command rest hqueue⟩

/-- C25, an instance: the device reports Idling at every Poll and the
controller, in Idling, has an empty queue. A call of `get_device_info`
with the promise 7, two passes, a call of `get_cash_types` with the promise
9 and three passes complete the promises 7 and 9, in this order, and leave
the queue empty; and from a queue holding the promises 7, 9 and 11, two
passes, which both return normally, complete 7 and 9 and leave 11 queued. -/
theorem request_queue_is_fifo_witness :
    (∀ world : Unit, ∃ response state,
        ((steady_device device_state_code.idling).get_command_result
            ⟨device_command_code.poll, []⟩ world).1 = .ok response
          ∧ decode_poll response = .ok state
          ∧ state.code = device_state_code.idling)
      ∧ (fulfilled (interleaving (steady_device device_state_code.idling)
            ([.call (.get_device_info 7)] ++ List.replicate 2 .pass
              ++ [.call (.get_cash_types 9)] ++ List.replicate 3 .pass)
            (bill_validator.polling () [] [] ⟨device_state_code.idling, 0⟩)).trace = [7, 9]
        ∧ (interleaving (steady_device device_state_code.idling)
            ([.call (.get_device_info 7)] ++ List.replicate 2 .pass
              ++ [.call (.get_cash_types 9)] ++ List.replicate 3 .pass)
            (bill_validator.polling () [] [] ⟨device_state_code.idling, 0⟩)).cmd_queue.map
              handler_command.result = [])
      ∧ ((interleaving (steady_device device_state_code.idling) (List.replicate 2 .pass)
            (bill_validator.polling () []
              [⟨.get_device_info, [], 7⟩, ⟨.get_bill_types, [], 9⟩, ⟨.get_device_info, [], 11⟩]
              ⟨device_state_code.idling, 0⟩)).cmd_queue = [⟨.get_device_info, [], 11⟩]
        ∧ fulfilled (interleaving (steady_device device_state_code.idling)
            (List.replicate 2 .pass)
            (bill_validator.polling () []
              [⟨.get_device_info, [], 7⟩, ⟨.get_bill_types, [], 9⟩, ⟨.get_device_info, [], 11⟩]
              ⟨device_state_code.idling, 0⟩)).trace = [7, 9]) :=
  ⟨fun _ => ⟨[device_state_code.idling], ⟨device_state_code.idling, 0⟩, rfl, rfl, rfl⟩,
    (request_queue_is_fifo (steady_device device_state_code.idling)
      (bill_validator.polling () [] [] ⟨device_state_code.idling, 0⟩) 0
      []).2.2.2.2.2.2.2.2.2.2.2.2.2.2
      (.get_device_info 7) (.get_cash_types 9) 2 3
      (fun _ => ⟨[device_state_code.idling], ⟨device_state_code.idling, 0⟩, rfl, rfl, rfl⟩)
      (fun _ h => absurd h (List.not_mem_nil _)) (Or.inl rfl) (Or.inr rfl),
    (request_queue_is_fifo (steady_device device_state_code.idling)
      (bill_validator.polling () []
        [⟨.get_device_info, [], 7⟩, ⟨.get_bill_types, [], 9⟩, ⟨.get_device_info, [], 11⟩]
        ⟨device_state_code.idling, 0⟩) 0
      []).2.2.2.2.2.2.2.2.2.2.2.2.2.1 2
      (by decide)⟩

end ccnet
